import Mathlib

/-!
# Verification of the wasp WebAssembly text parser and tools

This development shallowly embeds the text-format reader of the wasp
library (`src/text/read.cc`) and the `dump` tool driver
(`src/tools/dump.cc`) in Lean and proves properties of them.

Modelling conventions:

* The tokenizer is not part of the sources under verification; a
  `Token` is modelled as a record carrying the classification and the
  payloads the parser consults (`type`, `opcode`, `opcode_features`,
  literal sign and magnitude, …), and a tokenizer is a list of tokens.
* Machine integers are `Nat`/`Int` with explicit range checks where the
  numeric conversion functions perform them.
* Locations are token positions (`Nat`).  The `At<T>` wrapper of the
  C++ sources is kept only on instruction-list elements and module
  items, where reads attach locations that properties talk about; it is
  elided on inner values whose locations only feed diagnostics.
* Diagnostic messages are built by string concatenation following the
  format strings of the source; values embedded in a message are
  rendered by small helper functions.  Floating-point payloads are kept
  abstract (carried through as the literal's integer payload); no
  property proved here depends on float semantics.
* Readers are state-passing functions `St → Option α × St`, where `St`
  is the tokenizer plus the read `Context`; a `none` result models the
  C++ `nullopt` return (the state, in particular the accumulated error
  list, is kept, as the C++ error sink is).  Loops and recursion are
  fuel-indexed; running out of fuel is modelled as a failing read.
-/

namespace Wasp

/-- Sign of a numeric literal (`LiteralInfo::sign`). -/
inductive Sign where
  | noSign
  | plus
  | minus
deriving DecidableEq

/-- The independent feature flags of a feature set (`wasp/base/features.h`). -/
inductive Feature where
  | mutable_globals
  | saturating_float_to_int
  | sign_extension
  | simd
  | threads
  | multi_value
  | tail_call
  | bulk_memory
  | reference_types
  | exceptions
  | function_references
  | gc
deriving DecidableEq

/-- Modelled from the spec: a feature set is a finite set of independent
boolean flags (`wasp/base/features.h`, not under `src/`); all flags are
disabled in a default-constructed `Features`. -/
structure Features where
  mutable_globals : Bool := false
  saturating_float_to_int : Bool := false
  sign_extension : Bool := false
  simd : Bool := false
  threads : Bool := false
  multi_value : Bool := false
  tail_call : Bool := false
  bulk_memory : Bool := false
  reference_types : Bool := false
  exceptions : Bool := false
  function_references : Bool := false
  gc : Bool := false
deriving DecidableEq

def Features.get (f : Features) : Feature → Bool
  | .mutable_globals => f.mutable_globals
  | .saturating_float_to_int => f.saturating_float_to_int
  | .sign_extension => f.sign_extension
  | .simd => f.simd
  | .threads => f.threads
  | .multi_value => f.multi_value
  | .tail_call => f.tail_call
  | .bulk_memory => f.bulk_memory
  | .reference_types => f.reference_types
  | .exceptions => f.exceptions
  | .function_references => f.function_references
  | .gc => f.gc

/-- `Features::HasFeatures`: every required feature is enabled. -/
def Features.hasFeatures (f : Features) (req : List Feature) : Bool :=
  req.all f.get

/-- `Features new_features; new_features.enable_reference_types();` —
the feature set with exactly `reference_types` enabled. -/
def refOnlyFeatures : Features := { reference_types := true }

/-- Value types of the text format (`value_type.def`). -/
inductive ValueType where
  | i32
  | i64
  | f32
  | f64
  | v128
  | funcref
  | externref
  | exnref
deriving DecidableEq

/-- Modelled from the spec: the features each value type requires
(`value_type.def`, not under `src/`): `v128` needs `simd`, `funcref`
and `externref` as value types need `reference_types`, `exnref` needs
`exceptions`. -/
def ValueType.requiredFeatures : ValueType → List Feature
  | .i32 => []
  | .i64 => []
  | .f32 => []
  | .f64 => []
  | .v128 => [.simd]
  | .funcref => [.reference_types]
  | .externref => [.reference_types]
  | .exnref => [.exceptions]

/-- Reference types of the text format (`reference_type.def`). -/
inductive ReferenceType where
  | funcref
  | externref
  | exnref
deriving DecidableEq

/-- Modelled from the spec: the reference-type view of a value type and
its gating features (`reference_type.def`, not under `src/`):
`funcref` is ungated as a reference type, `externref` needs
`reference_types`, `exnref` needs `exceptions`. -/
def ValueType.asReferenceType : ValueType → Option (ReferenceType × List Feature)
  | .funcref => some (.funcref, [])
  | .externref => some (.externref, [.reference_types])
  | .exnref => some (.exnref, [.exceptions])
  | _ => none

/-- The opcodes this embedding mentions.  The parser treats opcodes as
opaque token payloads; only the opcodes it names explicitly need
constructors of their own. -/
inductive Opcode where
  | unreachable
  | nop
  | block
  | loop
  | ifOp
  | elseOp
  | endOp
  | tryOp
  | catchOp
  | br
  | brIf
  | brTable
  | brOnExn
  | call
  | callIndirect
  | drop
  | select
  | selectT
  | localGet
  | localSet
  | globalGet
  | i32Const
  | i64Const
  | f32Const
  | f64Const
  | v128Const
  | i32Load
  | i32Store
  | memorySize
  | memoryGrow
  | memoryCopy
  | memoryInit
  | memoryFill
  | tableCopy
  | tableInit
  | refNull
  | refFunc
  | refIsNull
  | i8x16Shuffle
  | i8x16ExtractLaneS
  | i32x4Splat
deriving DecidableEq

/-- Token classification (`token_type.def`). -/
inductive TokenType where
  | lpar
  | rpar
  | id
  | nat
  | int
  | float
  | text
  | valueType
  | typeTok
  | func
  | importTok
  | exportTok
  | memory
  | dataTok
  | elem
  | table
  | global
  | event
  | localTok
  | param
  | result
  | mutTok
  | offsetTok
  | item
  | thenTok
  | elseTok
  | endTok
  | catchTok
  | declare
  | shared
  | startTok
  | bareInstr
  | blockInstr
  | varInstr
  | memoryInstr
  | memoryCopyInstr
  | memoryInitInstr
  | refFuncInstr
  | refNullInstr
  | selectInstr
  | simdConstInstr
  | simdLaneInstr
  | simdShuffleInstr
  | tableCopyInstr
  | tableInitInstr
  | brOnExnInstr
  | brTableInstr
  | callIndirectInstr
  | f32ConstInstr
  | f64ConstInstr
  | i32ConstInstr
  | i64ConstInstr
  | alignEqNat
  | offsetEqNat
  | i8x16
  | i16x8
  | i32x4
  | i64x2
  | f32x4
  | f64x2
  | eof
deriving DecidableEq

/-- Quoted text payload: the escape-processed string, its byte size, and
whether the escape-processed bytes are valid UTF-8 (the raw bytes are
not represented; validity is carried as an attribute). -/
structure Text where
  str : String := ""
  byte_size : Nat := 0
  valid_utf8 : Bool := true
deriving DecidableEq

/-- A classified token together with the payloads the parser consults.
Payload fields are meaningful only for the token types that carry them. -/
structure Token where
  type : TokenType
  loc : Nat := 0
  opcode : Opcode := .nop
  opcode_features : List Feature := []
  name : String := ""
  natVal : Nat := 0
  sign : Sign := .noSign
  valueType : ValueType := .i32
  text : Text := {}
deriving DecidableEq

def eofToken : Token := { type := .eof }

/-- A variable reference: by `$name` or by numeric index. -/
inductive Var where
  | name (s : String)
  | index (n : Nat)
deriving DecidableEq

/-- A location-carrying value (`At<T>`); kept where properties mention
locations. -/
structure At (α : Type) where
  loc : Nat := 0
  value : α
deriving DecidableEq

/-- An optional `$name` binding (`BindVar`). -/
abbrev BindVar := String

/-- A function type: parameter and result value types. -/
structure FunctionType where
  params : List ValueType := []
  results : List ValueType := []
deriving DecidableEq

/-- A parameter/local with an optional bound name. -/
structure BoundValueType where
  name : Option BindVar := none
  valtype : ValueType
deriving DecidableEq

/-- A function type whose parameters may carry names. -/
structure BoundFunctionType where
  params : List BoundValueType := []
  results : List ValueType := []
deriving DecidableEq

/-- Strip the bound names off a `BoundFunctionType`. -/
def BoundFunctionType.toFunctionType (t : BoundFunctionType) : FunctionType :=
  { params := t.params.map (·.valtype), results := t.results }

/-- Wrap a `FunctionType` with unnamed parameters. -/
def FunctionType.toBound (t : FunctionType) : BoundFunctionType :=
  { params := t.params.map (fun v => { valtype := v }), results := t.results }

/-- A type use: optional `(type $t)` reference plus concrete type. -/
structure FunctionTypeUse where
  type_use : Option Var := none
  type : FunctionType := {}
deriving DecidableEq

/-- Modelled from the spec: `FunctionTypeUse{type_use?, type}` is inline
iff `type_use` is absent and the concrete type is empty
(`wasp/text/types.h`, not under `src/`). -/
def FunctionTypeUse.IsInlineType (f : FunctionTypeUse) : Bool :=
  f.type_use.isNone && f.type.params.isEmpty && f.type.results.isEmpty

structure BlockImmediate where
  label : Option BindVar := none
  type : FunctionTypeUse := {}
deriving DecidableEq

structure BrOnExnImmediate where
  target : Var
  event : Var
deriving DecidableEq

structure BrTableImmediate where
  targets : List Var := []
  default_target : Var
deriving DecidableEq

structure CallIndirectImmediate where
  table : Option Var := none
  type : FunctionTypeUse := {}
deriving DecidableEq

structure CopyImmediate where
  dst : Option Var := none
  src : Option Var := none
deriving DecidableEq

structure InitImmediate where
  segment : Var
  dst : Option Var := none
deriving DecidableEq

structure MemArgImmediate where
  align : Option Nat := none
  offset : Option Nat := none
deriving DecidableEq

/-- The immediate shapes an instruction can carry. -/
inductive Immediate where
  | noImm
  | s32 (v : Int)
  | s64 (v : Int)
  | f32 (v : Int)
  | f64 (v : Int)
  | v128 (lanes : List Int)
  | var (v : Var)
  | block (b : BlockImmediate)
  | brOnExn (b : BrOnExnImmediate)
  | brTable (b : BrTableImmediate)
  | callIndirect (c : CallIndirectImmediate)
  | copy (c : CopyImmediate)
  | init (i : InitImmediate)
  | memArg (m : MemArgImmediate)
  | refKind (r : ReferenceType)
  | selectImm (ts : List ValueType)
  | shuffle (lanes : List Int)
  | simdLane (n : Int)
deriving DecidableEq

structure Instruction where
  opcode : Opcode
  immediate : Immediate := .noImm
deriving DecidableEq

abbrev InstructionList := List (At Instruction)

structure ConstantExpression where
  instructions : InstructionList := []
deriving DecidableEq

structure ElementExpression where
  instructions : InstructionList := []
deriving DecidableEq

inductive ExternalKind where
  | function
  | table
  | memory
  | global
  | event
deriving DecidableEq

inductive SegmentType where
  | active
  | passive
  | declared
deriving DecidableEq

inductive Shared where
  | no
  | yes
deriving DecidableEq

inductive Mutability where
  | const
  | var
deriving DecidableEq

structure Limits where
  min : Nat
  max : Option Nat := none
  shared : Shared := .no
deriving DecidableEq

structure TableType where
  limits : Limits
  element : ReferenceType
deriving DecidableEq

structure MemoryType where
  limits : Limits
deriving DecidableEq

structure GlobalType where
  valtype : ValueType
  mutability : Mutability := .const
deriving DecidableEq

inductive EventAttribute where
  | exception
deriving DecidableEq

structure EventType where
  attr : EventAttribute := .exception
  type : FunctionTypeUse := {}
deriving DecidableEq

structure FunctionDesc where
  name : Option BindVar := none
  type_use : Option Var := none
  type : BoundFunctionType := {}
deriving DecidableEq

structure TableDesc where
  name : Option BindVar := none
  type : TableType
deriving DecidableEq

structure MemoryDesc where
  name : Option BindVar := none
  type : MemoryType
deriving DecidableEq

structure GlobalDesc where
  name : Option BindVar := none
  type : GlobalType
deriving DecidableEq

structure EventDesc where
  name : Option BindVar := none
  type : EventType := {}
deriving DecidableEq

structure InlineImport where
  module : Text
  name : Text
deriving DecidableEq

structure InlineExport where
  name : Text
deriving DecidableEq

inductive ImportDesc where
  | func (d : FunctionDesc)
  | table (d : TableDesc)
  | memory (d : MemoryDesc)
  | global (d : GlobalDesc)
  | event (d : EventDesc)
deriving DecidableEq

structure Import where
  module : Text := {}
  name : Text := {}
  desc : ImportDesc := .func {}
deriving DecidableEq

structure TypeEntry where
  bind_var : Option BindVar := none
  type : BoundFunctionType := {}
deriving DecidableEq

inductive ElementList where
  | vars (kind : ExternalKind) (vs : List Var)
  | exprs (elemtype : ReferenceType) (es : List ElementExpression)
deriving DecidableEq

structure Function where
  desc : FunctionDesc := {}
  locals : List BoundValueType := []
  instructions : InstructionList := []
  import_opt : Option InlineImport := none
  exports : List InlineExport := []
deriving DecidableEq

structure Table where
  desc : TableDesc
  import_opt : Option InlineImport := none
  exports : List InlineExport := []
  elements : Option ElementList := none
deriving DecidableEq

structure Memory where
  desc : MemoryDesc
  import_opt : Option InlineImport := none
  exports : List InlineExport := []
  data : List Text := []
deriving DecidableEq

structure Global where
  desc : GlobalDesc
  init : Option ConstantExpression := none
  import_opt : Option InlineImport := none
  exports : List InlineExport := []
deriving DecidableEq

structure Export where
  kind : ExternalKind
  name : Text
  var : Var
deriving DecidableEq

structure Start where
  var : Var
deriving DecidableEq

structure ElementSegment where
  name : Option BindVar := none
  segment_type : SegmentType := .active
  table : Option Var := none
  offset : Option ConstantExpression := none
  elements : ElementList
deriving DecidableEq

structure DataSegment where
  name : Option BindVar := none
  segment_type : SegmentType := .active
  memory : Option Var := none
  offset : Option ConstantExpression := none
  data : List Text := []
deriving DecidableEq

structure Event where
  desc : EventDesc := {}
  import_opt : Option InlineImport := none
  exports : List InlineExport := []
deriving DecidableEq

inductive ModuleItem where
  | typeEntry (t : TypeEntry)
  | imp (i : Import)
  | func (f : Function)
  | table (t : Table)
  | memory (m : Memory)
  | global (g : Global)
  | exp (e : Export)
  | start (s : Start)
  | elem (e : ElementSegment)
  | data (d : DataSegment)
  | event (e : Event)
deriving DecidableEq

abbrev Module := List (At ModuleItem)

/-!
## Name maps, the function type map and the read context

The implementations of `NameMap`, `FunctionTypeMap` and `Context` live
in headers that are not under `src/`; they are modelled from the spec.
-/

/-- Modelled from the spec: a name map stores bound names and unbound
placeholders in declaration order; indices are assigned implicitly in
order of declaration (`wasp/text/read/name_map.h`, not under `src/`). -/
structure NameMap where
  entries : List (Option String) := []
deriving DecidableEq

def NameMap.NewUnbound (m : NameMap) : NameMap :=
  { entries := m.entries ++ [none] }

def NameMap.NewBound (m : NameMap) (s : String) : NameMap :=
  { entries := m.entries ++ [some s] }

def NameMap.Has (m : NameMap) (s : String) : Bool :=
  m.entries.contains (some s)

/-- The index a bound name was assigned: its declaration position. -/
def NameMap.Get (m : NameMap) (s : String) : Nat :=
  m.entries.indexOf (some s)

def NameMap.Reset (_ : NameMap) : NameMap := {}

/-- Labels may shadow; the innermost binding is replaced/pushed. -/
def NameMap.ReplaceBound (m : NameMap) (s : String) : NameMap :=
  { entries := m.entries ++ [some s] }

/-- Modelled from the spec: the `function_type_map` records all inline
types in canonical (name-stripped) form as they are used, and the types
defined by type entries; at end-of-module it emits any inline types not
already present, in first-seen order (`wasp/text/read/context.h`, not
under `src/`). -/
structure FunctionTypeMap where
  defined : List FunctionType := []
  used : List FunctionType := []
deriving DecidableEq

def FunctionTypeMap.Define (m : FunctionTypeMap) (t : BoundFunctionType) :
    FunctionTypeMap :=
  { m with defined := m.defined ++ [t.toFunctionType] }

/-- `Use(FunctionTypeUse)`: an inline use (no explicit type reference)
records the concrete type for possible deferred emission. -/
def FunctionTypeMap.Use (m : FunctionTypeMap) (ftu : FunctionTypeUse) :
    FunctionTypeMap :=
  match ftu.type_use with
  | some _ => m
  | none => { m with used := m.used ++ [ftu.type] }

/-- `Use(OptAt<Var>, BoundFunctionType)`. -/
def FunctionTypeMap.UseBound (m : FunctionTypeMap) (type_use : Option Var)
    (t : BoundFunctionType) : FunctionTypeMap :=
  m.Use { type_use := type_use, type := t.toFunctionType }

/-- The used-but-not-defined types, first-seen order, deduplicated. -/
def deferredTypeList (defined : List FunctionType) :
    List FunctionType → List FunctionType
  | [] => []
  | t :: rest =>
    if t ∈ defined then deferredTypeList defined rest
    else t :: deferredTypeList (defined ++ [t]) rest

def FunctionTypeMap.EndModule (m : FunctionTypeMap) : List TypeEntry :=
  (deferredTypeList m.defined m.used).map fun t => { type := t.toBound }

/-- Modelled from the spec: the read context holds the feature set, the
error sink, the per-module name maps, the deferred function-type map
and the `seen_non_import`/`seen_start` flags
(`wasp/text/read/context.h`, not under `src/`).  The error sink is the
list of `(location, message)` diagnostics emitted so far. -/
structure Context where
  features : Features := {}
  errors : List (Nat × String) := []
  type_names : NameMap := {}
  function_names : NameMap := {}
  table_names : NameMap := {}
  memory_names : NameMap := {}
  global_names : NameMap := {}
  event_names : NameMap := {}
  element_segment_names : NameMap := {}
  data_segment_names : NameMap := {}
  local_names : NameMap := {}
  label_names : NameMap := {}
  label_name_stack : List (Option String) := []
  function_type_map : FunctionTypeMap := {}
  seen_non_import : Bool := false
  seen_start : Bool := false
deriving DecidableEq

/-- Modelled from the spec: `Context::BeginModule` resets all module
state but keeps the feature set and the error sink. -/
def Context.BeginModule (c : Context) : Context :=
  { features := c.features, errors := c.errors }

/-- `Context::EndModule`: the deferred synthetic type entries. -/
def Context.EndModule (c : Context) : List TypeEntry :=
  c.function_type_map.EndModule

/-- Modelled from the spec: `Context::EndBlock` pops the innermost
label scope. -/
def Context.EndBlock (c : Context) : Context :=
  { c with label_name_stack := c.label_name_stack.dropLast }

/-- The fresh context built by `Context{new_features, context.errors}`:
default module state, given features, shared error sink. -/
def Context.fresh (features : Features) (errors : List (Nat × String)) :
    Context :=
  { features := features, errors := errors }

/-!
## The reader monad

A reader is a state-passing function over the tokenizer (a token list)
and the context.  A `none` result is the C++ `nullopt`/`false` return;
state changes made before the failure (in particular emitted
diagnostics) are kept.
-/

structure St where
  toks : List Token
  ctx : Context
deriving DecidableEq

abbrev M (α : Type) : Type := St → Option α × St

instance : Monad M where
  pure a := fun s => (some a, s)
  bind x f := fun s =>
    match x s with
    | (some a, s') => f a s'
    | (none, s') => (none, s')

theorem M.pure_apply {α : Type} (a : α) (s : St) :
    (pure a : M α) s = (some a, s) := rfl

theorem M.bind_apply {α β : Type} (x : M α) (f : α → M β) (s : St) :
    (x >>= f) s =
      match x s with
      | (some a, s') => f a s'
      | (none, s') => (none, s') := rfl

def mfail {α : Type} : M α := fun s => (none, s)

/-- `tokenizer.Peek(k)`; peeking past the end yields the EOF token. -/
def St.peek (s : St) (k : Nat := 0) : Token :=
  s.toks.getD k eofToken

def mpeekN (k : Nat) : M Token := fun s => (some (s.peek k), s)

def mpeek : M Token := mpeekN 0

/-- `tokenizer.Read()`: consume and return the next token. -/
def mread : M Token := fun s =>
  (some (s.peek), { s with toks := s.toks.drop 1 })

/-- `tokenizer.Match(tt)`: consume the next token iff it has the
expected type; never fails. -/
def mmatch (tt : TokenType) : M (Option Token) := fun s =>
  if (s.peek).type = tt then
    (some (some (s.peek)), { s with toks := s.toks.drop 1 })
  else
    (some none, s)

/-- `tokenizer.MatchLpar(tt)`: consume `(` and the expected head
together iff both match; returns the head token. -/
def mmatchLpar (tt : TokenType) : M (Option Token) := fun s =>
  if (s.peek).type = .lpar ∧ (s.peek 1).type = tt then
    (some (some (s.peek 1)), { s with toks := s.toks.drop 2 })
  else
    (some none, s)

/-- `context.errors.OnError(loc, message)`. -/
def onError (loc : Nat) (msg : String) : M Unit := fun s =>
  (some (), { s with ctx := { s.ctx with errors := s.ctx.errors ++ [(loc, msg)] } })

def getCtx : M Context := fun s => (some s.ctx, s)

def modifyCtx (f : Context → Context) : M Unit := fun s =>
  (some (), { s with ctx := f s.ctx })

/-- The location used by a `LocationGuard` created at the current
position: the location of the token under the cursor. -/
def guardLoc : M Nat := fun s => (some (s.peek).loc, s)

/-- Run an action but discard its success/failure (a C++ call whose
return value is ignored). -/
def mignore {α : Type} (x : M α) : M Unit := fun s =>
  (some (), (x s).2)

/-!
## Rendering helpers for diagnostics

Diagnostic messages follow the format strings of the source; embedded
values are rendered by the functions below (a whole token is rendered
by its type name). -/

def TokenType.str : TokenType → String
  | .lpar => "Lpar"
  | .rpar => "Rpar"
  | .id => "Id"
  | .nat => "Nat"
  | .int => "Int"
  | .float => "Float"
  | .text => "Text"
  | .valueType => "ValueType"
  | .typeTok => "Type"
  | .func => "Func"
  | .importTok => "Import"
  | .exportTok => "Export"
  | .memory => "Memory"
  | .dataTok => "Data"
  | .elem => "Elem"
  | .table => "Table"
  | .global => "Global"
  | .event => "Event"
  | .localTok => "Local"
  | .param => "Param"
  | .result => "Result"
  | .mutTok => "Mut"
  | .offsetTok => "Offset"
  | .item => "Item"
  | .thenTok => "Then"
  | .elseTok => "Else"
  | .endTok => "End"
  | .catchTok => "Catch"
  | .declare => "Declare"
  | .shared => "Shared"
  | .startTok => "Start"
  | .bareInstr => "BareInstr"
  | .blockInstr => "BlockInstr"
  | .varInstr => "VarInstr"
  | .memoryInstr => "MemoryInstr"
  | .memoryCopyInstr => "MemoryCopyInstr"
  | .memoryInitInstr => "MemoryInitInstr"
  | .refFuncInstr => "RefFuncInstr"
  | .refNullInstr => "RefNullInstr"
  | .selectInstr => "SelectInstr"
  | .simdConstInstr => "SimdConstInstr"
  | .simdLaneInstr => "SimdLaneInstr"
  | .simdShuffleInstr => "SimdShuffleInstr"
  | .tableCopyInstr => "TableCopyInstr"
  | .tableInitInstr => "TableInitInstr"
  | .brOnExnInstr => "BrOnExnInstr"
  | .brTableInstr => "BrTableInstr"
  | .callIndirectInstr => "CallIndirectInstr"
  | .f32ConstInstr => "F32ConstInstr"
  | .f64ConstInstr => "F64ConstInstr"
  | .i32ConstInstr => "I32ConstInstr"
  | .i64ConstInstr => "I64ConstInstr"
  | .alignEqNat => "AlignEqNat"
  | .offsetEqNat => "OffsetEqNat"
  | .i8x16 => "I8X16"
  | .i16x8 => "I16X8"
  | .i32x4 => "I32X4"
  | .i64x2 => "I64X2"
  | .f32x4 => "F32X4"
  | .f64x2 => "F64X2"
  | .eof => "Eof"

def Opcode.str : Opcode → String
  | .unreachable => "unreachable"
  | .nop => "nop"
  | .block => "block"
  | .loop => "loop"
  | .ifOp => "if"
  | .elseOp => "else"
  | .endOp => "end"
  | .tryOp => "try"
  | .catchOp => "catch"
  | .br => "br"
  | .brIf => "br_if"
  | .brTable => "br_table"
  | .brOnExn => "br_on_exn"
  | .call => "call"
  | .callIndirect => "call_indirect"
  | .drop => "drop"
  | .select => "select"
  | .selectT => "select"
  | .localGet => "local.get"
  | .localSet => "local.set"
  | .globalGet => "global.get"
  | .i32Const => "i32.const"
  | .i64Const => "i64.const"
  | .f32Const => "f32.const"
  | .f64Const => "f64.const"
  | .v128Const => "v128.const"
  | .i32Load => "i32.load"
  | .i32Store => "i32.store"
  | .memorySize => "memory.size"
  | .memoryGrow => "memory.grow"
  | .memoryCopy => "memory.copy"
  | .memoryInit => "memory.init"
  | .memoryFill => "memory.fill"
  | .tableCopy => "table.copy"
  | .tableInit => "table.init"
  | .refNull => "ref.null"
  | .refFunc => "ref.func"
  | .refIsNull => "ref.is_null"
  | .i8x16Shuffle => "i8x16.shuffle"
  | .i8x16ExtractLaneS => "i8x16.extract_lane_s"
  | .i32x4Splat => "i32x4.splat"

def ValueType.str : ValueType → String
  | .i32 => "i32"
  | .i64 => "i64"
  | .f32 => "f32"
  | .f64 => "f64"
  | .v128 => "v128"
  | .funcref => "funcref"
  | .externref => "externref"
  | .exnref => "exnref"

def ReferenceType.str : ReferenceType → String
  | .funcref => "funcref"
  | .externref => "externref"
  | .exnref => "exnref"

/-!
## Numeric string conversions

Modelled from the spec: `StrToNat`/`StrToInt` reject values outside the
target range; the parsed magnitude and sign are carried on the token.
Float conversion (`StrToFloat`) is kept abstract: the value is the
literal's signed integer payload. -/

def StrToNat32 (t : Token) : Option Nat :=
  if t.natVal < 2 ^ 32 then some t.natVal else none

def StrToInt (bits : Nat) (t : Token) : Option Int :=
  match t.sign with
  | .minus => if t.natVal ≤ 2 ^ (bits - 1) then some (-(t.natVal : Int)) else none
  | _ => if t.natVal < 2 ^ bits then some (t.natVal : Int) else none

def StrToFloat (t : Token) : Int :=
  match t.sign with
  | .minus => -(t.natVal : Int)
  | _ => (t.natVal : Int)

/-!
## Basic readers (`src/text/read.cc`)
-/

def Expect (expected : TokenType) : M Token := do
  match ← mmatch expected with
  | some t => pure t
  | none => do
    let t ← mpeek
    onError t.loc ("Expected " ++ expected.str ++ ", got " ++ t.type.str)
    mfail

def ExpectLpar (expected : TokenType) : M Token := do
  match ← mmatchLpar expected with
  | some t => pure t
  | none => do
    let t ← mpeek
    let t1 ← mpeekN 1
    onError t.loc ("Expected '(' " ++ expected.str ++ ", got " ++ t.type.str
      ++ " " ++ t1.type.str)
    mfail

def ReadNat32 : M Nat := do
  match ← mmatch .nat with
  | none => do
    let t ← mpeek
    onError t.loc ("Expected a natural number, got " ++ t.type.str)
    mfail
  | some tok =>
    match StrToNat32 tok with
    | none => do
      onError tok.loc ("Invalid natural number, got " ++ tok.type.str)
      mfail
    | some n => pure n

def ReadInt (bits : Nat) : M Int := do
  let t ← mpeek
  if t.type = .nat ∨ t.type = .int then do
    let _ ← mread
    match StrToInt bits t with
    | none => do
      onError t.loc ("Invalid integer, got " ++ t.type.str)
      mfail
    | some v => pure v
  else do
    onError t.loc ("Expected an integer, got " ++ t.type.str)
    mfail

def ReadFloat (_bits : Nat) : M Int := do
  let t ← mpeek
  if t.type = .nat ∨ t.type = .int ∨ t.type = .float then do
    let _ ← mread
    pure (StrToFloat t)
  else do
    onError t.loc ("Expected a float, got " ++ t.type.str)
    mfail

def ReadVarOpt : M (Option Var) := fun s =>
  let t := s.peek
  if t.type = .id then
    (some (some (Var.name t.name)), { s with toks := s.toks.drop 1 })
  else if t.type = .nat then
    match ReadNat32 s with
    | (some n, s') => (some (some (Var.index n)), s')
    | (none, s') => (some none, s')
  else
    (some none, s)

def ReadVar : M Var := do
  let t ← mpeek
  match ← ReadVarOpt with
  | some v => pure v
  | none => do
    onError t.loc ("Expected a variable, got " ++ t.type.str)
    mfail

def ReadVarList (fuel : Nat) : M (List Var) :=
  match fuel with
  | 0 => mfail
  | fuel + 1 => do
    match ← ReadVarOpt with
    | some v => do
      let rest ← ReadVarList fuel
      pure (v :: rest)
    | none => pure []

def ReadNonEmptyVarList (fuel : Nat) : M (List Var) := do
  let v ← ReadVar
  let rest ← ReadVarList fuel
  pure (v :: rest)

def ReadVarUseOpt (token_type : TokenType) : M (Option Var) := fun s =>
  match mmatchLpar token_type s with
  | (some none, s') => (some none, s')
  | (some (some _), s') =>
    (match (do
        let v ← ReadVar
        let _ ← Expect .rpar
        pure v : M Var) s' with
     | (some v, s'') => (some (some v), s'')
     | (none, s'') => (some none, s''))
  | (none, s') => (some none, s')

def ReadTypeUseOpt : M (Option Var) :=
  ReadVarUseOpt .typeTok

def ReadText : M Text := do
  match ← mmatch .text with
  | some tok => pure tok.text
  | none => do
    let t ← mpeek
    onError t.loc ("Expected quoted text, got " ++ t.type.str)
    mfail

def ReadUtf8Text : M Text := do
  let t ← mpeek
  let text ← ReadText
  if text.valid_utf8 then pure text
  else do
    onError t.loc "Invalid UTF-8 encoding"
    mfail

def ReadTextList (fuel : Nat) : M (List Text) :=
  match fuel with
  | 0 => mfail
  | fuel + 1 => do
    let t ← mpeek
    if t.type = .text then do
      let text ← ReadText
      let rest ← ReadTextList fuel
      pure (text :: rest)
    else pure []

/-- The diagnostic of `ReadImport`/`ReadInlineImportOpt` when an import
follows a non-import definition. -/
def importsMustPrecedeMsg : String :=
  "Imports must occur before all non-import definitions"

/-- `ReadBindVarOpt`: read an optional `$name` binding into a name map.
Absent → new unbound entry; present and fresh → new bound entry;
present but already bound → diagnostic, and the entry is treated as
unbound.  Never fails; returns the optional binding and the updated
map. -/
def ReadBindVarOpt (nm : NameMap) : M (Option BindVar × NameMap) := do
  match ← mmatch .id with
  | none => pure (none, nm.NewUnbound)
  | some tok =>
    if nm.Has tok.name then do
      onError tok.loc ("Variable " ++ tok.name ++ " is already bound to index "
        ++ toString (nm.Get tok.name))
      pure (none, nm.NewUnbound)
    else
      pure (some (tok.name : BindVar), nm.NewBound tok.name)

def ReadValueType : M ValueType := do
  match ← mmatch .valueType with
  | none => do
    let t ← mpeek
    onError t.loc ("Expected value type, got " ++ t.type.str)
    mfail
  | some tok => do
    let c ← getCtx
    if c.features.hasFeatures tok.valueType.requiredFeatures then
      pure tok.valueType
    else do
      onError tok.loc ("value type " ++ tok.valueType.str ++ " not allowed")
      mfail

def ReadValueTypeList (fuel : Nat) : M (List ValueType) :=
  match fuel with
  | 0 => mfail
  | fuel + 1 => do
    let t ← mpeek
    if t.type = .valueType then do
      let v ← ReadValueType
      let rest ← ReadValueTypeList fuel
      pure (v :: rest)
    else pure []

def ReadBoundValueTypeList (token_type : TokenType) :
    Nat → NameMap → M (List BoundValueType × NameMap)
  | 0, _ => mfail
  | fuel + 1, nm => do
    match ← mmatchLpar token_type with
    | none => pure ([], nm)
    | some _ => do
      let t ← mpeek
      if t.type = .id then do
        let (bind_var, nm1) ← ReadBindVarOpt nm
        let vt ← ReadValueType
        let _ ← Expect .rpar
        let (rest, nm2) ← ReadBoundValueTypeList token_type fuel nm1
        pure ({ name := bind_var, valtype := vt } :: rest, nm2)
      else do
        let vts ← ReadValueTypeList fuel
        let _ ← Expect .rpar
        let (rest, nm2) ← ReadBoundValueTypeList token_type fuel nm
        pure (vts.map (fun v => { valtype := v }) ++ rest, nm2)

def ReadBoundParamList (fuel : Nat) (nm : NameMap) :
    M (List BoundValueType × NameMap) :=
  ReadBoundValueTypeList .param fuel nm

def ReadLocalList (fuel : Nat) (nm : NameMap) :
    M (List BoundValueType × NameMap) :=
  ReadBoundValueTypeList .localTok fuel nm

def ReadUnboundValueTypeList (token_type : TokenType) :
    Nat → M (List ValueType)
  | 0 => mfail
  | fuel + 1 => do
    match ← mmatchLpar token_type with
    | none => pure []
    | some _ => do
      let vts ← ReadValueTypeList fuel
      let _ ← Expect .rpar
      let rest ← ReadUnboundValueTypeList token_type fuel
      pure (vts ++ rest)

def ReadParamList (fuel : Nat) : M (List ValueType) :=
  ReadUnboundValueTypeList .param fuel

def ReadResultList (fuel : Nat) : M (List ValueType) :=
  ReadUnboundValueTypeList .result fuel

def ReadBoundFunctionType (fuel : Nat) (nm : NameMap) :
    M (BoundFunctionType × NameMap) := do
  let (params, nm1) ← ReadBoundParamList fuel nm
  let results ← ReadResultList fuel
  pure ({ params := params, results := results }, nm1)

def ReadFunctionType (fuel : Nat) : M FunctionType := do
  let params ← ReadParamList fuel
  let results ← ReadResultList fuel
  pure { params := params, results := results }

def ReadFunctionTypeUse (fuel : Nat) : M FunctionTypeUse := do
  let type_use ← ReadTypeUseOpt
  let type ← ReadFunctionType fuel
  let result : FunctionTypeUse := { type_use := type_use, type := type }
  modifyCtx fun c =>
    { c with function_type_map := c.function_type_map.Use result }
  pure result

def ReadTypeEntry (fuel : Nat) : M TypeEntry := do
  let _ ← ExpectLpar .typeTok
  let c ← getCtx
  let (bind_var, nm) ← ReadBindVarOpt c.type_names
  modifyCtx fun c => { c with type_names := nm }
  let _ ← ExpectLpar .func
  let (type, _) ← ReadBoundFunctionType fuel {}  -- bound names are not used
  modifyCtx fun c =>
    { c with function_type_map := c.function_type_map.Define type }
  let _ ← Expect .rpar
  let _ ← Expect .rpar
  pure { bind_var := bind_var, type := type }

def ReadLimits : M Limits := do
  let min ← ReadNat32
  let t ← mpeek
  let max_opt ← (if t.type = .nat then do
      let max ← ReadNat32
      pure (some max)
    else pure (none : Option Nat) : M (Option Nat))
  let t2 ← mpeek
  if t2.type = .shared then do
    let _ ← mread
    pure { min := min, max := max_opt, shared := .yes }
  else
    pure { min := min, max := max_opt, shared := .no }

def Token.has_reference_type (t : Token) : Bool :=
  t.type = .valueType && t.valueType.asReferenceType.isSome

def ReadReferenceKind : M ReferenceType := do
  let t ← mpeek
  match t.valueType.asReferenceType with
  | some (r, _) =>
    if t.type = .valueType then do
      let _ ← mread
      pure r
    else do
      onError t.loc ("Expected reference type, got " ++ t.type.str)
      mfail
  | none => do
    onError t.loc ("Expected reference type, got " ++ t.type.str)
    mfail

def ReadReferenceTypeOpt : M (Option ReferenceType) := do
  match ← mmatch .valueType with
  | none => pure none
  | some tok =>
    match tok.valueType.asReferenceType with
    | none => do
      onError tok.loc (tok.valueType.str ++ " is not a reference type")
      pure none
    | some (r, req) => do
      let c ← getCtx
      if c.features.hasFeatures req then
        pure (some r)
      else do
        onError tok.loc ("reference type " ++ r.str ++ " not allowed")
        pure none

def ReadReferenceType : M ReferenceType := do
  let t ← mpeek
  match ← ReadReferenceTypeOpt with
  | some r => pure r
  | none => do
    onError t.loc ("Expected reference type, got " ++ t.type.str)
    mfail

def ReadTableType : M TableType := do
  let limits ← ReadLimits
  let element ← ReadReferenceType
  pure { limits := limits, element := element }

def ReadMemoryType : M MemoryType := do
  let limits ← ReadLimits
  pure { limits := limits }

def ReadGlobalType : M GlobalType := do
  let mut_token ← mmatchLpar .mutTok
  let valtype ← ReadValueType
  match mut_token with
  | some _ => do
    let _ ← Expect .rpar
    pure { valtype := valtype, mutability := .var }
  | none =>
    pure { valtype := valtype, mutability := .const }

def ReadEventType (fuel : Nat) : M EventType := do
  let type ← ReadFunctionTypeUse fuel
  pure { attr := .exception, type := type }

/-- `ReadInlineImportOpt`: never fails; `none` covers "no `(import`
here", the imports-after-non-import diagnostic, and malformed bodies
(the C++ `WASP_TRY` paths all return `nullopt`). -/
def ReadInlineImportOpt : M (Option InlineImport) := fun s =>
  match mmatchLpar .importTok s with
  | (some none, s') => (some none, s')
  | (some (some tok), s') =>
    if s'.ctx.seen_non_import = true then
      ((onError tok.loc importsMustPrecedeMsg) s').2 |> fun s'' => (some none, s'')
    else
      (match (do
          let module ← ReadUtf8Text
          let name ← ReadUtf8Text
          let _ ← Expect .rpar
          pure { module := module, name := name } : M InlineImport) s' with
       | (some ii, s'') => (some (some ii), s'')
       | (none, s'') => (some none, s''))
  | (none, s') => (some none, s')

def ReadImport (fuel : Nat) : M Import := do
  let import_token ← ExpectLpar .importTok
  let c0 ← getCtx
  if c0.seen_non_import = true then do
    onError import_token.loc importsMustPrecedeMsg
    mfail
  else do
  let module ← ReadUtf8Text
  let name ← ReadUtf8Text
  let _ ← Expect .lpar
  let t ← mpeek
  let finish : ImportDesc → M Import := fun desc => do
    let _ ← Expect .rpar
    let _ ← Expect .rpar
    pure { module := module, name := name, desc := desc }
  match t.type with
  | .func => do
    let _ ← mread
    let c ← getCtx
    let (fname, nm) ← ReadBindVarOpt c.function_names
    modifyCtx fun c => { c with function_names := nm }
    let type_use ← ReadTypeUseOpt
    let (type, _) ← ReadBoundFunctionType fuel {}  -- bound names are not used
    modifyCtx fun c =>
      { c with function_type_map := c.function_type_map.UseBound type_use type }
    finish (.func { name := fname, type_use := type_use, type := type })
  | .table => do
    let _ ← mread
    let c ← getCtx
    let (tname, nm) ← ReadBindVarOpt c.table_names
    modifyCtx fun c => { c with table_names := nm }
    let type ← ReadTableType
    finish (.table { name := tname, type := type })
  | .memory => do
    let _ ← mread
    let c ← getCtx
    let (mname, nm) ← ReadBindVarOpt c.memory_names
    modifyCtx fun c => { c with memory_names := nm }
    let type ← ReadMemoryType
    finish (.memory { name := mname, type := type })
  | .global => do
    let _ ← mread
    let c ← getCtx
    let (gname, nm) ← ReadBindVarOpt c.global_names
    modifyCtx fun c => { c with global_names := nm }
    let type ← ReadGlobalType
    finish (.global { name := gname, type := type })
  | .event => do
    let c ← getCtx
    if c.features.exceptions = false then do
      onError t.loc "Events not allowed"
      mfail
    else do
      let _ ← mread
      let c ← getCtx
      let (ename, nm) ← ReadBindVarOpt c.event_names
      modifyCtx fun c => { c with event_names := nm }
      let type ← ReadEventType fuel
      finish (.event { name := ename, type := type })
  | _ => do
    onError t.loc ("Expected an import external kind, got " ++ t.type.str)
    mfail

/-!
## Instruction-level readers
-/

/-- Convert a failing read into a value-level `none` (the C++ pattern of
storing an `optional` result and testing it). -/
def moption {α : Type} (x : M α) : M (Option α) := fun s =>
  match x s with
  | (some a, s') => (some (some a), s')
  | (none, s') => (some none, s')

def ReadNameEqNatOpt (token_type : TokenType) : M (Option (At Nat)) := do
  match ← mmatch token_type with
  | none => pure none
  | some tok =>
    match StrToNat32 tok with
    | none => do
      onError tok.loc ("Invalid natural number, got " ++ tok.type.str)
      pure none
    | some n => pure (some ⟨tok.loc, n⟩)

def ReadAlignOpt : M (Option (At Nat)) := do
  match ← ReadNameEqNatOpt .alignEqNat with
  | none => pure none
  | some nat =>
    let value := nat.value
    if value = 0 ∨ (value &&& (value - 1)) ≠ 0 then do
      onError nat.loc ("Alignment must be a power of two, got " ++ toString value)
      pure none
    else
      pure (some nat)

def ReadOffsetOpt : M (Option (At Nat)) :=
  ReadNameEqNatOpt .offsetEqNat

def ReadSimdLane : M Int := do
  let t ← mpeek
  if t.type = .int ∧ t.sign = .minus then do
    onError t.loc ("Expected a positive integer, got " ++ t.type.str)
    mfail
  else
    ReadInt 8

def ReadSimdLanes : Nat → M (List Int)
  | 0 => pure []
  | n + 1 => do
    let v ← ReadSimdLane
    let rest ← ReadSimdLanes n
    pure (v :: rest)

def ReadSimdShuffleImmediate : M (List Int) :=
  ReadSimdLanes 16

def ReadSimdValues (isFloat : Bool) (bits : Nat) : Nat → M (List Int)
  | 0 => pure []
  | n + 1 => do
    let v ← (if isFloat then ReadFloat bits else ReadInt bits)
    let rest ← ReadSimdValues isFloat bits n
    pure (v :: rest)

def IsPlainInstruction (t : Token) : Bool :=
  match t.type with
  | .bareInstr => true
  | .brOnExnInstr => true
  | .brTableInstr => true
  | .callIndirectInstr => true
  | .f32ConstInstr => true
  | .f64ConstInstr => true
  | .i32ConstInstr => true
  | .i64ConstInstr => true
  | .memoryInstr => true
  | .memoryCopyInstr => true
  | .memoryInitInstr => true
  | .refFuncInstr => true
  | .refNullInstr => true
  | .selectInstr => true
  | .simdConstInstr => true
  | .simdLaneInstr => true
  | .simdShuffleInstr => true
  | .tableCopyInstr => true
  | .tableInitInstr => true
  | .varInstr => true
  | _ => false

def IsBlockInstruction (t : Token) : Bool :=
  t.type = .blockInstr

def St.IsExpression (s : St) : Bool :=
  (s.peek).type = .lpar &&
    (IsPlainInstruction (s.peek 1) || IsBlockInstruction (s.peek 1))

def St.IsInstruction (s : St) : Bool :=
  IsPlainInstruction s.peek || IsBlockInstruction s.peek || s.IsExpression

def St.IsElementExpression (s : St) : Bool :=
  s.IsExpression ||
    ((s.peek).type = .lpar && (s.peek 1).type = .item)

/-- Lift a tokenizer predicate into the monad. -/
def mquery (f : St → Bool) : M Bool := fun s => (some (f s), s)

def notAllowedMsg (op : Opcode) : String :=
  op.str ++ " instruction not allowed"

def CheckOpcodeEnabled (t : Token) : M Unit := do
  let c ← getCtx
  if c.features.hasFeatures t.opcode_features then
    pure ()
  else do
    onError t.loc (notAllowedMsg t.opcode)
    mfail

def ReadPlainInstruction (fuel : Nat) : M (At Instruction) := do
  let gloc ← guardLoc
  let token ← mpeek
  match token.type with
  | .bareInstr => do
    CheckOpcodeEnabled token
    let _ ← mread
    pure ⟨token.loc, { opcode := token.opcode }⟩
  | .refNullInstr => do
    CheckOpcodeEnabled token
    let _ ← mread
    let type ← ReadReferenceKind
    pure ⟨gloc, { opcode := token.opcode, immediate := .refKind type }⟩
  | .brOnExnInstr => do
    CheckOpcodeEnabled token
    let _ ← mread
    let label_var ← ReadVar
    let exn_var ← ReadVar
    pure ⟨gloc, { opcode := token.opcode,
                  immediate := .brOnExn { target := label_var, event := exn_var } }⟩
  | .brTableInstr => do
    CheckOpcodeEnabled token
    let _ ← mread
    let var_list ← ReadNonEmptyVarList fuel
    match var_list.getLast? with
    | some default_target =>
      pure ⟨gloc, { opcode := token.opcode,
                    immediate := .brTable { targets := var_list.dropLast,
                                            default_target := default_target } }⟩
    | none => mfail  -- unreachable: the list is non-empty
  | .callIndirectInstr => do
    CheckOpcodeEnabled token
    let _ ← mread
    let c ← getCtx
    let table_var_opt ← (if c.features.reference_types then ReadVarOpt
      else pure none : M (Option Var))
    let type ← ReadFunctionTypeUse fuel
    pure ⟨gloc, { opcode := token.opcode,
                  immediate := .callIndirect { table := table_var_opt, type := type } }⟩
  | .f32ConstInstr => do
    CheckOpcodeEnabled token
    let _ ← mread
    let immediate ← ReadFloat 32
    pure ⟨gloc, { opcode := token.opcode, immediate := .f32 immediate }⟩
  | .f64ConstInstr => do
    CheckOpcodeEnabled token
    let _ ← mread
    let immediate ← ReadFloat 64
    pure ⟨gloc, { opcode := token.opcode, immediate := .f64 immediate }⟩
  | .i32ConstInstr => do
    CheckOpcodeEnabled token
    let _ ← mread
    let immediate ← ReadInt 32
    pure ⟨gloc, { opcode := token.opcode, immediate := .s32 immediate }⟩
  | .i64ConstInstr => do
    CheckOpcodeEnabled token
    let _ ← mread
    let immediate ← ReadInt 64
    pure ⟨gloc, { opcode := token.opcode, immediate := .s64 immediate }⟩
  | .memoryInstr => do
    CheckOpcodeEnabled token
    let _ ← mread
    let offset_opt ← ReadOffsetOpt
    let align_opt ← ReadAlignOpt
    pure ⟨gloc, { opcode := token.opcode,
                  immediate := .memArg { align := align_opt.map At.value,
                                         offset := offset_opt.map At.value } }⟩
  | .memoryCopyInstr => do
    -- NOTE: the source calls CheckOpcodeEnabled without WASP_TRY here:
    -- the diagnostic is emitted but the failure is ignored.
    mignore (CheckOpcodeEnabled token)
    let _ ← mread
    pure ⟨gloc, { opcode := token.opcode, immediate := .copy {} }⟩
  | .memoryInitInstr => do
    -- NOTE: the source calls CheckOpcodeEnabled without WASP_TRY here:
    -- the diagnostic is emitted but the failure is ignored.
    mignore (CheckOpcodeEnabled token)
    let _ ← mread
    let segment_var ← ReadVar
    pure ⟨gloc, { opcode := token.opcode,
                  immediate := .init { segment := segment_var, dst := none } }⟩
  | .selectInstr => do
    CheckOpcodeEnabled token
    let _ ← mread
    let c ← getCtx
    if c.features.reference_types then do
      let value_type_list ← ReadResultList fuel
      let opcode := if value_type_list.isEmpty then token.opcode else Opcode.selectT
      pure ⟨gloc, { opcode := opcode, immediate := .selectImm value_type_list }⟩
    else
      pure ⟨gloc, { opcode := token.opcode, immediate := .selectImm [] }⟩
  | .simdConstInstr => do
    CheckOpcodeEnabled token
    let _ ← mread
    let simd_token ← mpeek
    let immediate_opt ← (match simd_token.type with
      | .i8x16 => do
        let _ ← mread
        moption (ReadSimdValues false 8 16)
      | .i16x8 => do
        let _ ← mread
        moption (ReadSimdValues false 16 8)
      | .i32x4 => do
        let _ ← mread
        moption (ReadSimdValues false 32 4)
      | .i64x2 => do
        let _ ← mread
        moption (ReadSimdValues false 64 2)
      | .f32x4 => do
        let _ ← mread
        moption (ReadSimdValues true 32 4)
      | .f64x2 => do
        let _ ← mread
        moption (ReadSimdValues true 64 2)
      | _ => pure none : M (Option (List Int)))
    match immediate_opt with
    | none => do
      onError token.loc ("Invalid SIMD constant token, got " ++ simd_token.type.str)
      mfail
    | some lanes =>
      pure ⟨gloc, { opcode := token.opcode, immediate := .v128 lanes }⟩
  | .simdLaneInstr => do
    CheckOpcodeEnabled token
    let _ ← mread
    let immediate ← ReadSimdLane
    pure ⟨gloc, { opcode := token.opcode, immediate := .simdLane immediate }⟩
  | .simdShuffleInstr => do
    CheckOpcodeEnabled token
    let _ ← mread
    let lanes ← ReadSimdShuffleImmediate
    pure ⟨gloc, { opcode := token.opcode, immediate := .shuffle lanes }⟩
  | .tableCopyInstr => do
    CheckOpcodeEnabled token
    let _ ← mread
    let c ← getCtx
    if c.features.reference_types then do
      let dst_var ← ReadVarOpt
      let src_var ← ReadVarOpt
      pure ⟨gloc, { opcode := token.opcode,
                    immediate := .copy { dst := dst_var, src := src_var } }⟩
    else
      pure ⟨gloc, { opcode := token.opcode, immediate := .copy {} }⟩
  | .tableInitInstr => do
    CheckOpcodeEnabled token
    let _ ← mread
    let segment_var ← ReadVar
    let table_var_opt ← ReadVarOpt
    match table_var_opt with
    | some table_var =>
      -- table.init $table $elem ; so vars need to be swapped.
      pure ⟨gloc, { opcode := token.opcode,
                    immediate := .init { segment := table_var, dst := some segment_var } }⟩
    | none =>
      pure ⟨gloc, { opcode := token.opcode,
                    immediate := .init { segment := segment_var, dst := none } }⟩
  | .varInstr => do
    CheckOpcodeEnabled token
    let _ ← mread
    let var ← ReadVar
    pure ⟨gloc, { opcode := token.opcode, immediate := .var var }⟩
  | .refFuncInstr => do
    CheckOpcodeEnabled token
    let _ ← mread
    let var ← ReadVar
    pure ⟨gloc, { opcode := token.opcode, immediate := .var var }⟩
  | _ => do
    onError token.loc ("Expected plain instruction, got " ++ token.type.str)
    mfail

def ReadLabelOpt : M (Option BindVar) := do
  match ← mmatch .id with
  | none => do
    modifyCtx fun c =>
      { c with label_names := c.label_names.NewUnbound,
               label_name_stack := c.label_name_stack ++ [none] }
    pure none
  | some tok => do
    modifyCtx fun c =>
      { c with label_names := c.label_names.ReplaceBound tok.name,
               label_name_stack := c.label_name_stack ++ [some tok.name] }
    pure (some (tok.name : BindVar))

def ReadEndLabelOpt (label : Option BindVar) : M Unit := do
  let t ← mpeek
  let (end_label, _) ← ReadBindVarOpt {}  -- dummy name map
  match end_label with
  | none => pure ()
  | some el =>
    match label with
    | none => do
      onError t.loc ("Unexpected label " ++ (el : String))
      mfail
    | some l =>
      if l = el then pure ()
      else do
        onError t.loc ("Expected label " ++ (l : String) ++ ", got " ++ (el : String))
        mfail

def ReadBlockImmediate (fuel : Nat) : M BlockImmediate := do
  let label ← ReadLabelOpt
  -- Don't use ReadFunctionTypeUse, since that always marks the type
  -- signature as being used, even if it is an inline signature.
  let type_use ← ReadTypeUseOpt
  let type ← ReadFunctionType fuel
  let ftu : FunctionTypeUse := { type_use := type_use, type := type }
  if ftu.IsInlineType then
    pure { label := label, type := ftu }
  else do
    modifyCtx fun c =>
      { c with function_type_map := c.function_type_map.Use ftu }
    pure { label := label, type := ftu }

def ReadOpcodeOpt (token_type : TokenType) (instructions : InstructionList) :
    M (Bool × InstructionList) := do
  match ← mmatch token_type with
  | none => pure (false, instructions)
  | some tok =>
    pure (true, instructions ++ [⟨tok.loc, { opcode := tok.opcode }⟩])

def ExpectOpcode (token_type : TokenType) (instructions : InstructionList) :
    M InstructionList := do
  let t ← mpeek
  let (matched, instructions') ← ReadOpcodeOpt token_type instructions
  if matched then pure instructions'
  else do
    onError t.loc ("Expected " ++ token_type.str ++ ", got " ++ t.type.str)
    mfail

/-- The common tail of `ReadBlockInstruction`: expect the `end` opcode,
read the optional end label, close the block scope. -/
def EndBlockInstruction (label : Option BindVar) (instructions : InstructionList) :
    M InstructionList := do
  let instructions' ← ExpectOpcode .endTok instructions
  ReadEndLabelOpt label
  modifyCtx Context.EndBlock
  pure instructions'

/-- The common tail of `ReadExpression` for block instructions: read the
final `)` and use its location as the synthetic `end` instruction. -/
def ReadExpressionRparEnd (instructions : InstructionList) : M InstructionList := do
  let rpar ← mpeek
  let _ ← Expect .rpar
  let instructions' := instructions ++ [⟨rpar.loc, { opcode := Opcode.endOp }⟩]
  modifyCtx Context.EndBlock
  pure instructions'

mutual

def ReadInstruction : Nat → InstructionList → M InstructionList
  | 0, _ => mfail
  | fuel + 1, instructions => do
    let token ← mpeek
    if IsPlainInstruction token then do
      let instruction ← ReadPlainInstruction fuel
      pure (instructions ++ [instruction])
    else if IsBlockInstruction token then
      ReadBlockInstruction fuel instructions
    else do
      let isExpr ← mquery St.IsExpression
      if isExpr then
        ReadExpression fuel instructions
      else do
        onError token.loc ("Expected instruction, got " ++ token.type.str)
        mfail

def ReadInstructionList : Nat → InstructionList → M InstructionList
  | 0, _ => mfail
  | fuel + 1, instructions => do
    let isInstr ← mquery St.IsInstruction
    if isInstr then do
      let instructions' ← ReadInstruction fuel instructions
      ReadInstructionList fuel instructions'
    else pure instructions

def ReadBlockInstruction : Nat → InstructionList → M InstructionList
  | 0, _ => mfail
  | fuel + 1, instructions => do
    let gloc ← guardLoc
    match ← mmatch .blockInstr with
    | none => mfail  -- asserted: only called when the next token is a BlockInstr
    | some token => do
      let block ← ReadBlockImmediate fuel
      let instructions1 :=
        instructions ++ [⟨gloc, { opcode := token.opcode, immediate := .block block }⟩]
      let instructions2 ← ReadInstructionList fuel instructions1
      match token.opcode with
      | .ifOp => do
        let (matched, instructions3) ← ReadOpcodeOpt .elseTok instructions2
        if matched then do
          ReadEndLabelOpt block.label
          let instructions4 ← ReadInstructionList fuel instructions3
          EndBlockInstruction block.label instructions4
        else
          EndBlockInstruction block.label instructions3
      | .tryOp => do
        let c ← getCtx
        if c.features.exceptions = false then do
          onError token.loc "try instruction not allowed"
          mfail
        else do
          let instructions3 ← ExpectOpcode .catchTok instructions2
          ReadEndLabelOpt block.label
          let instructions4 ← ReadInstructionList fuel instructions3
          EndBlockInstruction block.label instructions4
      | .block => EndBlockInstruction block.label instructions2
      | .loop => EndBlockInstruction block.label instructions2
      | _ => mfail  -- WASP_UNREACHABLE

def ReadExpression : Nat → InstructionList → M InstructionList
  | 0, _ => mfail
  | fuel + 1, instructions => do
    let _ ← Expect .lpar
    let token ← mpeek
    if IsPlainInstruction token then do
      let plain ← ReadPlainInstruction fuel
      -- Reorder the instructions, so (A (B) (C)) becomes (B) (C) (A).
      let instructions1 ← ReadExpressionList fuel instructions
      let instructions2 := instructions1 ++ [plain]
      let _ ← Expect .rpar
      pure instructions2
    else if IsBlockInstruction token then do
      let gloc ← guardLoc
      let _ ← mread
      let block ← ReadBlockImmediate fuel
      let block_instr : At Instruction :=
        ⟨gloc, { opcode := token.opcode, immediate := .block block }⟩
      match token.opcode with
      | .block => do
        let instructions1 ← ReadInstructionList fuel (instructions ++ [block_instr])
        ReadExpressionRparEnd instructions1
      | .loop => do
        let instructions1 ← ReadInstructionList fuel (instructions ++ [block_instr])
        ReadExpressionRparEnd instructions1
      | .ifOp => do
        -- Read condition, if any.  It doesn't need to exist, since the
        -- folded `if` syntax is extremely flexible.
        let instructions1 ← ReadExpressionList fuel instructions
        -- The `if` instruction must come after the condition.
        let instructions2 := instructions1 ++ [block_instr]
        -- Read then block.
        let _ ← ExpectLpar .thenTok
        let instructions3 ← ReadInstructionList fuel instructions2
        let _ ← Expect .rpar
        -- Read else block, if any.
        match ← mmatch .lpar with
        | some _ => do
          let instructions4 ← ExpectOpcode .elseTok instructions3
          ReadEndLabelOpt block.label
          let instructions5 ← ReadInstructionList fuel instructions4
          let _ ← Expect .rpar
          ReadExpressionRparEnd instructions5
        | none =>
          ReadExpressionRparEnd instructions3
      | .tryOp => do
        let c ← getCtx
        if c.features.exceptions = false then do
          onError token.loc "try instruction not allowed"
          mfail
        else do
          let instructions1 ← ReadInstructionList fuel (instructions ++ [block_instr])
          -- Read catch block.
          let _ ← Expect .lpar
          let instructions2 ← ExpectOpcode .catchTok instructions1
          ReadEndLabelOpt block.label
          let instructions3 ← ReadInstructionList fuel instructions2
          let _ ← Expect .rpar
          ReadExpressionRparEnd instructions3
      | _ => mfail  -- WASP_UNREACHABLE
    else do
      onError token.loc ("Expected expression, got " ++ token.type.str)
      mfail

def ReadExpressionList : Nat → InstructionList → M InstructionList
  | 0, _ => mfail
  | fuel + 1, instructions => do
    let isExpr ← mquery St.IsExpression
    if isExpr then do
      let instructions' ← ReadExpression fuel instructions
      ReadExpressionList fuel instructions'
    else pure instructions

end

def ReadConstantExpression (fuel : Nat) : M ConstantExpression := do
  let instructions ← ReadInstructionList fuel []
  pure { instructions := instructions }

def ReadOffsetExpression (fuel : Nat) : M ConstantExpression := do
  match ← mmatchLpar .offsetTok with
  | some _ => do
    let instructions ← ReadInstructionList fuel []
    let _ ← Expect .rpar
    pure { instructions := instructions }
  | none => do
    let isExpr ← mquery St.IsExpression
    if isExpr then do
      let instructions ← ReadExpression fuel []
      pure { instructions := instructions }
    else do
      let t ← mpeek
      onError t.loc ("Expected offset expression, got " ++ t.type.str)
      mfail

def addErrSt (loc : Nat) (msg : String) (s : St) : St :=
  { s with ctx := { s.ctx with errors := s.ctx.errors ++ [(loc, msg)] } }

/-- `ReadElementExpression`.  Element expressions were first added in
the bulk memory proposal, so this function shouldn't be called if that
feature is not enabled (the source asserts it).  The only valid
instructions are enabled by the reference types proposal, but their
encoding is still used by the bulk memory proposal, so the instructions
are read under a fresh context whose features are exactly
`reference_types`; the error sink is shared with the caller's context. -/
def ReadElementExpression (fuel : Nat) : M ElementExpression := fun s =>
  let saved := s.ctx
  match mmatchLpar .item s with
  | (some (some _), s1) =>
    let s2 : St := { s1 with ctx := Context.fresh refOnlyFeatures s1.ctx.errors }
    (match ReadInstructionList fuel [] s2 with
     | (some instructions, s3) =>
       let s4 : St := { s3 with ctx := { saved with errors := s3.ctx.errors } }
       (match Expect .rpar s4 with
        | (some _, s5) => (some { instructions := instructions }, s5)
        | (none, s5) => (none, s5))
     | (none, s3) =>
       (none, { s3 with ctx := { saved with errors := s3.ctx.errors } }))
  | (some none, s1) =>
    if s1.IsExpression then
      let s2 : St := { s1 with ctx := Context.fresh refOnlyFeatures s1.ctx.errors }
      match ReadExpression fuel [] s2 with
      | (some instructions, s3) =>
        (some { instructions := instructions },
         { s3 with ctx := { saved with errors := s3.ctx.errors } })
      | (none, s3) =>
        (none, { s3 with ctx := { saved with errors := s3.ctx.errors } })
    else
      let t := s1.peek
      (none, addErrSt t.loc ("Expected element expression, got " ++ t.type.str) s1)
  | (none, s1) => (none, s1)

def ReadElementExpressionList : Nat → M (List ElementExpression)
  | 0 => mfail
  | fuel + 1 => do
    let isEE ← mquery St.IsElementExpression
    if isEE then do
      let e ← ReadElementExpression fuel
      let rest ← ReadElementExpressionList fuel
      pure (e :: rest)
    else pure []

def ReadTableUseOpt : M (Option Var) :=
  ReadVarUseOpt .table

def ReadMemoryUseOpt : M (Option Var) :=
  ReadVarUseOpt .memory

/-- The common tail of `ReadElementSegment` in bulk-memory mode:
`* elem_list RPAR` (an element kind plus variable list, or a reference
type plus element-expression list). -/
def ReadElementSegmentTail (fuel : Nat) (name : Option BindVar)
    (table_use_opt : Option Var) (segment_type : SegmentType)
    (offset_opt : Option ConstantExpression) : M ElementSegment := do
  let t ← mpeek
  if t.type = .func then do
    let _ ← mread
    let init ← ReadVarList fuel
    let _ ← Expect .rpar
    if segment_type = .active then
      pure { name := name, segment_type := .active, table := table_use_opt,
             offset := offset_opt, elements := .vars .function init }
    else
      pure { name := name, segment_type := segment_type,
             elements := .vars .function init }
  else do
    let elemtype ← ReadReferenceType
    let init ← ReadElementExpressionList fuel
    let _ ← Expect .rpar
    if segment_type = .active then
      pure { name := name, segment_type := .active, table := table_use_opt,
             offset := offset_opt, elements := .exprs elemtype init }
    else
      pure { name := name, segment_type := segment_type,
             elements := .exprs elemtype init }

def ReadElementSegment (fuel : Nat) : M ElementSegment := do
  let _ ← ExpectLpar .elem
  let c0 ← getCtx
  if c0.features.bulk_memory then do
    let c ← getCtx
    let (name, nm) ← ReadBindVarOpt c.element_segment_names
    modifyCtx fun c => { c with element_segment_names := nm }
    let table_use_opt ← ReadTableUseOpt
    match table_use_opt with
    | some table_use => do
      let offset ← ReadOffsetExpression fuel
      ReadElementSegmentTail fuel name (some table_use) .active (some offset)
    | none => do
      let t ← mpeek
      if t.type = .declare then do
        let _ ← mread
        ReadElementSegmentTail fuel name none .declared none
      else if t.type = .lpar then do
        let offset ← ReadOffsetExpression fuel
        let t2 ← mpeek
        if t2.type = .nat ∨ t2.type = .id ∨ t2.type = .rpar then do
          let init ← ReadVarList fuel
          let _ ← Expect .rpar
          pure { name := name, segment_type := .active, table := none,
                 offset := some offset, elements := .vars .function init }
        else
          ReadElementSegmentTail fuel name none .active (some offset)
      else
        ReadElementSegmentTail fuel name none .passive none
  else do
    let table ← ReadVarOpt
    let offset ← ReadOffsetExpression fuel
    let init ← ReadVarList fuel
    let _ ← Expect .rpar
    pure { name := none, segment_type := .active, table := table,
           offset := some offset, elements := .vars .function init }

def ReadInlineExport : M InlineExport := do
  let _ ← ExpectLpar .exportTok
  let name ← ReadUtf8Text
  let _ ← Expect .rpar
  pure { name := name }

def ReadInlineExportList : Nat → M (List InlineExport)
  | 0 => mfail
  | fuel + 1 => do
    let t0 ← mpeek
    let t1 ← mpeekN 1
    if t0.type = .lpar ∧ t1.type = .exportTok then do
      let e ← ReadInlineExport
      let rest ← ReadInlineExportList fuel
      pure (e :: rest)
    else pure []

def ReadFunction (fuel : Nat) : M Function := do
  let _ ← ExpectLpar .func
  let c ← getCtx
  let (name, nm) ← ReadBindVarOpt c.function_names
  modifyCtx fun c => { c with function_names := nm }
  let exports ← ReadInlineExportList fuel
  let import_opt ← ReadInlineImportOpt
  modifyCtx fun c =>
    { c with seen_non_import := c.seen_non_import || import_opt.isNone }
  modifyCtx fun c => { c with local_names := c.local_names.Reset }
  let type_use ← ReadTypeUseOpt
  let c2 ← getCtx
  let (type, nm2) ← ReadBoundFunctionType fuel c2.local_names
  modifyCtx fun c =>
    { c with local_names := nm2,
             function_type_map := c.function_type_map.UseBound type_use type }
  match import_opt with
  | none => do
    let c3 ← getCtx
    let (locals, nm3) ← ReadLocalList fuel c3.local_names
    modifyCtx fun c => { c with local_names := nm3 }
    let instructions ← ReadInstructionList fuel []
    let _ ← Expect .rpar
    pure { desc := { name := name, type_use := type_use, type := type },
           locals := locals, instructions := instructions, exports := exports }
  | some imp => do
    let _ ← Expect .rpar
    pure { desc := { name := name, type_use := type_use, type := type },
           import_opt := some imp, exports := exports }

def ReadTable (fuel : Nat) : M Table := do
  let _ ← ExpectLpar .table
  let c ← getCtx
  let (name, nm) ← ReadBindVarOpt c.table_names
  modifyCtx fun c => { c with table_names := nm }
  let exports ← ReadInlineExportList fuel
  let import_opt ← ReadInlineImportOpt
  modifyCtx fun c =>
    { c with seen_non_import := c.seen_non_import || import_opt.isNone }
  let elemtype_opt ← ReadReferenceTypeOpt
  match import_opt with
  | some imp => do
    -- Imported table.
    let type ← ReadTableType
    let _ ← Expect .rpar
    pure { desc := { name := name, type := type }, import_opt := some imp,
           exports := exports }
  | none =>
    match elemtype_opt with
    | some elemtype => do
      -- Inline element segment.
      let _ ← ExpectLpar .elem
      let c2 ← getCtx
      let isExpr ← mquery St.IsExpression
      if c2.features.bulk_memory ∧ isExpr then do
        -- Element expression list.
        let expressions ← ReadElementExpressionList fuel
        let size := expressions.length
        let type : TableType :=
          { limits := { min := size, max := some size }, element := elemtype }
        let _ ← Expect .rpar
        let _ ← Expect .rpar
        pure { desc := { name := name, type := type }, exports := exports,
               elements := some (.exprs elemtype expressions) }
      else do
        -- Element var list.
        let vars ← ReadVarList fuel
        let size := vars.length
        let type : TableType :=
          { limits := { min := size, max := some size }, element := elemtype }
        let _ ← Expect .rpar
        let _ ← Expect .rpar
        pure { desc := { name := name, type := type }, exports := exports,
               elements := some (.vars .function vars) }
    | none => do
      -- Defined table.
      let type ← ReadTableType
      let _ ← Expect .rpar
      pure { desc := { name := name, type := type }, exports := exports }

def ReadMemory (fuel : Nat) : M Memory := do
  let _ ← ExpectLpar .memory
  let c ← getCtx
  let (name, nm) ← ReadBindVarOpt c.memory_names
  modifyCtx fun c => { c with memory_names := nm }
  let exports ← ReadInlineExportList fuel
  let import_opt ← ReadInlineImportOpt
  modifyCtx fun c =>
    { c with seen_non_import := c.seen_non_import || import_opt.isNone }
  match import_opt with
  | some imp => do
    -- Imported memory.
    let type ← ReadMemoryType
    let _ ← Expect .rpar
    pure { desc := { name := name, type := type }, import_opt := some imp,
           exports := exports }
  | none => do
    match ← mmatchLpar .dataTok with
    | some _ => do
      -- Inline data segment.
      let data ← ReadTextList fuel
      let size := data.foldl (fun total text => total + text.byte_size) 0
      let type : MemoryType := { limits := { min := size, max := some size } }
      let _ ← Expect .rpar
      let _ ← Expect .rpar
      pure { desc := { name := name, type := type }, exports := exports,
             data := data }
    | none => do
      -- Defined memory.
      let type ← ReadMemoryType
      let _ ← Expect .rpar
      pure { desc := { name := name, type := type }, exports := exports }

def ReadGlobal (fuel : Nat) : M Global := do
  let _ ← ExpectLpar .global
  let c ← getCtx
  let (name, nm) ← ReadBindVarOpt c.global_names
  modifyCtx fun c => { c with global_names := nm }
  let exports ← ReadInlineExportList fuel
  let import_opt ← ReadInlineImportOpt
  modifyCtx fun c =>
    { c with seen_non_import := c.seen_non_import || import_opt.isNone }
  let type ← ReadGlobalType
  match import_opt with
  | none => do
    let init ← ReadConstantExpression fuel
    let _ ← Expect .rpar
    pure { desc := { name := name, type := type }, init := some init,
           exports := exports }
  | some imp => do
    let _ ← Expect .rpar
    pure { desc := { name := name, type := type }, import_opt := some imp,
           exports := exports }

def ReadExport : M Export := do
  let _ ← ExpectLpar .exportTok
  let name ← ReadUtf8Text
  let _ ← Expect .lpar
  let token ← mpeek
  let kind_opt : Option ExternalKind :=
    match token.type with
    | .func => some .function
    | .table => some .table
    | .memory => some .memory
    | .global => some .global
    | .event => some .event
    | _ => none
  match kind_opt with
  | none => do
    onError token.loc ("Expected an import external kind, got " ++ token.type.str)
    mfail
  | some kind => do
    (if kind = .event then do
      let c ← getCtx
      if c.features.exceptions = false then do
        onError token.loc "Events not allowed"
        mfail
      else pure ()
    else pure () : M Unit)
    let _ ← mread
    let var ← ReadVar
    let _ ← Expect .rpar
    let _ ← Expect .rpar
    pure { kind := kind, name := name, var := var }

def ReadStart : M Start := do
  let start_token ← ExpectLpar .startTok
  let c ← getCtx
  if c.seen_start then do
    onError start_token.loc "Multiple start functions"
    mfail
  else do
    modifyCtx fun c => { c with seen_start := true }
    let var ← ReadVar
    let _ ← Expect .rpar
    pure { var := var }

def ReadDataSegment (fuel : Nat) : M DataSegment := do
  let _ ← ExpectLpar .dataTok
  let c0 ← getCtx
  if c0.features.bulk_memory then do
    let c ← getCtx
    let (name, nm) ← ReadBindVarOpt c.data_segment_names
    modifyCtx fun c => { c with data_segment_names := nm }
    let memory_use_opt ← ReadMemoryUseOpt
    let t ← mpeek
    if memory_use_opt.isSome ∨ t.type = .lpar then do
      let offset ← ReadOffsetExpression fuel
      let data ← ReadTextList fuel
      let _ ← Expect .rpar
      pure { name := name, segment_type := .active, memory := memory_use_opt,
             offset := some offset, data := data }
    else do
      let data ← ReadTextList fuel
      let _ ← Expect .rpar
      pure { name := name, segment_type := .passive, data := data }
  else do
    let memory ← ReadVarOpt
    let offset ← ReadOffsetExpression fuel
    let data ← ReadTextList fuel
    let _ ← Expect .rpar
    pure { name := none, segment_type := .active, memory := memory,
           offset := some offset, data := data }

def ReadEvent (fuel : Nat) : M Event := do
  let token ← mpeek
  let _ ← ExpectLpar .event
  let c0 ← getCtx
  if c0.features.exceptions = false then do
    onError token.loc "Events not allowed"
    mfail
  else do
    let c ← getCtx
    let (name, nm) ← ReadBindVarOpt c.event_names
    modifyCtx fun c => { c with event_names := nm }
    let exports ← ReadInlineExportList fuel
    let import_opt ← ReadInlineImportOpt
    modifyCtx fun c =>
      { c with seen_non_import := c.seen_non_import || import_opt.isNone }
    let type ← ReadEventType fuel
    let _ ← Expect .rpar
    pure { desc := { name := name, type := type }, import_opt := import_opt,
           exports := exports }

def St.IsModuleItem (s : St) : Bool :=
  (s.peek).type = .lpar &&
    (match (s.peek 1).type with
     | .typeTok => true
     | .importTok => true
     | .func => true
     | .table => true
     | .memory => true
     | .global => true
     | .exportTok => true
     | .startTok => true
     | .elem => true
     | .dataTok => true
     | .event => true
     | _ => false)

def ReadModuleItem (fuel : Nat) : M (At ModuleItem) := do
  let t ← mpeek
  if t.type ≠ .lpar then do
    onError t.loc ("Expected '(', got " ++ t.type.str)
    mfail
  else do
    let t1 ← mpeekN 1
    match t1.type with
    | .typeTok => do
      let item ← ReadTypeEntry fuel
      pure ⟨t.loc, .typeEntry item⟩
    | .importTok => do
      let item ← ReadImport fuel
      pure ⟨t.loc, .imp item⟩
    | .func => do
      let item ← ReadFunction fuel
      pure ⟨t.loc, .func item⟩
    | .table => do
      let item ← ReadTable fuel
      pure ⟨t.loc, .table item⟩
    | .memory => do
      let item ← ReadMemory fuel
      pure ⟨t.loc, .memory item⟩
    | .global => do
      let item ← ReadGlobal fuel
      pure ⟨t.loc, .global item⟩
    | .exportTok => do
      let item ← ReadExport
      pure ⟨t.loc, .exp item⟩
    | .startTok => do
      let item ← ReadStart
      pure ⟨t.loc, .start item⟩
    | .elem => do
      let item ← ReadElementSegment fuel
      pure ⟨t.loc, .elem item⟩
    | .dataTok => do
      let item ← ReadDataSegment fuel
      pure ⟨t.loc, .data item⟩
    | .event => do
      let item ← ReadEvent fuel
      pure ⟨t.loc, .event item⟩
    | _ => do
      onError t1.loc ("Expected 'type', 'import', 'func', 'table', 'memory', "
        ++ "'global', 'export', 'start', 'elem', 'data', or 'event', got "
        ++ t1.type.str)
      mfail

def ReadModuleLoop : Nat → Module → M Module
  | 0, _ => mfail
  | fuel + 1, module => do
    let isItem ← mquery St.IsModuleItem
    if isItem then do
      let item ← ReadModuleItem fuel
      ReadModuleLoop fuel (module ++ [item])
    else pure module

def ReadModule (fuel : Nat) : M Module := do
  modifyCtx Context.BeginModule
  let module ← ReadModuleLoop fuel []
  let c ← getCtx
  let deferred_types := c.EndModule
  pure (module ++ deferred_types.map (fun te => ⟨0, ModuleItem.typeEntry te⟩))

/-!
## The `dump` tool driver (`src/tools/dump.cc`)

Only the exit-code behaviour of `Main` is modelled; the per-file dump
output produced by `Tool::Run` is presentation and out of scope (it
never influences the exit code).  Printed messages are collected in a
log; file contents are abstracted to a readability predicate. -/

structure DumpOptions where
  print_headers : Bool := false
  print_details : Bool := false
  print_disassembly : Bool := false
  print_raw_data : Bool := false
  section_name : String := ""
deriving DecidableEq

/-- The argument loop of `dump`'s `Main`: short flags dispatch on the
second character, `-j`/`--section` consume the following argument,
unknown flags only log, anything else is an input filename. -/
def parseDumpArgs : List String → DumpOptions → List String → List String →
    DumpOptions × List String × List String
  | [], opts, files, log => (opts, files, log)
  | arg :: rest, opts, files, log =>
    match arg.toList with
    | '-' :: c :: _ =>
      if c = 'h' then
        parseDumpArgs rest { opts with print_headers := true } files log
      else if c = 'd' then
        parseDumpArgs rest { opts with print_disassembly := true } files log
      else if c = 'x' then
        parseDumpArgs rest { opts with print_details := true } files log
      else if c = 's' then
        parseDumpArgs rest { opts with print_raw_data := true } files log
      else if c = 'j' then
        match rest with
        | next :: rest' =>
          parseDumpArgs rest' { opts with section_name := next } files log
        | [] => (opts, files, log)
      else if c = '-' then
        if arg = "--headers" then
          parseDumpArgs rest { opts with print_headers := true } files log
        else if arg = "--disassemble" then
          parseDumpArgs rest { opts with print_disassembly := true } files log
        else if arg = "--details" then
          parseDumpArgs rest { opts with print_details := true } files log
        else if arg = "--full-contents" then
          parseDumpArgs rest { opts with print_raw_data := true } files log
        else if arg = "--section" then
          match rest with
          | next :: rest' =>
            parseDumpArgs rest' { opts with section_name := next } files log
          | [] => (opts, files, log)
        else
          parseDumpArgs rest opts files
            (log ++ ["Unknown long argument " ++ arg ++ "\n"])
      else
        parseDumpArgs rest opts files
          (log ++ ["Unknown short argument " ++ String.singleton c ++ "\n"])
    | _ => parseDumpArgs rest opts (files ++ [arg]) log

def dumpUsageLog : List String :=
  ["At least one of the following switches must be given:\n",
   " -d/--disassemble\n",
   " -h/--headers\n",
   " -x/--details\n",
   " -s/--full-contents\n"]

/-- `dump`'s `Main`: returns the exit code and the printed error log.
`readable` abstracts `ReadFile` succeeding on a filename.  Note that an
unreadable file only prints a message and `continue`s: it does not
change the exit code, which is 0 once past the usage checks. -/
def dumpMain (args : List String) (readable : String → Bool) :
    Nat × List String :=
  let (options, filenames, log) := parseDumpArgs args {} [] []
  if filenames.isEmpty then
    (1, log ++ ["No filenames given.\n"])
  else if !(options.print_headers || options.print_disassembly
      || options.print_details || options.print_raw_data) then
    (1, log ++ dumpUsageLog)
  else
    (0, log ++ filenames.foldl (fun acc f =>
      acc ++ (if readable f then [] else ["Error reading file " ++ f ++ ".\n"])) [])

/-!
## Arithmetic helpers
-/

theorem nat_land_self (n : Nat) : n &&& n = n := by
  induction n using Nat.binaryRec with
  | z => rfl
  | f b m ih => rw [Nat.land_bit, Bool.and_self, ih]

/-- The bit trick of `ReadAlignOpt`: for positive `n`, `n & (n-1) = 0`
iff `n` is a power of two. -/
theorem land_pred_eq_zero_iff : ∀ n : Nat, 0 < n →
    ((n &&& (n - 1)) = 0 ↔ ∃ k, n = 2 ^ k) := by
  intro n
  induction n using Nat.strong_induction_on with
  | _ n ih =>
    intro hpos
    rcases Nat.even_or_odd n with he | ho
    · obtain ⟨m, hm⟩ := he
      have hm2 : n = 2 * m := by omega
      have hmpos : 0 < m := by omega
      have hpred : n - 1 = Nat.bit true (m - 1) := by
        rw [Nat.bit_val]; simp; omega
      have hn : n = Nat.bit false m := by
        rw [Nat.bit_val]; simp; omega
      have hland : n &&& (n - 1) = Nat.bit false (m &&& (m - 1)) := by
        rw [hpred, hn, Nat.land_bit]; rfl
      rw [hland, Nat.bit_eq_zero_iff]
      have ihm := ih m (by omega) hmpos
      constructor
      · rintro ⟨h0, -⟩
        obtain ⟨k, hk⟩ := ihm.mp h0
        exact ⟨k + 1, by rw [hm2, hk, Nat.pow_succ]; ring⟩
      · rintro ⟨k, hk⟩
        match k with
        | 0 => omega
        | k + 1 =>
          have : m = 2 ^ k := by
            have : 2 * m = 2 * 2 ^ k := by rw [← hm2, hk, Nat.pow_succ]; ring
            omega
          exact ⟨ihm.mpr ⟨k, this⟩, rfl⟩
    · obtain ⟨m, hm⟩ := ho
      have hn : n = Nat.bit true m := by rw [Nat.bit_val]; simp; omega
      have hpred : n - 1 = Nat.bit false m := by rw [Nat.bit_val]; simp; omega
      have hland : n &&& (n - 1) = Nat.bit false m := by
        rw [hpred, hn, Nat.land_bit, nat_land_self]; rfl
      rw [hland, Nat.bit_eq_zero_iff]
      constructor
      · rintro ⟨h0, -⟩
        exact ⟨0, by omega⟩
      · rintro ⟨k, hk⟩
        match k with
        | 0 => exact ⟨by omega, rfl⟩
        | k + 1 =>
          exfalso
          have : n % 2 = 0 := by rw [hk, Nat.pow_succ]; omega
          omega

/-!
## Claim theorems
-/

/-- C2: `ReadBindVarOpt` on a name map: if the `$name` is absent a new
unbound entry is added; if present and not already bound it is added as
bound; if present and already bound a diagnostic is emitted and the
entry is treated as unbound; in every case exactly one entry is added,
so the index counter still advances. -/
theorem c2_read_bind_var_opt (s : St) (nm : NameMap) :
    ((s.peek).type ≠ .id →
      ReadBindVarOpt nm s = (some (none, nm.NewUnbound), s))
    ∧ ((s.peek).type = .id → nm.Has (s.peek).name = false →
      ReadBindVarOpt nm s =
        (some (some ((s.peek).name : BindVar), nm.NewBound (s.peek).name),
         { s with toks := s.toks.drop 1 }))
    ∧ ((s.peek).type = .id → nm.Has (s.peek).name = true →
      ReadBindVarOpt nm s =
        (some (none, nm.NewUnbound),
         addErrSt (s.peek).loc
           ("Variable " ++ (s.peek).name ++ " is already bound to index "
             ++ toString (nm.Get (s.peek).name))
           { s with toks := s.toks.drop 1 }))
    ∧ (∀ p s', ReadBindVarOpt nm s = (some p, s') →
        p.2.entries.length = nm.entries.length + 1) := by
  refine ⟨?_, ?_, ?_, ?_⟩
  · intro hid
    simp [ReadBindVarOpt, M.bind_apply, M.pure_apply, mmatch, hid]
  · intro hid hhas
    simp [ReadBindVarOpt, M.bind_apply, M.pure_apply, mmatch, hid, hhas]
  · intro hid hhas
    simp [ReadBindVarOpt, M.bind_apply, M.pure_apply, mmatch, hid, hhas,
      onError, addErrSt, mfail]
  · intro p s' h
    by_cases hid : (s.peek).type = .id
    · by_cases hhas : nm.Has (s.peek).name = true
      · simp [ReadBindVarOpt, M.bind_apply, M.pure_apply, mmatch, hid, hhas,
          onError, mfail] at h
        rw [← h.1]
        simp [NameMap.NewUnbound]
      · simp [ReadBindVarOpt, M.bind_apply, M.pure_apply, mmatch, hid,
          Bool.eq_false_iff.mpr hhas] at h
        rw [← h.1]
        simp [NameMap.NewBound]
    · simp [ReadBindVarOpt, M.bind_apply, M.pure_apply, mmatch, hid] at h
      rw [← h.1]
      simp [NameMap.NewUnbound]

def c2Tok : Token := { type := .id, name := "a", loc := 7 }

def c2NameMap : NameMap := { entries := [some "a"] }

def c2St : St := { toks := [c2Tok], ctx := {} }

theorem c2_read_bind_var_opt_witness :
    ReadBindVarOpt c2NameMap c2St =
      (some (none, c2NameMap.NewUnbound),
       addErrSt (c2St.peek).loc
         ("Variable " ++ (c2St.peek).name ++ " is already bound to index "
           ++ toString (c2NameMap.Get (c2St.peek).name))
         { c2St with toks := c2St.toks.drop 1 }) :=
  (c2_read_bind_var_opt c2St c2NameMap).2.2.1 (by decide) (by decide)

/-- C9: `ReadAlignOpt` on an `align=N` annotation (with `N` in u32
range) succeeds exactly when `N` is a nonzero power of two; for every
`N` that is zero or not a power of two it emits the diagnostic
"Alignment must be a power of two" and returns no alignment. -/
theorem c9_read_align_opt (s : St) :
    ((s.peek).type = .alignEqNat → (s.peek).natVal < 2 ^ 32 →
      (((s.peek).natVal = 0 ∨ ¬ ∃ k, (s.peek).natVal = 2 ^ k) →
        ReadAlignOpt s =
          (some none,
           addErrSt (s.peek).loc
             ("Alignment must be a power of two, got " ++ toString (s.peek).natVal)
             { s with toks := s.toks.drop 1 }))
      ∧ ((∃ k, (s.peek).natVal = 2 ^ k) →
        ReadAlignOpt s =
          (some (some ⟨(s.peek).loc, (s.peek).natVal⟩),
           { s with toks := s.toks.drop 1 })))
  ∧ ((s.peek).type ≠ .alignEqNat → ReadAlignOpt s = (some none, s)) := by
  constructor
  · intro halign hrange
    have hrange' : (s.peek).natVal < 4294967296 := by norm_num at hrange; exact hrange
    constructor
    · intro h0
      have hcond : ((s.peek).natVal = 0 ∨ ((s.peek).natVal &&& ((s.peek).natVal - 1)) ≠ 0) := by
        rcases h0 with h0 | h0
        · exact Or.inl h0
        · by_cases hz : (s.peek).natVal = 0
          · exact Or.inl hz
          · refine Or.inr fun hc => h0 ?_
            exact (land_pred_eq_zero_iff _ (Nat.pos_of_ne_zero hz)).mp hc
      simp [ReadAlignOpt, ReadNameEqNatOpt, M.bind_apply, M.pure_apply, mmatch,
        halign, StrToNat32, hrange', hcond, onError, addErrSt]
    · intro hpow
      obtain ⟨k, hk⟩ := hpow
      have hnz : (s.peek).natVal ≠ 0 := by
        rw [hk]; exact Nat.pos_iff_ne_zero.mp (Nat.pos_pow_of_pos k (by omega))
      have hland : ((s.peek).natVal &&& ((s.peek).natVal - 1)) = 0 :=
        (land_pred_eq_zero_iff _ (Nat.pos_of_ne_zero hnz)).mpr ⟨k, hk⟩
      have hcond : ¬((s.peek).natVal = 0 ∨ ((s.peek).natVal &&& ((s.peek).natVal - 1)) ≠ 0) := by
        push_neg
        exact ⟨hnz, hland⟩
      simp [ReadAlignOpt, ReadNameEqNatOpt, M.bind_apply, M.pure_apply, mmatch,
        halign, StrToNat32, hrange', hcond, onError, addErrSt, hnz, hland]
  · intro halign
    simp [ReadAlignOpt, ReadNameEqNatOpt, M.bind_apply, M.pure_apply, mmatch, halign]

def c9Tok : Token := { type := .alignEqNat, natVal := 6, loc := 4 }

def c9St : St := { toks := [c9Tok], ctx := {} }

theorem c9_read_align_opt_witness :
    ReadAlignOpt c9St =
      (some none,
       addErrSt (c9St.peek).loc
         ("Alignment must be a power of two, got " ++ toString (c9St.peek).natVal)
         { c9St with toks := c9St.toks.drop 1 }) :=
  ((c9_read_align_opt c9St).1 (by decide) (by decide)).1
    (Or.inr (by
      rintro ⟨k, hk⟩
      rcases Nat.lt_or_ge k 3 with h | h
      · interval_cases k <;> revert hk <;> decide
      · have h8 : (8 : Nat) ≤ 2 ^ k := by
          calc (8 : Nat) = 2 ^ 3 := by norm_num
          _ ≤ 2 ^ k := Nat.pow_le_pow_right (by omega) h
        have : (c9St.peek).natVal = 6 := by decide
        omega))

/-- C8: `ReadSimdLane` accepts unsigned (or plus-signed) integer
literals in the u8 lane range, but rejects any integer literal carrying
a minus sign with the diagnostic "Expected a positive integer", yielding
no lane value; out-of-range non-negative literals are rejected by the
integer conversion. -/
theorem c8_read_simd_lane (s : St) :
    ((s.peek).type = .int → (s.peek).sign = .minus →
      ReadSimdLane s =
        (none, addErrSt (s.peek).loc
          ("Expected a positive integer, got " ++ (s.peek).type.str) s))
  ∧ (((s.peek).type = .nat ∨ (s.peek).type = .int) → (s.peek).sign ≠ .minus →
      ((s.peek).natVal < 2 ^ 8 →
        ReadSimdLane s =
          (some ((s.peek).natVal : Int), { s with toks := s.toks.drop 1 }))
      ∧ (2 ^ 8 ≤ (s.peek).natVal →
        ReadSimdLane s =
          (none, addErrSt (s.peek).loc ("Invalid integer, got " ++ (s.peek).type.str)
            { s with toks := s.toks.drop 1 }))) := by
  constructor
  · intro hint hminus
    simp [ReadSimdLane, M.bind_apply, M.pure_apply, mpeek, mpeekN, hint, hminus,
      onError, addErrSt, mfail]
  · intro htype hsign
    have hcond : ¬((s.peek).type = .int ∧ (s.peek).sign = .minus) := by
      rintro ⟨-, h⟩; exact hsign h
    constructor
    · intro hlt
      have hint : StrToInt 8 (s.peek) = some ((s.peek).natVal : Int) := by
        unfold StrToInt
        rcases h : (s.peek).sign with _ | _ | _
        · simp only [if_pos (by norm_num at hlt ⊢; exact hlt : (s.peek).natVal < 2 ^ 8)]
        · simp only [if_pos (by norm_num at hlt ⊢; exact hlt : (s.peek).natVal < 2 ^ 8)]
        · exact absurd h hsign
      simp [ReadSimdLane, ReadInt, M.bind_apply, M.pure_apply, mpeek, mpeekN, mread,
        hcond, htype, hint]
    · intro hge
      have hint : StrToInt 8 (s.peek) = none := by
        unfold StrToInt
        rcases h : (s.peek).sign with _ | _ | _
        · simp; omega
        · simp; omega
        · exact absurd h hsign
      simp [ReadSimdLane, ReadInt, M.bind_apply, M.pure_apply, mpeek, mpeekN, mread,
        hcond, htype, hint, onError, addErrSt, mfail]

def c8Tok : Token := { type := .int, sign := .minus, natVal := 1, loc := 2 }

def c8St : St := { toks := [c8Tok], ctx := {} }

theorem c8_read_simd_lane_witness :
    ReadSimdLane c8St =
      (none, addErrSt (c8St.peek).loc
        ("Expected a positive integer, got " ++ (c8St.peek).type.str) c8St) :=
  (c8_read_simd_lane c8St).1 (by decide) (by decide)

theorem foldl_append_flatMap {α β : Type} (g : α → List β) :
    ∀ (l : List α) (acc : List β),
      l.foldl (fun a x => a ++ g x) acc = acc ++ l.flatMap g
  | [], acc => by simp
  | x :: l, acc => by
    simp [List.foldl_cons, foldl_append_flatMap g l, List.flatMap]

/-- C4: counterexample to the claim that `dump`'s `Main` exits with
code 1 when an input file cannot be read: with a valid flag and an
unreadable file, the error message is printed but the exit code is 0
(the loop `continue`s and `Main` falls through to `return 0`). -/
theorem c4_dump_main_counterexample :
    dumpMain ["-h", "m.wasm"] (fun _ => false) =
      (0, ["Error reading file m.wasm.\n"]) := by decide

/-- C4 (amended): `dump`'s `Main` returns 1 exactly on a usage error
(no filenames, or none of `-h`/`-d`/`-x`/`-s` given) and 0 otherwise;
an unreadable input file prints "Error reading file …" but does not
affect the exit code. -/
theorem c4_dump_main_exit_codes (args : List String) (readable : String → Bool) :
    ((dumpMain args readable).1 =
      if (parseDumpArgs args {} [] []).2.1 = [] then 1
      else if ((parseDumpArgs args {} [] []).1.print_headers
          || (parseDumpArgs args {} [] []).1.print_disassembly
          || (parseDumpArgs args {} [] []).1.print_details
          || (parseDumpArgs args {} [] []).1.print_raw_data) = false then 1
      else 0)
  ∧ (∀ f, f ∈ (parseDumpArgs args {} [] []).2.1 → readable f = false →
      (parseDumpArgs args {} [] []).2.1 ≠ [] →
      ((parseDumpArgs args {} [] []).1.print_headers
          || (parseDumpArgs args {} [] []).1.print_disassembly
          || (parseDumpArgs args {} [] []).1.print_details
          || (parseDumpArgs args {} [] []).1.print_raw_data) = true →
      ("Error reading file " ++ f ++ ".\n") ∈ (dumpMain args readable).2) := by
  constructor
  · unfold dumpMain
    rcases hp : parseDumpArgs args {} [] [] with ⟨opts, files, log⟩
    by_cases hfiles : files = []
    · simp [hfiles, hp]
    · by_cases hflags : (opts.print_headers || opts.print_disassembly
          || opts.print_details || opts.print_raw_data) = false
      · simp [hp, hfiles, hflags, List.isEmpty_iff]
      · have hflags' : (opts.print_headers || opts.print_disassembly
            || opts.print_details || opts.print_raw_data) = true := by
          revert hflags; cases (opts.print_headers || opts.print_disassembly
            || opts.print_details || opts.print_raw_data) <;> simp
        simp [hp, hfiles, hflags', List.isEmpty_iff]
  · intro f hf hunread hfiles hflags
    unfold dumpMain
    rcases hp : parseDumpArgs args {} [] [] with ⟨opts, files, log⟩
    rw [hp] at hf hfiles hflags
    simp only at hf hfiles hflags
    simp [List.isEmpty_iff, hfiles, hflags, foldl_append_flatMap]
    right
    exact ⟨f, hf, by simp [hunread]⟩

theorem hasFeatures_false_of_mem {F : Features} {l : List Feature} {f : Feature}
    (hmem : f ∈ l) (hdis : F.get f = false) : F.hasFeatures l = false := by
  unfold Features.hasFeatures
  by_contra hne
  have hall : l.all F.get = true := by
    revert hne; cases (l.all F.get) <;> simp
  have := List.all_eq_true.mp hall _ hmem
  rw [hdis] at this; cases this

theorem checkOpcode_disabled {s : St} (t : Token)
    (hhf : s.ctx.features.hasFeatures t.opcode_features = false) :
    CheckOpcodeEnabled t s = (none, addErrSt t.loc (notAllowedMsg t.opcode) s) := by
  simp [CheckOpcodeEnabled, M.bind_apply, M.pure_apply, getCtx, hhf, onError,
    addErrSt, mfail]

/-- An action only ever appends to the error sink. -/
def ErrExtend {α : Type} (x : M α) : Prop :=
  ∀ s, ∃ d, ((x s).2).ctx.errors = s.ctx.errors ++ d

theorem errExtend_bind {α β : Type} {x : M α} {f : α → M β}
    (hx : ErrExtend x) (hf : ∀ a, ErrExtend (f a)) : ErrExtend (x >>= f) := by
  intro s
  rw [M.bind_apply]
  rcases hx s with ⟨d1, hd1⟩
  rcases hxe : x s with ⟨vo, s1⟩
  rw [hxe] at hd1
  rcases vo with _ | a
  · exact ⟨d1, hd1⟩
  · rcases hf a s1 with ⟨d2, hd2⟩
    exact ⟨d1 ++ d2, by rw [hd2, hd1, List.append_assoc]⟩

theorem errExtend_pure {α : Type} (a : α) : ErrExtend (pure a : M α) :=
  fun s => ⟨[], by simp [M.pure_apply]⟩

theorem errExtend_mfail {α : Type} : ErrExtend (mfail : M α) :=
  fun s => ⟨[], by simp [mfail]⟩

theorem errExtend_mpeek : ErrExtend mpeek :=
  fun s => ⟨[], by simp [mpeek, mpeekN]⟩

theorem errExtend_mpeekN (k : Nat) : ErrExtend (mpeekN k) :=
  fun s => ⟨[], by simp [mpeekN]⟩

theorem errExtend_mread : ErrExtend mread :=
  fun s => ⟨[], by simp [mread]⟩

theorem errExtend_mmatch (tt : TokenType) : ErrExtend (mmatch tt) := by
  intro s
  unfold mmatch
  split
  · exact ⟨[], by simp⟩
  · exact ⟨[], by simp⟩

theorem errExtend_onError (loc : Nat) (msg : String) : ErrExtend (onError loc msg) :=
  fun s => ⟨[(loc, msg)], by simp [onError]⟩

theorem errExtend_ReadNat32 : ErrExtend ReadNat32 := by
  unfold ReadNat32
  refine errExtend_bind (errExtend_mmatch _) ?_
  intro a
  rcases a with _ | tok
  · exact errExtend_bind errExtend_mpeek fun t =>
      errExtend_bind (errExtend_onError _ _) fun _ => errExtend_mfail
  · rcases h : StrToNat32 tok with _ | n <;> simp only [h]
    · exact errExtend_bind (errExtend_onError _ _) fun _ => errExtend_mfail
    · exact errExtend_pure _

theorem errExtend_ReadVarOpt : ErrExtend ReadVarOpt := by
  intro s
  rcases hn : ReadNat32 s with ⟨vo, s1⟩
  rcases errExtend_ReadNat32 s with ⟨d, hd⟩
  rw [hn] at hd
  by_cases hid : (s.peek).type = .id
  · exact ⟨[], by simp [ReadVarOpt, hid]⟩
  · by_cases hnat : (s.peek).type = .nat
    · rcases vo with _ | n
      · refine ⟨d, ?_⟩
        simp only [ReadVarOpt, hid, hnat, if_false, if_true, hn]
        simpa using hd
      · refine ⟨d, ?_⟩
        simp only [ReadVarOpt, hid, hnat, if_false, if_true, hn]
        simpa using hd
    · exact ⟨[], by simp [ReadVarOpt, hid, hnat]⟩

theorem errExtend_ReadVar : ErrExtend ReadVar := by
  unfold ReadVar
  refine errExtend_bind errExtend_mpeek fun t => ?_
  refine errExtend_bind errExtend_ReadVarOpt fun a => ?_
  rcases a with _ | v
  · exact errExtend_bind (errExtend_onError _ _) fun _ => errExtend_mfail
  · exact errExtend_pure _

theorem readPlainInstruction_disabled_eq (fuel : Nat) (s : St) (f : Feature)
    (hplain : IsPlainInstruction (s.peek) = true)
    (hgate : f ∈ (s.peek).opcode_features)
    (hdis : s.ctx.features.get f = false) :
    ReadPlainInstruction fuel s =
      (if (s.peek).type = .memoryCopyInstr then
        (some ⟨(s.peek).loc, { opcode := (s.peek).opcode, immediate := .copy {} }⟩,
         addErrSt (s.peek).loc (notAllowedMsg (s.peek).opcode)
           { s with toks := s.toks.drop 1 })
      else if (s.peek).type = .memoryInitInstr then
        (match ReadVar (addErrSt (s.peek).loc (notAllowedMsg (s.peek).opcode)
            { s with toks := s.toks.drop 1 }) with
         | (some v, s') =>
           (some ⟨(s.peek).loc, { opcode := (s.peek).opcode,
                                  immediate := .init { segment := v } }⟩, s')
         | (none, s') => (none, s'))
      else
        (none, addErrSt (s.peek).loc (notAllowedMsg (s.peek).opcode) s)) := by
  have hhf := hasFeatures_false_of_mem hgate hdis
  have hcheck := @checkOpcode_disabled s (s.peek) hhf
  rcases htype : (s.peek).type
  case memoryInitInstr =>
    rcases hrv : ReadVar (addErrSt (s.peek).loc (notAllowedMsg (s.peek).opcode)
        { s with toks := s.toks.drop 1 }) with ⟨vo, s2⟩
    simp only [ReadPlainInstruction, M.bind_apply, M.pure_apply, guardLoc, mpeek,
      mpeekN, mread, mignore, htype, hcheck]
    simp only [addErrSt, List.drop_one] at hrv ⊢
    rcases vo with _ | v <;> simp [hrv, htype]
  all_goals try (simp [IsPlainInstruction, htype] at hplain)
  all_goals
    simp only [ReadPlainInstruction, M.bind_apply, M.pure_apply, guardLoc, mpeek,
      mpeekN, mread, mignore, htype, hcheck, mfail]
  all_goals simp [htype, addErrSt]


/-- C1 (amended): in `ReadPlainInstruction`, for every plain instruction
token gated on a disabled feature the "… instruction not allowed"
diagnostic is emitted, and the instruction is rejected for every gated
opcode except `memory.copy` and `memory.init`: those two emit the
diagnostic but still return the instruction (their `CheckOpcodeEnabled`
result is ignored).  When all required features are enabled the check
succeeds without a diagnostic, and a well-formed bare instruction is
read successfully. -/
theorem c1_feature_gating :
    (∀ (fuel : Nat) (s : St) (f : Feature),
      IsPlainInstruction (s.peek) = true →
      f ∈ (s.peek).opcode_features →
      s.ctx.features.get f = false →
      (ReadPlainInstruction fuel s =
        (if (s.peek).type = .memoryCopyInstr then
          (some ⟨(s.peek).loc, { opcode := (s.peek).opcode, immediate := .copy {} }⟩,
           addErrSt (s.peek).loc (notAllowedMsg (s.peek).opcode)
             { s with toks := s.toks.drop 1 })
        else if (s.peek).type = .memoryInitInstr then
          (match ReadVar (addErrSt (s.peek).loc (notAllowedMsg (s.peek).opcode)
              { s with toks := s.toks.drop 1 }) with
           | (some v, s') =>
             (some ⟨(s.peek).loc, { opcode := (s.peek).opcode,
                                    immediate := .init { segment := v } }⟩, s')
           | (none, s') => (none, s'))
        else
          (none, addErrSt (s.peek).loc (notAllowedMsg (s.peek).opcode) s))
      ∧ ((s.peek).loc, notAllowedMsg (s.peek).opcode) ∈
          ((ReadPlainInstruction fuel s).2).ctx.errors))
  ∧ (∀ s : St, s.ctx.features.hasFeatures (s.peek).opcode_features = true →
      CheckOpcodeEnabled (s.peek) s = (some (), s))
  ∧ (∀ (fuel : Nat) (s : St), (s.peek).type = .bareInstr →
      s.ctx.features.hasFeatures (s.peek).opcode_features = true →
      ReadPlainInstruction fuel s =
        (some ⟨(s.peek).loc, { opcode := (s.peek).opcode }⟩,
         { s with toks := s.toks.drop 1 })) := by
  refine ⟨?_, ?_, ?_⟩
  · intro fuel s f hplain hgate hdis
    have heq := readPlainInstruction_disabled_eq fuel s f hplain hgate hdis
    refine ⟨heq, ?_⟩
    rw [heq]
    by_cases hc : (s.peek).type = .memoryCopyInstr
    · simp [hc, addErrSt]
    · by_cases hi : (s.peek).type = .memoryInitInstr
      · simp only [hc, hi, if_false, if_true]
        rcases hrv : ReadVar (addErrSt (s.peek).loc (notAllowedMsg (s.peek).opcode)
            { s with toks := s.toks.drop 1 }) with ⟨vo, s2⟩
        rcases errExtend_ReadVar (addErrSt (s.peek).loc (notAllowedMsg (s.peek).opcode)
            { s with toks := s.toks.drop 1 }) with ⟨d, hd⟩
        rw [hrv] at hd
        rcases vo with _ | v
        · simp only [hrv]
          rw [if_neg (by decide)]
          show ((s.peek).loc, notAllowedMsg (s.peek).opcode) ∈ s2.ctx.errors
          rw [(by exact hd : s2.ctx.errors = _)]
          simp [addErrSt]
        · simp only [hrv]
          rw [if_neg (by decide)]
          show ((s.peek).loc, notAllowedMsg (s.peek).opcode) ∈ s2.ctx.errors
          rw [(by exact hd : s2.ctx.errors = _)]
          simp [addErrSt]
      · simp [hc, hi, addErrSt]
  · intro s henb
    simp [CheckOpcodeEnabled, M.bind_apply, M.pure_apply, getCtx, henb]
  · intro fuel s hbare henb
    have hcheck : CheckOpcodeEnabled (s.peek) s = (some (), s) := by
      simp [CheckOpcodeEnabled, M.bind_apply, M.pure_apply, getCtx, henb]
    simp [ReadPlainInstruction, M.bind_apply, M.pure_apply, guardLoc, mpeek,
      mpeekN, mread, hbare, hcheck]

def c1MemCopyTok : Token :=
  { type := .memoryCopyInstr, loc := 3, opcode := .memoryCopy,
    opcode_features := [.bulk_memory] }

/-- C1: counterexample to the claim that every feature-gated
instruction is rejected when its feature is disabled: with all features
disabled, reading `memory.copy` emits the "not allowed" diagnostic but
still returns the instruction. -/
theorem c1_memory_copy_counterexample :
    (ReadPlainInstruction 10 { toks := [c1MemCopyTok], ctx := {} }).1 =
      some ⟨3, { opcode := .memoryCopy, immediate := .copy {} }⟩
    ∧ (3, "memory.copy instruction not allowed") ∈
        ((ReadPlainInstruction 10 { toks := [c1MemCopyTok], ctx := {} }).2).ctx.errors := by
  decide

def c1BareTok : Token :=
  { type := .bareInstr, loc := 5, opcode := .refIsNull,
    opcode_features := [.reference_types] }

theorem c1_feature_gating_witness :
    (ReadPlainInstruction 10 { toks := [c1BareTok], ctx := {} }).1 = none
    ∧ (5, notAllowedMsg Opcode.refIsNull) ∈
        ((ReadPlainInstruction 10 { toks := [c1BareTok], ctx := {} }).2).ctx.errors
    ∧ ReadPlainInstruction 10
        { toks := [c1BareTok], ctx := { features := refOnlyFeatures } } =
        (some ⟨5, { opcode := .refIsNull }⟩,
         { toks := [], ctx := { features := refOnlyFeatures } }) := by
  have h1 := (c1_feature_gating.1 10 { toks := [c1BareTok], ctx := {} }
    Feature.reference_types (by decide) (by decide) (by decide))
  have h3 := c1_feature_gating.2.2 10
    { toks := [c1BareTok], ctx := { features := refOnlyFeatures } }
    (by decide) (by decide)
  refine ⟨?_, ?_, ?_⟩
  · rw [h1.1]; decide
  · exact h1.2
  · rw [h3]; decide

/-- `ReadModule` is `BeginModule`, the item loop started from the empty
module, and the deferred type entries appended. -/
theorem readModule_eq_loop_append (fuel : Nat) (s : St) (items : Module) (s' : St)
    (hloop : ReadModuleLoop fuel [] { s with ctx := s.ctx.BeginModule } = (some items, s')) :
    ReadModule fuel s =
      (some (items ++ (s'.ctx.EndModule).map fun te => ⟨0, ModuleItem.typeEntry te⟩), s') := by
  unfold ReadModule
  simp only [M.bind_apply, M.pure_apply, modifyCtx, getCtx]
  rw [hloop]

theorem readModuleLoop_step {fuel fuel' : Nat} (hf : fuel = fuel' + 1)
    (acc : Module) {s s' : St} {it : At ModuleItem}
    (hitem : s.IsModuleItem = true)
    (hread : ReadModuleItem fuel' s = (some it, s')) :
    ReadModuleLoop fuel acc s = ReadModuleLoop fuel' (acc ++ [it]) s' := by
  subst hf
  unfold ReadModuleLoop
  simp only [M.bind_apply, M.pure_apply, mquery, hitem, if_true, hread]
  cases fuel' <;> simp [ReadModuleLoop]

theorem readModuleLoop_stop {fuel fuel' : Nat} (hf : fuel = fuel' + 1)
    (acc : Module) {s : St} (hitem : s.IsModuleItem = false) :
    ReadModuleLoop fuel acc s = (some acc, s) := by
  subst hf
  unfold ReadModuleLoop
  simp only [M.bind_apply, M.pure_apply, mquery, hitem]
  simp [M.pure_apply]

def mtLp (l : Nat) : Token := { type := .lpar, loc := l }

def mtRp (l : Nat) : Token := { type := .rpar, loc := l }

def mtFunc (l : Nat) : Token := { type := .func, loc := l }

def mtType (l : Nat) : Token := { type := .typeTok, loc := l }

def mtParam (l : Nat) : Token := { type := .param, loc := l }

def mtI32 (l : Nat) : Token := { type := .valueType, valueType := .i32, loc := l }

/-- Tokens of `(func (param i32)) (func) (func (param i32))`. -/
def c6toksC : List Token :=
  [mtLp 0, mtFunc 1, mtLp 2, mtParam 3, mtI32 4, mtRp 5, mtRp 6,
   mtLp 7, mtFunc 8, mtRp 9,
   mtLp 10, mtFunc 11, mtLp 12, mtParam 13, mtI32 14, mtRp 15, mtRp 16]

def c6stC0 : St := { toks := c6toksC, ctx := {} }

def c6stC1 : St :=
  { toks := c6toksC.drop 7,
    ctx := { function_names := { entries := [none] },
             function_type_map := { used := [{ params := [.i32] }] },
             seen_non_import := true } }

def c6stC2 : St :=
  { toks := c6toksC.drop 10,
    ctx := { function_names := { entries := [none, none] },
             function_type_map := { used := [{ params := [.i32] }, {}] },
             seen_non_import := true } }

def c6stC3 : St :=
  { toks := [],
    ctx := { function_names := { entries := [none, none, none] },
             function_type_map := { used := [{ params := [.i32] }, {}, { params := [.i32] }] },
             seen_non_import := true } }

def c6itC1 : At ModuleItem :=
  ⟨0, .func { desc := { type := { params := [{ valtype := .i32 }] } } }⟩

def c6itC2 : At ModuleItem := ⟨7, .func { desc := {} }⟩

def c6itC3 : At ModuleItem :=
  ⟨10, .func { desc := { type := { params := [{ valtype := .i32 }] } } }⟩

/-- C6: `ReadModule` returns the parsed items in source order followed
by the deferred synthetic type entries of the `function_type_map`:
inline function types not already defined as a type entry are appended
at end-of-module, in first-seen order, deduplicated.  Examples:
`(module (func))` yields the function plus one synthesized `(func)`
type entry; a type already defined by `(type (func))` is not
re-emitted; two distinct inline types are emitted in first-seen order,
each once. -/
theorem c6_read_module :
    (∀ (fuel : Nat) (s : St) (items : Module) (s' : St),
      ReadModuleLoop fuel [] { s with ctx := s.ctx.BeginModule } = (some items, s') →
      ReadModule fuel s =
        (some (items ++ (s'.ctx.EndModule).map fun te => ⟨0, ModuleItem.typeEntry te⟩), s'))
  ∧ (ReadModule 10 { toks := [mtLp 0, mtFunc 1, mtRp 2], ctx := {} }).1 =
      some [⟨0, .func { desc := {} }⟩, ⟨0, .typeEntry { type := {} }⟩]
  ∧ (ReadModule 10 { toks := [mtLp 0, mtType 1, mtLp 2, mtFunc 3, mtRp 4, mtRp 5,
        mtLp 6, mtFunc 7, mtRp 8], ctx := {} }).1 =
      some [⟨0, .typeEntry { type := {} }⟩, ⟨6, .func { desc := {} }⟩]
  ∧ (ReadModule 20 c6stC0).1 =
      some [c6itC1, c6itC2, c6itC3,
            ⟨0, .typeEntry { type := { params := [{ valtype := .i32 }] } }⟩,
            ⟨0, .typeEntry { type := {} }⟩] := by
  refine ⟨readModule_eq_loop_append, by decide, by decide, ?_⟩
  have e1 : ReadModuleItem 19 c6stC0 = (some c6itC1, c6stC1) := by decide
  have e2 : ReadModuleItem 18 c6stC1 = (some c6itC2, c6stC2) := by decide
  have e3 : ReadModuleItem 17 c6stC2 = (some c6itC3, c6stC3) := by decide
  have hloop : ReadModuleLoop 20 [] c6stC0 = (some [c6itC1, c6itC2, c6itC3], c6stC3) := by
    rw [readModuleLoop_step (by norm_num : (20:Nat) = 19 + 1) [] (by decide) e1,
        readModuleLoop_step (by norm_num : (19:Nat) = 18 + 1) _ (by decide) e2,
        readModuleLoop_step (by norm_num : (18:Nat) = 17 + 1) _ (by decide) e3,
        readModuleLoop_stop (by norm_num : (17:Nat) = 16 + 1) _ (by decide)]
    simp
  have hbm : ({ toks := c6toksC, ctx := Context.BeginModule {} } : St) = c6stC0 := by decide
  have := readModule_eq_loop_append 20 c6stC0 [c6itC1, c6itC2, c6itC3] c6stC3
    (by rw [show ({ c6stC0 with ctx := c6stC0.ctx.BeginModule } : St) = c6stC0 from by decide]
        exact hloop)
  rw [this]
  decide

theorem c6_read_module_witness :
    ReadModule 1 { toks := [], ctx := {} } = (some [], { toks := [], ctx := {} }) := by
  have h := c6_read_module.1 1 { toks := [], ctx := {} } [] { toks := [], ctx := {} }
    (by decide)
  rw [h]
  decide

theorem c4_dump_main_exit_codes_witness :
    (dumpMain ["-h", "good.wasm", "bad.wasm"]
        (fun f => decide (f = "good.wasm"))).1 = 0
  ∧ ("Error reading file bad.wasm.\n") ∈
      (dumpMain ["-h", "good.wasm", "bad.wasm"]
        (fun f => decide (f = "good.wasm"))).2 :=
  ⟨((c4_dump_main_exit_codes ["-h", "good.wasm", "bad.wasm"]
      (fun f => decide (f = "good.wasm"))).1).trans (by decide),
   (c4_dump_main_exit_codes ["-h", "good.wasm", "bad.wasm"]
      (fun f => decide (f = "good.wasm"))).2 "bad.wasm"
      (by decide) (by decide) (by decide) (by decide)⟩


theorem expect_obs {s s' : St} (ht : s.toks = s'.toks)
    (he : s.ctx.errors = s'.ctx.errors) (tt : TokenType) :
    (Expect tt s).1 = (Expect tt s').1
    ∧ ((Expect tt s).2).toks = ((Expect tt s').2).toks
    ∧ ((Expect tt s).2).ctx.errors = ((Expect tt s').2).ctx.errors := by
  have hpk : s.peek = s'.peek := by simp [St.peek, ht]
  have hpk0 : s.peek 0 = s'.peek 0 := by simp [St.peek, ht]
  by_cases hm : (s'.peek).type = tt
  · simp only [Expect, M.bind_apply, M.pure_apply, mmatch, hpk, hm, ht, he, if_pos]
    simp [he]
  · simp only [Expect, M.bind_apply, M.pure_apply, mmatch, mpeek, mpeekN, hpk, hpk0,
      onError, mfail, ht, he, if_neg hm]
    simp [he]

theorem c10ind (fuel : Nat) (s s' : St)
    (ht : s.toks = s'.toks) (he : s.ctx.errors = s'.ctx.errors) :
    (ReadElementExpression fuel s).1 = (ReadElementExpression fuel s').1
    ∧ ((ReadElementExpression fuel s).2).toks = ((ReadElementExpression fuel s').2).toks
    ∧ ((ReadElementExpression fuel s).2).ctx.errors
        = ((ReadElementExpression fuel s').2).ctx.errors := by
  have hpk : s.peek = s'.peek := by simp [St.peek, ht]
  have hpk1 : s.peek 1 = s'.peek 1 := by simp [St.peek, ht]
  by_cases h01 : (s'.peek).type = .lpar ∧ (s'.peek 1).type = .item
  · rcases hil : ReadInstructionList fuel []
        { toks := s'.toks.drop 2, ctx := Context.fresh refOnlyFeatures s'.ctx.errors }
      with ⟨vo, s3⟩
    have eqL : ReadElementExpression fuel s =
        (match (ReadInstructionList fuel []
            { toks := s'.toks.drop 2, ctx := Context.fresh refOnlyFeatures s'.ctx.errors }) with
         | (some instructions, s3) =>
           (match Expect .rpar { toks := s3.toks, ctx := { s.ctx with errors := s3.ctx.errors } } with
            | (some _, s5) => (some { instructions := instructions }, s5)
            | (none, s5) => (none, s5))
         | (none, s3) =>
           (none, { toks := s3.toks, ctx := { s.ctx with errors := s3.ctx.errors } })) := by
      unfold ReadElementExpression
      simp only [mmatchLpar, hpk, hpk1, h01, and_self, if_pos, ht, he]
    have eqR : ReadElementExpression fuel s' =
        (match (ReadInstructionList fuel []
            { toks := s'.toks.drop 2, ctx := Context.fresh refOnlyFeatures s'.ctx.errors }) with
         | (some instructions, s3) =>
           (match Expect .rpar { toks := s3.toks, ctx := { s'.ctx with errors := s3.ctx.errors } } with
            | (some _, s5) => (some { instructions := instructions }, s5)
            | (none, s5) => (none, s5))
         | (none, s3) =>
           (none, { toks := s3.toks, ctx := { s'.ctx with errors := s3.ctx.errors } })) := by
      unfold ReadElementExpression
      simp only [mmatchLpar, h01, and_self, if_pos]
    rw [eqL, eqR]
    simp only [hil]
    rcases vo with _ | instrs
    · exact ⟨rfl, rfl, rfl⟩
    · have hob := @expect_obs
        { toks := s3.toks, ctx := { s.ctx with errors := s3.ctx.errors } }
        { toks := s3.toks, ctx := { s'.ctx with errors := s3.ctx.errors } } rfl rfl .rpar
      rcases hx : Expect .rpar { toks := s3.toks, ctx := { s.ctx with errors := s3.ctx.errors } } with ⟨xo, sx⟩
      rcases hy : Expect .rpar { toks := s3.toks, ctx := { s'.ctx with errors := s3.ctx.errors } } with ⟨yo, sy⟩
      rw [hx, hy] at hob
      simp only at hob
      obtain ⟨hv, hts, hes⟩ := hob
      subst hv
      simp only [hx, hy]
      rcases xo with _ | tok
      · exact ⟨rfl, hts, hes⟩
      · exact ⟨rfl, hts, hes⟩
  · have hexpeq : St.IsExpression s = St.IsExpression s' := by
      simp [St.IsExpression, St.peek, ht]
    by_cases hexp : St.IsExpression s' = true
    · rcases hre : ReadExpression fuel []
          { toks := s'.toks, ctx := Context.fresh refOnlyFeatures s'.ctx.errors }
        with ⟨vo, s3⟩
      have eqL : ReadElementExpression fuel s =
          (match (ReadExpression fuel []
              { toks := s'.toks, ctx := Context.fresh refOnlyFeatures s'.ctx.errors }) with
           | (some instructions, s3) =>
             (some { instructions := instructions },
              { toks := s3.toks, ctx := { s.ctx with errors := s3.ctx.errors } })
           | (none, s3) =>
             (none, { toks := s3.toks, ctx := { s.ctx with errors := s3.ctx.errors } })) := by
        unfold ReadElementExpression
        simp [mmatchLpar, hpk, hpk1, h01, hexpeq, hexp, ht, he]
      have eqR : ReadElementExpression fuel s' =
          (match (ReadExpression fuel []
              { toks := s'.toks, ctx := Context.fresh refOnlyFeatures s'.ctx.errors }) with
           | (some instructions, s3) =>
             (some { instructions := instructions },
              { toks := s3.toks, ctx := { s'.ctx with errors := s3.ctx.errors } })
           | (none, s3) =>
             (none, { toks := s3.toks, ctx := { s'.ctx with errors := s3.ctx.errors } })) := by
        unfold ReadElementExpression
        simp [mmatchLpar, h01, hexp]
      rw [eqL, eqR]
      simp only [hre]
      rcases vo with _ | instrs
      · exact ⟨rfl, rfl, rfl⟩
      · exact ⟨rfl, rfl, rfl⟩
    · have eqL : ReadElementExpression fuel s =
          (none, addErrSt (s'.peek).loc
            ("Expected element expression, got " ++ (s'.peek).type.str) s) := by
        unfold ReadElementExpression
        simp [mmatchLpar, hpk, hpk1, h01, hexpeq, hexp, ht, he, addErrSt]
      have eqR : ReadElementExpression fuel s' =
          (none, addErrSt (s'.peek).loc
            ("Expected element expression, got " ++ (s'.peek).type.str) s') := by
        unfold ReadElementExpression
        simp [mmatchLpar, h01, hexp, addErrSt]
      rw [eqL, eqR]
      exact ⟨rfl, by simp [addErrSt, ht], by simp [addErrSt, he]⟩

theorem rilBare (f : Nat) (c : Context) (t2 t3 : Token) (rest : List Token)
    (h2 : t2.type = .bareInstr) (h3 : t3.type = .rpar) (acc : InstructionList) :
    ReadInstructionList (f + 2) acc { toks := t2 :: t3 :: rest, ctx := c } =
      (if c.features.hasFeatures t2.opcode_features then
        (some (acc ++ [⟨t2.loc, { opcode := t2.opcode }⟩]),
         ({ toks := t3 :: rest, ctx := c } : St))
      else
        (none, ({ toks := t2 :: t3 :: rest,
                  ctx := { c with errors :=
                    c.errors ++ [(t2.loc, notAllowedMsg t2.opcode)] } } : St))) := by
  have h22 : f + 2 = f + 1 + 1 := rfl
  rw [h22]
  by_cases hg : c.features.hasFeatures t2.opcode_features = true
  · rw [if_pos hg]
    simp [ReadInstructionList, ReadInstruction, ReadPlainInstruction,
      CheckOpcodeEnabled, M.bind_apply, M.pure_apply, mquery, mpeek, mpeekN, mread,
      guardLoc, getCtx, St.IsInstruction, St.IsExpression, St.peek, IsPlainInstruction,
      IsBlockInstruction, h2, h3, hg, mfail, onError]
  · have hg' : c.features.hasFeatures t2.opcode_features = false := by
      revert hg; cases (c.features.hasFeatures t2.opcode_features) <;> simp
    rw [if_neg hg]
    simp [ReadInstructionList, ReadInstruction, ReadPlainInstruction,
      CheckOpcodeEnabled, M.bind_apply, M.pure_apply, mquery, mpeek, mpeekN, mread,
      guardLoc, getCtx, St.IsInstruction, St.IsExpression, St.peek, IsPlainInstruction,
      IsBlockInstruction, h2, h3, hg', mfail, onError]

theorem c10accept (f : Nat) (s : St) (t0 t1 t2 t3 : Token) (rest : List Token)
    (htoks : s.toks = t0 :: t1 :: t2 :: t3 :: rest)
    (h0 : t0.type = .lpar) (h1 : t1.type = .item)
    (h2 : t2.type = .bareInstr) (h3 : t3.type = .rpar) :
    (ReadElementExpression (f + 2) s).1.isSome
      = refOnlyFeatures.hasFeatures t2.opcode_features := by
  have hpk0 : s.peek = t0 := by simp [St.peek, htoks]
  have hpk1 : s.peek 1 = t1 := by simp [St.peek, htoks]
  have eqL : ReadElementExpression (f + 2) s =
      (match (ReadInstructionList (f + 2) []
          { toks := t2 :: t3 :: rest, ctx := Context.fresh refOnlyFeatures s.ctx.errors }) with
       | (some instructions, s3) =>
         (match Expect .rpar { toks := s3.toks, ctx := { s.ctx with errors := s3.ctx.errors } } with
          | (some _, s5) => (some { instructions := instructions }, s5)
          | (none, s5) => (none, s5))
       | (none, s3) =>
         (none, { toks := s3.toks, ctx := { s.ctx with errors := s3.ctx.errors } })) := by
    unfold ReadElementExpression
    simp [mmatchLpar, hpk0, hpk1, h0, h1, htoks]
  have hril := rilBare f (Context.fresh refOnlyFeatures s.ctx.errors) t2 t3 rest h2 h3 []
  by_cases hg : refOnlyFeatures.hasFeatures t2.opcode_features = true
  · rw [if_pos (by exact hg : (Context.fresh refOnlyFeatures s.ctx.errors).features.hasFeatures t2.opcode_features = true)] at hril
    rw [eqL]
    simp only [hril]
    simp [Expect, mmatch, M.bind_apply, M.pure_apply, St.peek, h3, hg, Context.fresh]
  · have hg' : refOnlyFeatures.hasFeatures t2.opcode_features = false := by
      revert hg; cases (refOnlyFeatures.hasFeatures t2.opcode_features) <;> simp
    rw [if_neg (by simp [Context.fresh, hg'] :
        ¬ (Context.fresh refOnlyFeatures s.ctx.errors).features.hasFeatures t2.opcode_features = true)] at hril
    rw [eqL]
    simp only [hril]
    simp [hg']

def c10Lp : Token := { type := .lpar, loc := 0 }

def c10Item : Token := { type := .item, loc := 1 }

def c10Bare : Token :=
  { type := .bareInstr, loc := 2, opcode := .refIsNull,
    opcode_features := [.reference_types] }

def c10Rp : Token := { type := .rpar, loc := 3 }

def c10StA : St :=
  { toks := [c10Lp, c10Item, c10Bare, c10Rp],
    ctx := { features := { bulk_memory := true, simd := true, threads := true } } }

def c10StB : St :=
  { toks := [c10Lp, c10Item, c10Bare, c10Rp],
    ctx := { features := { bulk_memory := true } } }

/-- C10: an element expression is read under a fresh context whose
feature set has exactly `reference_types` enabled, sharing only the
error sink with the caller.  Under the source's precondition that the
caller's feature set enables `bulk_memory` (the function asserts it),
the outcome of `ReadElementExpression` — result value, remaining
tokens, and emitted diagnostics — is independent of the caller's
feature set and module state, and a bare instruction inside an
`(item ...)` form is accepted exactly when the `reference_types`-only
feature set enables its opcode. -/
theorem c10_element_expression (fuel : Nat) (s s' : St)
    (hbm : s.ctx.features.bulk_memory = true)
    (hbm' : s'.ctx.features.bulk_memory = true)
    (ht : s.toks = s'.toks) (he : s.ctx.errors = s'.ctx.errors) :
    ((ReadElementExpression fuel s).1 = (ReadElementExpression fuel s').1
     ∧ ((ReadElementExpression fuel s).2).toks
         = ((ReadElementExpression fuel s').2).toks
     ∧ ((ReadElementExpression fuel s).2).ctx.errors
         = ((ReadElementExpression fuel s').2).ctx.errors)
    ∧ (∀ (f : Nat) (t0 t1 t2 t3 : Token) (rest : List Token),
        s.toks = t0 :: t1 :: t2 :: t3 :: rest →
        t0.type = .lpar → t1.type = .item →
        t2.type = .bareInstr → t3.type = .rpar →
        (ReadElementExpression (f + 2) s).1.isSome
          = refOnlyFeatures.hasFeatures t2.opcode_features) := by
  refine ⟨c10ind fuel s s' ht he, ?_⟩
  intro f t0 t1 t2 t3 rest htoks h0 h1 h2 h3
  exact c10accept f s t0 t1 t2 t3 rest htoks h0 h1 h2 h3

theorem c10_element_expression_witness :
    c10StA.ctx.features.bulk_memory = true
    ∧ c10StB.ctx.features.bulk_memory = true
    ∧ c10StA.ctx.features ≠ c10StB.ctx.features
    ∧ (ReadElementExpression 9 c10StA).1 = (ReadElementExpression 9 c10StB).1
    ∧ (ReadElementExpression (5 + 2) c10StA).1.isSome
        = refOnlyFeatures.hasFeatures c10Bare.opcode_features := by
  have h := c10_element_expression 9 c10StA c10StB (by decide) (by decide) rfl rfl
  exact ⟨by decide, by decide, by decide, h.1.1,
    h.2 5 c10Lp c10Item c10Bare c10Rp [] rfl rfl rfl rfl rfl⟩


theorem bind_eq_some {α β : Type} {x : M α} {f : α → M β} {s s' : St} {b : β}
    (h : (x >>= f) s = (some b, s')) :
    ∃ a s1, x s = (some a, s1) ∧ f a s1 = (some b, s') := by
  rw [M.bind_apply] at h
  rcases hx : x s with ⟨vo, s1⟩
  rw [hx] at h
  rcases vo with _ | a
  · simp at h
  · exact ⟨a, s1, rfl, h⟩

theorem pure_eq_some {α : Type} {a b : α} {s s' : St}
    (h : (pure a : M α) s = (some b, s')) : b = a ∧ s' = s := by
  simp only [M.pure_apply, Prod.mk.injEq, Option.some.injEq] at h
  exact ⟨h.1.symm, h.2.symm⟩

theorem appendChain {a b c : InstructionList}
    (h1 : ∃ d, b = a ++ d) (h2 : ∃ d, c = b ++ d) : ∃ d, c = a ++ d := by
  obtain ⟨d1, rfl⟩ := h1
  obtain ⟨d2, rfl⟩ := h2
  exact ⟨d1 ++ d2, by simp⟩

theorem readOpcodeOpt_append {tt : TokenType} {acc : InstructionList} {s : St}
    {b : Bool} {out : InstructionList} {s' : St}
    (h : ReadOpcodeOpt tt acc s = (some (b, out), s')) : ∃ d, out = acc ++ d := by
  unfold ReadOpcodeOpt at h
  obtain ⟨x, s1, hm, h⟩ := bind_eq_some h
  rcases x with _ | tok
  · simp only [] at h
    obtain ⟨h1, h2⟩ := pure_eq_some h
    injection h1 with hb hout
    exact ⟨[], by rw [hout]; simp⟩
  · simp only [] at h
    obtain ⟨h1, h2⟩ := pure_eq_some h
    injection h1 with hb hout
    exact ⟨_, hout⟩

theorem expectOpcode_append {tt : TokenType} {acc : InstructionList} {s : St}
    {out : InstructionList} {s' : St}
    (h : ExpectOpcode tt acc s = (some out, s')) : ∃ d, out = acc ++ d := by
  unfold ExpectOpcode at h
  obtain ⟨t, s1, hp, h⟩ := bind_eq_some h
  obtain ⟨⟨b, mid⟩, s2, hro, h⟩ := bind_eq_some h
  rcases b with _ | _
  · simp only [Bool.false_eq_true, if_false] at h
    obtain ⟨u, s3, ho, h⟩ := bind_eq_some h
    simp [mfail] at h
  · simp only [if_true] at h
    obtain ⟨h1, h2⟩ := pure_eq_some h
    rw [h1]
    exact readOpcodeOpt_append hro

theorem endBlockInstruction_append {label : Option BindVar} {acc : InstructionList}
    {s : St} {out : InstructionList} {s' : St}
    (h : EndBlockInstruction label acc s = (some out, s')) : ∃ d, out = acc ++ d := by
  unfold EndBlockInstruction at h
  obtain ⟨mid, s1, heo, h⟩ := bind_eq_some h
  obtain ⟨u, s2, hel, h⟩ := bind_eq_some h
  obtain ⟨u2, s3, hmc, h⟩ := bind_eq_some h
  obtain ⟨h1, h2⟩ := pure_eq_some h
  rw [h1]
  exact expectOpcode_append heo

theorem readExpressionRparEnd_append {acc : InstructionList} {s : St}
    {out : InstructionList} {s' : St}
    (h : ReadExpressionRparEnd acc s = (some out, s')) : ∃ d, out = acc ++ d := by
  unfold ReadExpressionRparEnd at h
  obtain ⟨t, s1, hp, h⟩ := bind_eq_some h
  obtain ⟨t2, s2, hex, h⟩ := bind_eq_some h
  obtain ⟨u, s3, hmc, h⟩ := bind_eq_some h
  obtain ⟨h1, h2⟩ := pure_eq_some h
  exact ⟨_, h1⟩

theorem readAppend (fuel : Nat) :
    (∀ acc s out s', ReadInstruction fuel acc s = (some out, s') → ∃ d, out = acc ++ d)
    ∧ (∀ acc s out s', ReadInstructionList fuel acc s = (some out, s') → ∃ d, out = acc ++ d)
    ∧ (∀ acc s out s', ReadBlockInstruction fuel acc s = (some out, s') → ∃ d, out = acc ++ d)
    ∧ (∀ acc s out s', ReadExpression fuel acc s = (some out, s') → ∃ d, out = acc ++ d)
    ∧ (∀ acc s out s', ReadExpressionList fuel acc s = (some out, s') → ∃ d, out = acc ++ d) := by
  induction fuel with
  | zero =>
    refine ⟨?_, ?_, ?_, ?_, ?_⟩ <;>
      (intro acc s out s' h;
       simp [ReadInstruction, ReadInstructionList, ReadBlockInstruction, ReadExpression,
         ReadExpressionList, mfail] at h)
  | succ n ih =>
    obtain ⟨ihI, ihIL, ihB, ihE, ihEL⟩ := ih
    refine ⟨?_, ?_, ?_, ?_, ?_⟩
    · -- ReadInstruction
      intro acc s out s' h
      rw [ReadInstruction] at h
      obtain ⟨token, s1, hp0, h⟩ := bind_eq_some h
      by_cases hp : IsPlainInstruction token = true
      · rw [if_pos hp] at h
        obtain ⟨p, s2, hpi, h⟩ := bind_eq_some h
        obtain ⟨h1, h2⟩ := pure_eq_some h
        exact ⟨[p], h1⟩
      · rw [if_neg hp] at h
        by_cases hb : IsBlockInstruction token = true
        · rw [if_pos hb] at h
          exact ihB acc s1 out s' h
        · rw [if_neg hb] at h
          obtain ⟨isExpr, s2, hq, h⟩ := bind_eq_some h
          by_cases he : isExpr = true
          · rw [if_pos he] at h
            exact ihE acc s2 out s' h
          · rw [if_neg he] at h
            obtain ⟨u, s3, ho, h⟩ := bind_eq_some h
            simp [mfail] at h
    · -- ReadInstructionList
      intro acc s out s' h
      rw [ReadInstructionList] at h
      obtain ⟨isInstr, s1, hq, h⟩ := bind_eq_some h
      by_cases hi : isInstr = true
      · rw [if_pos hi] at h
        obtain ⟨mid, s2, hri, h⟩ := bind_eq_some h
        exact appendChain (ihI acc s1 mid s2 hri) (ihIL mid s2 out s' h)
      · rw [if_neg hi] at h
        obtain ⟨h1, h2⟩ := pure_eq_some h
        exact ⟨[], by rw [h1]; simp⟩
    · -- ReadBlockInstruction
      intro acc s out s' h
      rw [ReadBlockInstruction] at h
      obtain ⟨gloc, s1, hg, h⟩ := bind_eq_some h
      obtain ⟨x, s2, hm, h⟩ := bind_eq_some h
      rcases x with _ | token
      · simp [mfail] at h
      · simp only [] at h
        obtain ⟨block, s3, hbi, h⟩ := bind_eq_some h
        obtain ⟨i2, s4, hil, h⟩ := bind_eq_some h
        have hstep1 : ∃ d, i2 = acc ++ d :=
          appendChain ⟨_, rfl⟩ (ihIL _ s3 i2 s4 hil)
        rcases hop : token.opcode <;> rw [hop] at h <;> simp only [] at h
        all_goals try (simp only [mfail] at h; exact absurd h (by simp))
        · -- block
          exact appendChain hstep1 (endBlockInstruction_append h)
        · -- loop
          exact appendChain hstep1 (endBlockInstruction_append h)
        · -- ifOp
          obtain ⟨⟨matched, i3⟩, s5, hro, h⟩ := bind_eq_some h
          have hstep2 : ∃ d, i3 = acc ++ d :=
            appendChain hstep1 (readOpcodeOpt_append hro)
          rcases matched with _ | _
          · simp only [Bool.false_eq_true, if_false] at h
            exact appendChain hstep2 (endBlockInstruction_append h)
          · simp only [if_true] at h
            obtain ⟨u, s6, hel, h⟩ := bind_eq_some h
            obtain ⟨i4, s7, hil2, h⟩ := bind_eq_some h
            exact appendChain (appendChain hstep2 (ihIL i3 s6 i4 s7 hil2))
              (endBlockInstruction_append h)
        · -- tryOp
          obtain ⟨c, s5, hc, h⟩ := bind_eq_some h
          by_cases hex : c.features.exceptions = false
          · rw [if_pos hex] at h
            obtain ⟨u, s6, ho, h⟩ := bind_eq_some h
            simp [mfail] at h
          · rw [if_neg hex] at h
            obtain ⟨i3, s6, heo, h⟩ := bind_eq_some h
            obtain ⟨u, s7, hel, h⟩ := bind_eq_some h
            obtain ⟨i4, s8, hil2, h⟩ := bind_eq_some h
            exact appendChain
              (appendChain (appendChain hstep1 (expectOpcode_append heo))
                (ihIL i3 s7 i4 s8 hil2))
              (endBlockInstruction_append h)
    · -- ReadExpression
      intro acc s out s' h
      rw [ReadExpression] at h
      obtain ⟨t0, s1, hex, h⟩ := bind_eq_some h
      obtain ⟨token, s2, hp0, h⟩ := bind_eq_some h
      by_cases hp : IsPlainInstruction token = true
      · rw [if_pos hp] at h
        obtain ⟨p, s3, hpi, h⟩ := bind_eq_some h
        obtain ⟨i1, s4, hel, h⟩ := bind_eq_some h
        obtain ⟨t1, s5, hex2, h⟩ := bind_eq_some h
        obtain ⟨h1, h2⟩ := pure_eq_some h
        exact appendChain (ihEL acc s3 i1 s4 hel) ⟨[p], h1⟩
      · rw [if_neg hp] at h
        by_cases hb : IsBlockInstruction token = true
        · rw [if_pos hb] at h
          obtain ⟨gloc, s3, hg, h⟩ := bind_eq_some h
          obtain ⟨t1, s4, hrd, h⟩ := bind_eq_some h
          obtain ⟨block, s5, hbi, h⟩ := bind_eq_some h
          rcases hop : token.opcode <;> rw [hop] at h <;> simp only [] at h
          all_goals try (simp only [mfail] at h; exact absurd h (by simp))
          · -- block
            obtain ⟨i1, s6, hil, h⟩ := bind_eq_some h
            exact appendChain (appendChain ⟨_, rfl⟩ (ihIL _ s5 i1 s6 hil))
              (readExpressionRparEnd_append h)
          · -- loop
            obtain ⟨i1, s6, hil, h⟩ := bind_eq_some h
            exact appendChain (appendChain ⟨_, rfl⟩ (ihIL _ s5 i1 s6 hil))
              (readExpressionRparEnd_append h)
          · -- ifOp
            obtain ⟨i1, s6, hel, h⟩ := bind_eq_some h
            obtain ⟨t2, s7, hlp, h⟩ := bind_eq_some h
            obtain ⟨i3, s8, hil, h⟩ := bind_eq_some h
            have hstep1 : ∃ d, i3 = acc ++ d :=
              appendChain (appendChain (ihEL acc s5 i1 s6 hel) ⟨_, rfl⟩)
                (ihIL _ s7 i3 s8 hil)
            obtain ⟨t3, s9, hex2, h⟩ := bind_eq_some h
            obtain ⟨x, s10, hm2, h⟩ := bind_eq_some h
            rcases x with _ | t4
            · simp only [] at h
              exact appendChain hstep1 (readExpressionRparEnd_append h)
            · simp only [] at h
              obtain ⟨i4, s11, heo, h⟩ := bind_eq_some h
              obtain ⟨u, s12, hend, h⟩ := bind_eq_some h
              obtain ⟨i5, s13, hil2, h⟩ := bind_eq_some h
              obtain ⟨t5, s14, hex3, h⟩ := bind_eq_some h
              exact appendChain
                (appendChain (appendChain hstep1 (expectOpcode_append heo))
                  (ihIL i4 s12 i5 s13 hil2))
                (readExpressionRparEnd_append h)
          · -- tryOp
            obtain ⟨c, s6, hc, h⟩ := bind_eq_some h
            by_cases hexc : c.features.exceptions = false
            · rw [if_pos hexc] at h
              obtain ⟨u, s7, ho, h⟩ := bind_eq_some h
              simp [mfail] at h
            · rw [if_neg hexc] at h
              obtain ⟨i1, s7, hil, h⟩ := bind_eq_some h
              obtain ⟨t2, s8, hex2, h⟩ := bind_eq_some h
              obtain ⟨i2, s9, heo, h⟩ := bind_eq_some h
              obtain ⟨u, s10, hend, h⟩ := bind_eq_some h
              obtain ⟨i3, s11, hil2, h⟩ := bind_eq_some h
              obtain ⟨t3, s12, hex3, h⟩ := bind_eq_some h
              exact appendChain
                (appendChain
                  (appendChain (appendChain ⟨_, rfl⟩ (ihIL _ s6 i1 s7 hil))
                    (expectOpcode_append heo))
                  (ihIL i2 s10 i3 s11 hil2))
                (readExpressionRparEnd_append h)
        · rw [if_neg hb] at h
          obtain ⟨u, s3, ho, h⟩ := bind_eq_some h
          simp [mfail] at h
    · -- ReadExpressionList
      intro acc s out s' h
      rw [ReadExpressionList] at h
      obtain ⟨isExpr, s1, hq, h⟩ := bind_eq_some h
      by_cases hi : isExpr = true
      · rw [if_pos hi] at h
        obtain ⟨mid, s2, hre, h⟩ := bind_eq_some h
        exact appendChain (ihE acc s1 mid s2 hre) (ihEL mid s2 out s' h)
      · rw [if_neg hi] at h
        obtain ⟨h1, h2⟩ := pure_eq_some h
        exact ⟨[], by rw [h1]; simp⟩

theorem peek_drop (s : St) (c : Context) (n k : Nat) :
    St.peek { toks := s.toks.drop n, ctx := c } k = s.peek (n + k) := by
  simp [St.peek, List.getD_eq_getElem?_getD, List.getElem?_drop]

theorem expect_pos {s : St} {tt : TokenType} (h : (s.peek).type = tt) :
    Expect tt s = (some s.peek, { s with toks := s.toks.drop 1 }) := by
  simp [Expect, M.bind_apply, M.pure_apply, mmatch, h]

theorem expectLpar_pos {s : St} {tt : TokenType}
    (h1 : (s.peek).type = .lpar) (h2 : (s.peek 1).type = tt) :
    ExpectLpar tt s = (some (s.peek 1), { s with toks := s.toks.drop 2 }) := by
  simp [ExpectLpar, M.bind_apply, M.pure_apply, mmatchLpar, h1, h2]

theorem expectOpcode_pos {s : St} {tt : TokenType} {acc : InstructionList}
    (h : (s.peek).type = tt) :
    ExpectOpcode tt acc s =
      (some (acc ++ [⟨(s.peek).loc, { opcode := (s.peek).opcode }⟩]),
       { s with toks := s.toks.drop 1 }) := by
  simp [ExpectOpcode, ReadOpcodeOpt, mmatch, M.bind_apply, M.pure_apply, mpeek, mpeekN, h]

theorem readExpressionRparEnd_pos {s : St} {acc : InstructionList}
    (h : (s.peek).type = .rpar) :
    ReadExpressionRparEnd acc s =
      (some (acc ++ [⟨(s.peek).loc, { opcode := Opcode.endOp }⟩]),
       { toks := s.toks.drop 1, ctx := Context.EndBlock s.ctx }) := by
  simp [ReadExpressionRparEnd, M.bind_apply, M.pure_apply, mpeek, mpeekN,
    expect_pos h, modifyCtx]

theorem c5order (fuel : Nat) (instructions cond thenBody elseBody : InstructionList)
    (s0 s3 s4 s6 s9 s11 : St) (block : BlockImmediate)
    (h0 : (s0.peek).type = .lpar)
    (htk : (s0.peek 1).type = .blockInstr)
    (hop : (s0.peek 1).opcode = .ifOp)
    (hbi : ReadBlockImmediate fuel { s0 with toks := s0.toks.drop 2 } = (some block, s3))
    (hcond : ReadExpressionList fuel instructions s3 = (some (instructions ++ cond), s4))
    (hthen0 : (s4.peek).type = .lpar)
    (hthen1 : (s4.peek 1).type = .thenTok)
    (hthenB : ReadInstructionList fuel
        (instructions ++ cond
          ++ [⟨(s0.peek 1).loc, { opcode := .ifOp, immediate := .block block }⟩])
        { s4 with toks := s4.toks.drop 2 }
      = (some (instructions ++ cond
          ++ [⟨(s0.peek 1).loc, { opcode := .ifOp, immediate := .block block }⟩]
          ++ thenBody), s6))
    (hrp1 : (s6.peek).type = .rpar)
    (hlp2 : (s6.peek 1).type = .lpar)
    (hels : (s6.peek 2).type = .elseTok)
    (hendlbl : ReadEndLabelOpt block.label { s6 with toks := s6.toks.drop 3 }
      = (some (), s9))
    (helseB : ReadInstructionList fuel
        (instructions ++ cond
          ++ [⟨(s0.peek 1).loc, { opcode := .ifOp, immediate := .block block }⟩]
          ++ thenBody
          ++ [⟨(s6.peek 2).loc, { opcode := (s6.peek 2).opcode }⟩]) s9
      = (some (instructions ++ cond
          ++ [⟨(s0.peek 1).loc, { opcode := .ifOp, immediate := .block block }⟩]
          ++ thenBody
          ++ [⟨(s6.peek 2).loc, { opcode := (s6.peek 2).opcode }⟩]
          ++ elseBody), s11))
    (hrp2 : (s11.peek).type = .rpar)
    (hrp3 : (s11.peek 1).type = .rpar) :
    ReadExpression (fuel + 1) instructions s0 =
      (some (instructions ++ cond
          ++ [⟨(s0.peek 1).loc, { opcode := .ifOp, immediate := .block block }⟩]
          ++ thenBody
          ++ [⟨(s6.peek 2).loc, { opcode := (s6.peek 2).opcode }⟩]
          ++ elseBody
          ++ [⟨(s11.peek 1).loc, { opcode := Opcode.endOp }⟩]),
       { toks := s11.toks.drop 2, ctx := Context.EndBlock s11.ctx }) := by
  have hpl : IsPlainInstruction (s0.peek 1) = false := by
    unfold IsPlainInstruction; rw [htk]
  have hbl : IsBlockInstruction (s0.peek 1) = true := by
    simp [IsBlockInstruction, htk]
  rw [ReadExpression]
  simp [-List.drop_one, -List.append_assoc, M.bind_apply, M.pure_apply, mpeek, mpeekN, mread, guardLoc, mmatch,
    expect_pos, expectLpar_pos, expectOpcode_pos, readExpressionRparEnd_pos,
    peek_drop, List.drop_drop, h0, htk, hop, hpl, hbl, hbi, hcond, hthen0, hthen1,
    hthenB, hrp1, hlp2, hels, hendlbl, helseB, hrp2, hrp3]

/-- C5: for a folded `(if ...)` expression with a `then` and an `else`
clause, `ReadExpression` only ever appends to the instruction list it
is given, and appends, in order: the instructions of the condition
expressions, then the `if` instruction, then the then-body
instructions, then the `else` instruction, then the else-body
instructions, then a synthetic `end` instruction whose location is the
closing `)`. -/
theorem c5_folded_if (fuel : Nat) (instructions cond thenBody elseBody : InstructionList)
    (s0 s3 s4 s6 s9 s11 : St) (block : BlockImmediate)
    (h0 : (s0.peek).type = .lpar)
    (htk : (s0.peek 1).type = .blockInstr)
    (hop : (s0.peek 1).opcode = .ifOp)
    (hbi : ReadBlockImmediate fuel { s0 with toks := s0.toks.drop 2 } = (some block, s3))
    (hcond : ReadExpressionList fuel instructions s3 = (some (instructions ++ cond), s4))
    (hthen0 : (s4.peek).type = .lpar)
    (hthen1 : (s4.peek 1).type = .thenTok)
    (hthenB : ReadInstructionList fuel
        (instructions ++ cond
          ++ [⟨(s0.peek 1).loc, { opcode := .ifOp, immediate := .block block }⟩])
        { s4 with toks := s4.toks.drop 2 }
      = (some (instructions ++ cond
          ++ [⟨(s0.peek 1).loc, { opcode := .ifOp, immediate := .block block }⟩]
          ++ thenBody), s6))
    (hrp1 : (s6.peek).type = .rpar)
    (hlp2 : (s6.peek 1).type = .lpar)
    (hels : (s6.peek 2).type = .elseTok)
    (hendlbl : ReadEndLabelOpt block.label { s6 with toks := s6.toks.drop 3 }
      = (some (), s9))
    (helseB : ReadInstructionList fuel
        (instructions ++ cond
          ++ [⟨(s0.peek 1).loc, { opcode := .ifOp, immediate := .block block }⟩]
          ++ thenBody
          ++ [⟨(s6.peek 2).loc, { opcode := (s6.peek 2).opcode }⟩]) s9
      = (some (instructions ++ cond
          ++ [⟨(s0.peek 1).loc, { opcode := .ifOp, immediate := .block block }⟩]
          ++ thenBody
          ++ [⟨(s6.peek 2).loc, { opcode := (s6.peek 2).opcode }⟩]
          ++ elseBody), s11))
    (hrp2 : (s11.peek).type = .rpar)
    (hrp3 : (s11.peek 1).type = .rpar) :
    (∀ (f : Nat) (acc : InstructionList) (s : St) (out : InstructionList) (s' : St),
        ReadExpression f acc s = (some out, s') → ∃ d, out = acc ++ d)
    ∧ ReadExpression (fuel + 1) instructions s0 =
      (some (instructions ++ cond
          ++ [⟨(s0.peek 1).loc, { opcode := .ifOp, immediate := .block block }⟩]
          ++ thenBody
          ++ [⟨(s6.peek 2).loc, { opcode := (s6.peek 2).opcode }⟩]
          ++ elseBody
          ++ [⟨(s11.peek 1).loc, { opcode := Opcode.endOp }⟩]),
       { toks := s11.toks.drop 2, ctx := Context.EndBlock s11.ctx }) :=
  ⟨fun f acc s out s' h => (readAppend f).2.2.2.1 acc s out s' h,
   c5order fuel instructions cond thenBody elseBody s0 s3 s4 s6 s9 s11 block
     h0 htk hop hbi hcond hthen0 hthen1 hthenB hrp1 hlp2 hels hendlbl helseB hrp2 hrp3⟩

def c5Toks : List Token :=
  [ { type := .lpar, loc := 0 },
    { type := .blockInstr, loc := 1, opcode := .ifOp },
    { type := .lpar, loc := 2 },
    { type := .bareInstr, loc := 3, opcode := .nop },
    { type := .rpar, loc := 4 },
    { type := .lpar, loc := 5 },
    { type := .thenTok, loc := 6 },
    { type := .bareInstr, loc := 7, opcode := .nop },
    { type := .rpar, loc := 8 },
    { type := .lpar, loc := 9 },
    { type := .elseTok, loc := 10, opcode := .elseOp },
    { type := .bareInstr, loc := 11, opcode := .nop },
    { type := .rpar, loc := 12 },
    { type := .rpar, loc := 13 } ]

def c5St0 : St := { toks := c5Toks, ctx := {} }

def c5Ctx1 : Context :=
  { label_names := { entries := [none] }, label_name_stack := [none] }

def c5St3 : St := { toks := c5Toks.drop 2, ctx := c5Ctx1 }

def c5St4 : St := { toks := c5Toks.drop 5, ctx := c5Ctx1 }

def c5St6 : St := { toks := c5Toks.drop 8, ctx := c5Ctx1 }

def c5St9 : St := { toks := c5Toks.drop 11, ctx := c5Ctx1 }

def c5St11 : St := { toks := c5Toks.drop 12, ctx := c5Ctx1 }

theorem c5_folded_if_witness :
    ReadExpression 10 [] c5St0 =
      (some [⟨3, { opcode := .nop }⟩,
             ⟨1, { opcode := .ifOp, immediate := .block {} }⟩,
             ⟨7, { opcode := .nop }⟩,
             ⟨10, { opcode := .elseOp }⟩,
             ⟨11, { opcode := .nop }⟩,
             ⟨13, { opcode := Opcode.endOp }⟩],
       { toks := [], ctx := Context.EndBlock c5Ctx1 }) := by
  have h := (c5_folded_if 9 [] [⟨3, { opcode := .nop }⟩] [⟨7, { opcode := .nop }⟩]
      [⟨11, { opcode := .nop }⟩] c5St0 c5St3 c5St4 c5St6 c5St9 c5St11 {}
      (by decide) (by decide) (by decide) (by decide) (by decide) (by decide)
      (by decide) (by decide) (by decide) (by decide) (by decide) (by decide)
      (by decide) (by decide) (by decide)).2
  exact h.trans (by decide)


theorem c3import_rejected (fuel : Nat) (s : St)
    (hlp : (s.peek).type = .lpar) (him : (s.peek 1).type = .importTok)
    (hflag : s.ctx.seen_non_import = true) :
    ReadImport fuel s =
      (none, addErrSt (s.peek 1).loc importsMustPrecedeMsg
        { s with toks := s.toks.drop 2 }) := by
  unfold ReadImport
  simp [M.bind_apply, M.pure_apply, expectLpar_pos hlp him, getCtx, hflag, onError,
    mfail, addErrSt]

theorem c3inline_rejected (s : St)
    (hlp : (s.peek).type = .lpar) (him : (s.peek 1).type = .importTok)
    (hflag : s.ctx.seen_non_import = true) :
    ReadInlineImportOpt s =
      (some none, addErrSt (s.peek 1).loc importsMustPrecedeMsg
        { s with toks := s.toks.drop 2 }) := by
  unfold ReadInlineImportOpt
  have hm : mmatchLpar .importTok s =
      (some (some (s.peek 1)), { s with toks := s.toks.drop 2 }) := by
    simp [mmatchLpar, hlp, him]
  simp [hm, hflag, onError, addErrSt]

def c3FuncToks : List Token :=
  [ { type := .lpar, loc := 0 }, { type := .func, loc := 1 },
    { type := .rpar, loc := 2 } ]

def c3FuncSt : St := { toks := c3FuncToks, ctx := {} }

theorem c3func_sets_flag :
    ((ReadFunction 9 c3FuncSt).2).ctx.seen_non_import = true
    ∧ (ReadFunction 9 c3FuncSt).1.isSome = true := by
  decide

/-- The context flag `seen_non_import`, once set, is preserved by an
action: the output state of the action (on success or failure) keeps
the flag set. -/
def Mono {α : Type} (x : M α) : Prop :=
  ∀ s, s.ctx.seen_non_import = true → (((x s).2).ctx.seen_non_import = true)

theorem mono_bind {α β : Type} {x : M α} {f : α → M β}
    (hx : Mono x) (hf : ∀ a, Mono (f a)) : Mono (x >>= f) := by
  intro s hs
  rw [M.bind_apply]
  rcases hx0 : x s with ⟨vo, s1⟩
  have h1 : s1.ctx.seen_non_import = true := by
    have := hx s hs; rw [hx0] at this; exact this
  rcases vo with _ | a
  · exact h1
  · exact hf a s1 h1

theorem mono_post {α : Type} {x : M α} (hx : Mono x) {s : St} {r : Option α × St}
    (heq : x s = r) (h : s.ctx.seen_non_import = true) :
    (r.2).ctx.seen_non_import = true := by
  have := hx s h; rw [heq] at this; exact this

theorem mono_pure {α : Type} (a : α) : Mono (pure a : M α) := fun _ hs => hs

theorem mono_mfail {α : Type} : Mono (mfail : M α) := fun _ hs => hs

theorem mono_mpeek : Mono mpeek := fun _ hs => hs

theorem mono_mpeekN (k : Nat) : Mono (mpeekN k) := fun _ hs => hs

theorem mono_mread : Mono mread := fun _ hs => hs

theorem mono_mmatch (tt : TokenType) : Mono (mmatch tt) := by
  intro s hs
  unfold mmatch
  split <;> exact hs

theorem mono_mmatchLpar (tt : TokenType) : Mono (mmatchLpar tt) := by
  intro s hs
  unfold mmatchLpar
  split <;> exact hs

theorem mono_onError (loc : Nat) (msg : String) : Mono (onError loc msg) :=
  fun _ hs => hs

theorem mono_getCtx : Mono getCtx := fun _ hs => hs

theorem mono_guardLoc : Mono guardLoc := fun _ hs => hs

theorem mono_mquery (f : St → Bool) : Mono (mquery f) := fun _ hs => hs

theorem mono_mignore {α : Type} {x : M α} (hx : Mono x) : Mono (mignore x) :=
  fun s hs => hx s hs

theorem mono_moption {α : Type} {x : M α} (hx : Mono x) : Mono (moption x) := by
  intro s hs
  unfold moption
  split <;> rename_i heq <;> exact mono_post hx heq hs

theorem mono_modifyCtx_keep {f : Context → Context}
    (hf : ∀ c, (f c).seen_non_import = c.seen_non_import) : Mono (modifyCtx f) :=
  fun s hs => (hf s.ctx).trans hs

theorem mono_modifyCtx_or {b : Bool} :
    Mono (modifyCtx fun c => { c with seen_non_import := c.seen_non_import || b }) := by
  intro s hs
  show (s.ctx.seen_non_import || b) = true
  rw [hs]
  rfl

theorem mono_ite {α : Type} {c : Prop} [Decidable c] {x y : M α}
    (hx : Mono x) (hy : Mono y) : Mono (if c then x else y) := by
  by_cases h : c
  · rw [if_pos h]; exact hx
  · rw [if_neg h]; exact hy

theorem seen_addErrSt (loc : Nat) (msg : String) (s : St) :
    ((addErrSt loc msg s).ctx).seen_non_import = s.ctx.seen_non_import := by
  unfold addErrSt
  rfl

attribute [irreducible] mmatch mmatchLpar mpeekN mpeek mread onError getCtx modifyCtx guardLoc mquery mignore moption mfail

theorem mono_Expect (tt : TokenType) : Mono (Expect tt) := by
  unfold Expect
  repeat' first
    | cases a
    | refine mono_bind ?_ fun a => ?_
    | apply mono_ite
    | apply mono_mpeek
    | apply mono_mpeekN
    | apply mono_mread
    | apply mono_mmatch
    | apply mono_mmatchLpar
    | apply mono_onError
    | apply mono_getCtx
    | apply mono_guardLoc
    | apply mono_mquery
    | apply mono_mignore
    | apply mono_moption
    | exact mono_modifyCtx_keep fun c => rfl
    | apply mono_modifyCtx_or
    | apply mono_pure
    | apply mono_mfail

attribute [irreducible] Expect

theorem mono_ExpectLpar (tt : TokenType) : Mono (ExpectLpar tt) := by
  unfold ExpectLpar
  repeat' first
    | cases a
    | refine mono_bind ?_ fun a => ?_
    | apply mono_ite
    | apply mono_mpeek
    | apply mono_mpeekN
    | apply mono_mread
    | apply mono_mmatch
    | apply mono_mmatchLpar
    | apply mono_onError
    | apply mono_getCtx
    | apply mono_guardLoc
    | apply mono_mquery
    | apply mono_mignore
    | apply mono_moption
    | exact mono_modifyCtx_keep fun c => rfl
    | apply mono_modifyCtx_or
    | apply mono_pure
    | apply mono_mfail

attribute [irreducible] ExpectLpar

theorem mono_ReadNat32 : Mono ReadNat32 := by
  unfold ReadNat32
  refine mono_bind (mono_mmatch _) fun a => ?_
  rcases a with _ | tok
  · exact mono_bind mono_mpeek fun t => mono_bind (mono_onError _ _) fun _ => mono_mfail
  · dsimp only
    cases h : StrToNat32 tok
    · exact mono_bind (mono_onError _ _) fun _ => mono_mfail
    · exact mono_pure _

attribute [irreducible] ReadNat32

theorem mono_ReadInt (bits : Nat) : Mono (ReadInt bits) := by
  unfold ReadInt
  refine mono_bind mono_mpeek fun t => ?_
  apply mono_ite
  · refine mono_bind mono_mread fun u => ?_
    cases h : StrToInt bits t
    · exact mono_bind (mono_onError _ _) fun _ => mono_mfail
    · exact mono_pure _
  · exact mono_bind (mono_onError _ _) fun _ => mono_mfail

attribute [irreducible] ReadInt

theorem mono_ReadFloat (bits : Nat) : Mono (ReadFloat bits) := by
  unfold ReadFloat
  repeat' first
    | cases a
    | refine mono_bind ?_ fun a => ?_
    | apply mono_ite
    | apply mono_mpeek
    | apply mono_mpeekN
    | apply mono_mread
    | apply mono_mmatch
    | apply mono_mmatchLpar
    | apply mono_onError
    | apply mono_getCtx
    | apply mono_guardLoc
    | apply mono_mquery
    | apply mono_mignore
    | apply mono_moption
    | exact mono_modifyCtx_keep fun c => rfl
    | apply mono_modifyCtx_or
    | apply mono_pure
    | apply mono_mfail

attribute [irreducible] ReadFloat

theorem mono_ReadVarOpt : Mono ReadVarOpt := by
  intro s hs
  unfold ReadVarOpt
  dsimp only
  by_cases h1 : (s.peek).type = .id
  · rw [if_pos h1]; exact hs
  · rw [if_neg h1]
    by_cases h2 : (s.peek).type = .nat
    · rw [if_pos h2]
      rcases hn : ReadNat32 s with ⟨vo, s1⟩
      have h3 := mono_post mono_ReadNat32 hn hs
      rcases vo with _ | n <;> simp only [hn] <;> exact h3
    · rw [if_neg h2]; exact hs

attribute [irreducible] ReadVarOpt

theorem mono_ReadVar : Mono (ReadVar) := by
  unfold ReadVar
  repeat' first
    | cases a
    | refine mono_bind ?_ fun a => ?_
    | apply mono_ReadVarOpt
    | apply mono_ite
    | apply mono_mpeek
    | apply mono_mpeekN
    | apply mono_mread
    | apply mono_mmatch
    | apply mono_mmatchLpar
    | apply mono_onError
    | apply mono_getCtx
    | apply mono_guardLoc
    | apply mono_mquery
    | apply mono_mignore
    | apply mono_moption
    | exact mono_modifyCtx_keep fun c => rfl
    | apply mono_modifyCtx_or
    | apply mono_pure
    | apply mono_mfail

attribute [irreducible] ReadVar

theorem mono_ReadVarList : ∀ fuel, Mono (ReadVarList fuel) := by
  intro fuel
  induction fuel with
  | zero =>
    simp only [ReadVarList]
    exact mono_mfail
  | succ n ihn =>
    unfold ReadVarList
    repeat' first
      | cases a
      | refine mono_bind ?_ fun a => ?_
      | apply ihn
      | apply mono_ReadVarOpt
      | apply mono_ite
      | apply mono_mpeek
      | apply mono_mpeekN
      | apply mono_mread
      | apply mono_mmatch
      | apply mono_mmatchLpar
      | apply mono_onError
      | apply mono_getCtx
      | apply mono_guardLoc
      | apply mono_mquery
      | apply mono_mignore
      | apply mono_moption
      | exact mono_modifyCtx_keep fun c => rfl
      | apply mono_modifyCtx_or
      | apply mono_pure
      | apply mono_mfail

attribute [irreducible] ReadVarList

theorem mono_ReadNonEmptyVarList (fuel : Nat) : Mono (ReadNonEmptyVarList fuel) := by
  unfold ReadNonEmptyVarList
  repeat' first
    | cases a
    | refine mono_bind ?_ fun a => ?_
    | apply mono_ReadVar
    | apply mono_ReadVarList
    | apply mono_ite
    | apply mono_mpeek
    | apply mono_mpeekN
    | apply mono_mread
    | apply mono_mmatch
    | apply mono_mmatchLpar
    | apply mono_onError
    | apply mono_getCtx
    | apply mono_guardLoc
    | apply mono_mquery
    | apply mono_mignore
    | apply mono_moption
    | exact mono_modifyCtx_keep fun c => rfl
    | apply mono_modifyCtx_or
    | apply mono_pure
    | apply mono_mfail

attribute [irreducible] ReadNonEmptyVarList

theorem mono_ReadVarUseOpt (tt : TokenType) : Mono (ReadVarUseOpt tt) := by
  intro s hs
  unfold ReadVarUseOpt
  rcases hm : mmatchLpar tt s with ⟨vo, s1⟩
  have h1 := mono_post (mono_mmatchLpar tt) hm hs
  rcases vo with _ | x
  · simp only [hm]; exact h1
  · rcases x with _ | tok
    · simp only [hm]; exact h1
    · simp only [hm]
      split <;> rename_i heq <;>
        exact mono_post (mono_bind mono_ReadVar fun v =>
          mono_bind (mono_Expect .rpar) fun _ => mono_pure v) heq h1

attribute [irreducible] ReadVarUseOpt

theorem mono_ReadTypeUseOpt : Mono (ReadTypeUseOpt) :=
  mono_ReadVarUseOpt .typeTok

attribute [irreducible] ReadTypeUseOpt

theorem mono_ReadText : Mono (ReadText) := by
  unfold ReadText
  repeat' first
    | cases a
    | refine mono_bind ?_ fun a => ?_
    | apply mono_ite
    | apply mono_mpeek
    | apply mono_mpeekN
    | apply mono_mread
    | apply mono_mmatch
    | apply mono_mmatchLpar
    | apply mono_onError
    | apply mono_getCtx
    | apply mono_guardLoc
    | apply mono_mquery
    | apply mono_mignore
    | apply mono_moption
    | exact mono_modifyCtx_keep fun c => rfl
    | apply mono_modifyCtx_or
    | apply mono_pure
    | apply mono_mfail

attribute [irreducible] ReadText

theorem mono_ReadUtf8Text : Mono (ReadUtf8Text) := by
  unfold ReadUtf8Text
  repeat' first
    | cases a
    | refine mono_bind ?_ fun a => ?_
    | apply mono_ReadText
    | apply mono_ite
    | apply mono_mpeek
    | apply mono_mpeekN
    | apply mono_mread
    | apply mono_mmatch
    | apply mono_mmatchLpar
    | apply mono_onError
    | apply mono_getCtx
    | apply mono_guardLoc
    | apply mono_mquery
    | apply mono_mignore
    | apply mono_moption
    | exact mono_modifyCtx_keep fun c => rfl
    | apply mono_modifyCtx_or
    | apply mono_pure
    | apply mono_mfail

attribute [irreducible] ReadUtf8Text

theorem mono_ReadTextList : ∀ fuel, Mono (ReadTextList fuel) := by
  intro fuel
  induction fuel with
  | zero =>
    simp only [ReadTextList]
    exact mono_mfail
  | succ n ihn =>
    unfold ReadTextList
    repeat' first
      | cases a
      | refine mono_bind ?_ fun a => ?_
      | apply ihn
      | apply mono_ReadText
      | apply mono_ite
      | apply mono_mpeek
      | apply mono_mpeekN
      | apply mono_mread
      | apply mono_mmatch
      | apply mono_mmatchLpar
      | apply mono_onError
      | apply mono_getCtx
      | apply mono_guardLoc
      | apply mono_mquery
      | apply mono_mignore
      | apply mono_moption
      | exact mono_modifyCtx_keep fun c => rfl
      | apply mono_modifyCtx_or
      | apply mono_pure
      | apply mono_mfail

attribute [irreducible] ReadTextList

theorem mono_ReadBindVarOpt (nm : NameMap) : Mono (ReadBindVarOpt nm) := by
  unfold ReadBindVarOpt
  repeat' first
    | cases a
    | refine mono_bind ?_ fun a => ?_
    | apply mono_ite
    | apply mono_mpeek
    | apply mono_mpeekN
    | apply mono_mread
    | apply mono_mmatch
    | apply mono_mmatchLpar
    | apply mono_onError
    | apply mono_getCtx
    | apply mono_guardLoc
    | apply mono_mquery
    | apply mono_mignore
    | apply mono_moption
    | exact mono_modifyCtx_keep fun c => rfl
    | apply mono_modifyCtx_or
    | apply mono_pure
    | apply mono_mfail

attribute [irreducible] ReadBindVarOpt

theorem mono_ReadValueType : Mono (ReadValueType) := by
  unfold ReadValueType
  repeat' first
    | cases a
    | refine mono_bind ?_ fun a => ?_
    | apply mono_ite
    | apply mono_mpeek
    | apply mono_mpeekN
    | apply mono_mread
    | apply mono_mmatch
    | apply mono_mmatchLpar
    | apply mono_onError
    | apply mono_getCtx
    | apply mono_guardLoc
    | apply mono_mquery
    | apply mono_mignore
    | apply mono_moption
    | exact mono_modifyCtx_keep fun c => rfl
    | apply mono_modifyCtx_or
    | apply mono_pure
    | apply mono_mfail

attribute [irreducible] ReadValueType

theorem mono_ReadValueTypeList : ∀ fuel, Mono (ReadValueTypeList fuel) := by
  intro fuel
  induction fuel with
  | zero =>
    simp only [ReadValueTypeList]
    exact mono_mfail
  | succ n ihn =>
    unfold ReadValueTypeList
    repeat' first
      | cases a
      | refine mono_bind ?_ fun a => ?_
      | apply ihn
      | apply mono_ReadValueType
      | apply mono_ite
      | apply mono_mpeek
      | apply mono_mpeekN
      | apply mono_mread
      | apply mono_mmatch
      | apply mono_mmatchLpar
      | apply mono_onError
      | apply mono_getCtx
      | apply mono_guardLoc
      | apply mono_mquery
      | apply mono_mignore
      | apply mono_moption
      | exact mono_modifyCtx_keep fun c => rfl
      | apply mono_modifyCtx_or
      | apply mono_pure
      | apply mono_mfail

attribute [irreducible] ReadValueTypeList

theorem mono_ReadBoundValueTypeList (tt : TokenType) :
    ∀ fuel nm, Mono (ReadBoundValueTypeList tt fuel nm) := by
  intro fuel
  induction fuel with
  | zero =>
    intro nm
    simp only [ReadBoundValueTypeList]
    exact mono_mfail
  | succ n ihn =>
    intro nm
    unfold ReadBoundValueTypeList
    repeat' first
      | cases a
      | refine mono_bind ?_ fun a => ?_
      | apply ihn
      | apply mono_ReadBindVarOpt
      | apply mono_ReadValueType
      | apply mono_Expect
      | apply mono_ReadValueTypeList
      | apply mono_ite
      | apply mono_mpeek
      | apply mono_mpeekN
      | apply mono_mread
      | apply mono_mmatch
      | apply mono_mmatchLpar
      | apply mono_onError
      | apply mono_getCtx
      | apply mono_guardLoc
      | apply mono_mquery
      | apply mono_mignore
      | apply mono_moption
      | exact mono_modifyCtx_keep fun c => rfl
      | apply mono_modifyCtx_or
      | apply mono_pure
      | apply mono_mfail

attribute [irreducible] ReadBoundValueTypeList

theorem mono_ReadBoundParamList (fuel : Nat) (nm : NameMap) : Mono (ReadBoundParamList fuel nm) :=
  mono_ReadBoundValueTypeList .param fuel nm

attribute [irreducible] ReadBoundParamList

theorem mono_ReadLocalList (fuel : Nat) (nm : NameMap) : Mono (ReadLocalList fuel nm) :=
  mono_ReadBoundValueTypeList .localTok fuel nm

attribute [irreducible] ReadLocalList

theorem mono_ReadUnboundValueTypeList (tt : TokenType) :
    ∀ fuel, Mono (ReadUnboundValueTypeList tt fuel) := by
  intro fuel
  induction fuel with
  | zero =>
    simp only [ReadUnboundValueTypeList]
    exact mono_mfail
  | succ n ihn =>
    unfold ReadUnboundValueTypeList
    repeat' first
      | cases a
      | refine mono_bind ?_ fun a => ?_
      | apply ihn
      | apply mono_ReadValueTypeList
      | apply mono_Expect
      | apply mono_ite
      | apply mono_mpeek
      | apply mono_mpeekN
      | apply mono_mread
      | apply mono_mmatch
      | apply mono_mmatchLpar
      | apply mono_onError
      | apply mono_getCtx
      | apply mono_guardLoc
      | apply mono_mquery
      | apply mono_mignore
      | apply mono_moption
      | exact mono_modifyCtx_keep fun c => rfl
      | apply mono_modifyCtx_or
      | apply mono_pure
      | apply mono_mfail

attribute [irreducible] ReadUnboundValueTypeList

theorem mono_ReadParamList (fuel : Nat) : Mono (ReadParamList fuel) :=
  mono_ReadUnboundValueTypeList .param fuel

attribute [irreducible] ReadParamList

theorem mono_ReadResultList (fuel : Nat) : Mono (ReadResultList fuel) :=
  mono_ReadUnboundValueTypeList .result fuel

attribute [irreducible] ReadResultList

theorem mono_ReadBoundFunctionType (fuel : Nat) (nm : NameMap) : Mono (ReadBoundFunctionType fuel nm) := by
  unfold ReadBoundFunctionType
  repeat' first
    | cases a
    | refine mono_bind ?_ fun a => ?_
    | apply mono_ReadBoundParamList
    | apply mono_ReadResultList
    | apply mono_ite
    | apply mono_mpeek
    | apply mono_mpeekN
    | apply mono_mread
    | apply mono_mmatch
    | apply mono_mmatchLpar
    | apply mono_onError
    | apply mono_getCtx
    | apply mono_guardLoc
    | apply mono_mquery
    | apply mono_mignore
    | apply mono_moption
    | exact mono_modifyCtx_keep fun c => rfl
    | apply mono_modifyCtx_or
    | apply mono_pure
    | apply mono_mfail

attribute [irreducible] ReadBoundFunctionType

theorem mono_ReadFunctionType (fuel : Nat) : Mono (ReadFunctionType fuel) := by
  unfold ReadFunctionType
  repeat' first
    | cases a
    | refine mono_bind ?_ fun a => ?_
    | apply mono_ReadParamList
    | apply mono_ReadResultList
    | apply mono_ite
    | apply mono_mpeek
    | apply mono_mpeekN
    | apply mono_mread
    | apply mono_mmatch
    | apply mono_mmatchLpar
    | apply mono_onError
    | apply mono_getCtx
    | apply mono_guardLoc
    | apply mono_mquery
    | apply mono_mignore
    | apply mono_moption
    | exact mono_modifyCtx_keep fun c => rfl
    | apply mono_modifyCtx_or
    | apply mono_pure
    | apply mono_mfail

attribute [irreducible] ReadFunctionType

theorem mono_ReadFunctionTypeUse (fuel : Nat) : Mono (ReadFunctionTypeUse fuel) := by
  unfold ReadFunctionTypeUse
  repeat' first
    | cases a
    | refine mono_bind ?_ fun a => ?_
    | apply mono_ReadTypeUseOpt
    | apply mono_ReadFunctionType
    | apply mono_ite
    | apply mono_mpeek
    | apply mono_mpeekN
    | apply mono_mread
    | apply mono_mmatch
    | apply mono_mmatchLpar
    | apply mono_onError
    | apply mono_getCtx
    | apply mono_guardLoc
    | apply mono_mquery
    | apply mono_mignore
    | apply mono_moption
    | exact mono_modifyCtx_keep fun c => rfl
    | apply mono_modifyCtx_or
    | apply mono_pure
    | apply mono_mfail

attribute [irreducible] ReadFunctionTypeUse

theorem mono_ReadTypeEntry (fuel : Nat) : Mono (ReadTypeEntry fuel) := by
  unfold ReadTypeEntry
  repeat' first
    | cases a
    | refine mono_bind ?_ fun a => ?_
    | apply mono_ExpectLpar
    | apply mono_ReadBindVarOpt
    | apply mono_ReadBoundFunctionType
    | apply mono_Expect
    | apply mono_ite
    | apply mono_mpeek
    | apply mono_mpeekN
    | apply mono_mread
    | apply mono_mmatch
    | apply mono_mmatchLpar
    | apply mono_onError
    | apply mono_getCtx
    | apply mono_guardLoc
    | apply mono_mquery
    | apply mono_mignore
    | apply mono_moption
    | exact mono_modifyCtx_keep fun c => rfl
    | apply mono_modifyCtx_or
    | apply mono_pure
    | apply mono_mfail

attribute [irreducible] ReadTypeEntry

theorem mono_ReadLimits : Mono (ReadLimits) := by
  unfold ReadLimits
  repeat' first
    | cases a
    | refine mono_bind ?_ fun a => ?_
    | apply mono_ReadNat32
    | apply mono_ite
    | apply mono_mpeek
    | apply mono_mpeekN
    | apply mono_mread
    | apply mono_mmatch
    | apply mono_mmatchLpar
    | apply mono_onError
    | apply mono_getCtx
    | apply mono_guardLoc
    | apply mono_mquery
    | apply mono_mignore
    | apply mono_moption
    | exact mono_modifyCtx_keep fun c => rfl
    | apply mono_modifyCtx_or
    | apply mono_pure
    | apply mono_mfail

attribute [irreducible] ReadLimits

theorem mono_ReadReferenceKind : Mono ReadReferenceKind := by
  unfold ReadReferenceKind
  refine mono_bind mono_mpeek fun t => ?_
  cases h : t.valueType.asReferenceType with
  | none => exact mono_bind (mono_onError _ _) fun _ => mono_mfail
  | some p =>
    rcases p with ⟨r, req⟩
    apply mono_ite
    · exact mono_bind mono_mread fun _ => mono_pure _
    · exact mono_bind (mono_onError _ _) fun _ => mono_mfail

attribute [irreducible] ReadReferenceKind

theorem mono_ReadReferenceTypeOpt : Mono ReadReferenceTypeOpt := by
  unfold ReadReferenceTypeOpt
  refine mono_bind (mono_mmatch _) fun a => ?_
  rcases a with _ | tok
  · exact mono_pure _
  · dsimp only
    cases h : tok.valueType.asReferenceType with
    | none => exact mono_bind (mono_onError _ _) fun _ => mono_pure _
    | some p =>
      rcases p with ⟨r, req⟩
      refine mono_bind mono_getCtx fun c => ?_
      apply mono_ite
      · exact mono_pure _
      · exact mono_bind (mono_onError _ _) fun _ => mono_pure _

attribute [irreducible] ReadReferenceTypeOpt

theorem mono_ReadReferenceType : Mono (ReadReferenceType) := by
  unfold ReadReferenceType
  repeat' first
    | cases a
    | refine mono_bind ?_ fun a => ?_
    | apply mono_ReadReferenceTypeOpt
    | apply mono_ite
    | apply mono_mpeek
    | apply mono_mpeekN
    | apply mono_mread
    | apply mono_mmatch
    | apply mono_mmatchLpar
    | apply mono_onError
    | apply mono_getCtx
    | apply mono_guardLoc
    | apply mono_mquery
    | apply mono_mignore
    | apply mono_moption
    | exact mono_modifyCtx_keep fun c => rfl
    | apply mono_modifyCtx_or
    | apply mono_pure
    | apply mono_mfail

attribute [irreducible] ReadReferenceType

theorem mono_ReadTableType : Mono (ReadTableType) := by
  unfold ReadTableType
  repeat' first
    | cases a
    | refine mono_bind ?_ fun a => ?_
    | apply mono_ReadLimits
    | apply mono_ReadReferenceType
    | apply mono_ite
    | apply mono_mpeek
    | apply mono_mpeekN
    | apply mono_mread
    | apply mono_mmatch
    | apply mono_mmatchLpar
    | apply mono_onError
    | apply mono_getCtx
    | apply mono_guardLoc
    | apply mono_mquery
    | apply mono_mignore
    | apply mono_moption
    | exact mono_modifyCtx_keep fun c => rfl
    | apply mono_modifyCtx_or
    | apply mono_pure
    | apply mono_mfail

attribute [irreducible] ReadTableType

theorem mono_ReadMemoryType : Mono (ReadMemoryType) := by
  unfold ReadMemoryType
  repeat' first
    | cases a
    | refine mono_bind ?_ fun a => ?_
    | apply mono_ReadLimits
    | apply mono_ite
    | apply mono_mpeek
    | apply mono_mpeekN
    | apply mono_mread
    | apply mono_mmatch
    | apply mono_mmatchLpar
    | apply mono_onError
    | apply mono_getCtx
    | apply mono_guardLoc
    | apply mono_mquery
    | apply mono_mignore
    | apply mono_moption
    | exact mono_modifyCtx_keep fun c => rfl
    | apply mono_modifyCtx_or
    | apply mono_pure
    | apply mono_mfail

attribute [irreducible] ReadMemoryType

theorem mono_ReadGlobalType : Mono (ReadGlobalType) := by
  unfold ReadGlobalType
  repeat' first
    | cases a
    | refine mono_bind ?_ fun a => ?_
    | apply mono_ReadValueType
    | apply mono_Expect
    | apply mono_ite
    | apply mono_mpeek
    | apply mono_mpeekN
    | apply mono_mread
    | apply mono_mmatch
    | apply mono_mmatchLpar
    | apply mono_onError
    | apply mono_getCtx
    | apply mono_guardLoc
    | apply mono_mquery
    | apply mono_mignore
    | apply mono_moption
    | exact mono_modifyCtx_keep fun c => rfl
    | apply mono_modifyCtx_or
    | apply mono_pure
    | apply mono_mfail

attribute [irreducible] ReadGlobalType

theorem mono_ReadEventType (fuel : Nat) : Mono (ReadEventType fuel) := by
  unfold ReadEventType
  repeat' first
    | cases a
    | refine mono_bind ?_ fun a => ?_
    | apply mono_ReadFunctionTypeUse
    | apply mono_ite
    | apply mono_mpeek
    | apply mono_mpeekN
    | apply mono_mread
    | apply mono_mmatch
    | apply mono_mmatchLpar
    | apply mono_onError
    | apply mono_getCtx
    | apply mono_guardLoc
    | apply mono_mquery
    | apply mono_mignore
    | apply mono_moption
    | exact mono_modifyCtx_keep fun c => rfl
    | apply mono_modifyCtx_or
    | apply mono_pure
    | apply mono_mfail

attribute [irreducible] ReadEventType

theorem mono_ReadInlineImportOpt : Mono ReadInlineImportOpt := by
  intro s hs
  unfold ReadInlineImportOpt
  rcases hm : mmatchLpar .importTok s with ⟨vo, s1⟩
  have h1 := mono_post (mono_mmatchLpar .importTok) hm hs
  rcases vo with _ | x
  · simp only [hm]; exact h1
  · rcases x with _ | tok
    · simp only [hm]; exact h1
    · simp only [hm]
      by_cases hf : s1.ctx.seen_non_import = true
      · rw [if_pos hf]
        exact mono_onError _ _ s1 h1
      · exact absurd h1 hf

attribute [irreducible] ReadInlineImportOpt

theorem mono_ReadImport (fuel : Nat) : Mono (ReadImport fuel) := by
  unfold ReadImport
  refine mono_bind (mono_ExpectLpar _) fun imptok => ?_
  refine mono_bind mono_getCtx fun c0 => ?_
  apply mono_ite
  · exact mono_bind (mono_onError _ _) fun _ => mono_mfail
  · refine mono_bind mono_ReadUtf8Text fun m => ?_
    refine mono_bind mono_ReadUtf8Text fun nme => ?_
    refine mono_bind (mono_Expect _) fun l => ?_
    refine mono_bind mono_mpeek fun t => ?_
    cases hct : t.type <;>
      repeat' first
        | cases a
        | refine mono_bind ?_ fun a => ?_
        | apply mono_ReadBindVarOpt
        | apply mono_ReadTypeUseOpt
        | apply mono_ReadBoundFunctionType
        | apply mono_ReadTableType
        | apply mono_ReadMemoryType
        | apply mono_ReadGlobalType
        | apply mono_ReadEventType
        | apply mono_Expect
        | apply mono_ite
        | apply mono_mpeek
        | apply mono_mpeekN
        | apply mono_mread
        | apply mono_mmatch
        | apply mono_mmatchLpar
        | apply mono_onError
        | apply mono_getCtx
        | apply mono_guardLoc
        | apply mono_mquery
        | apply mono_mignore
        | apply mono_moption
        | exact mono_modifyCtx_keep fun c => rfl
        | apply mono_modifyCtx_or
        | apply mono_pure
        | apply mono_mfail

attribute [irreducible] ReadImport

theorem mono_ReadNameEqNatOpt (tt : TokenType) : Mono (ReadNameEqNatOpt tt) := by
  unfold ReadNameEqNatOpt
  refine mono_bind (mono_mmatch _) fun a => ?_
  rcases a with _ | tok
  · exact mono_pure _
  · dsimp only
    cases h : StrToNat32 tok
    · exact mono_bind (mono_onError _ _) fun _ => mono_pure _
    · exact mono_pure _

attribute [irreducible] ReadNameEqNatOpt

theorem mono_ReadAlignOpt : Mono (ReadAlignOpt) := by
  unfold ReadAlignOpt
  repeat' first
    | cases a
    | refine mono_bind ?_ fun a => ?_
    | apply mono_ReadNameEqNatOpt
    | apply mono_ite
    | apply mono_mpeek
    | apply mono_mpeekN
    | apply mono_mread
    | apply mono_mmatch
    | apply mono_mmatchLpar
    | apply mono_onError
    | apply mono_getCtx
    | apply mono_guardLoc
    | apply mono_mquery
    | apply mono_mignore
    | apply mono_moption
    | exact mono_modifyCtx_keep fun c => rfl
    | apply mono_modifyCtx_or
    | apply mono_pure
    | apply mono_mfail

attribute [irreducible] ReadAlignOpt

theorem mono_ReadOffsetOpt : Mono (ReadOffsetOpt) :=
  mono_ReadNameEqNatOpt .offsetEqNat

attribute [irreducible] ReadOffsetOpt

theorem mono_ReadSimdLane : Mono (ReadSimdLane) := by
  unfold ReadSimdLane
  repeat' first
    | cases a
    | refine mono_bind ?_ fun a => ?_
    | apply mono_ReadInt
    | apply mono_ite
    | apply mono_mpeek
    | apply mono_mpeekN
    | apply mono_mread
    | apply mono_mmatch
    | apply mono_mmatchLpar
    | apply mono_onError
    | apply mono_getCtx
    | apply mono_guardLoc
    | apply mono_mquery
    | apply mono_mignore
    | apply mono_moption
    | exact mono_modifyCtx_keep fun c => rfl
    | apply mono_modifyCtx_or
    | apply mono_pure
    | apply mono_mfail

attribute [irreducible] ReadSimdLane

theorem mono_ReadSimdLanes : ∀ n, Mono (ReadSimdLanes n) := by
  intro n
  induction n with
  | zero =>
    simp only [ReadSimdLanes]
    exact mono_pure _
  | succ n ihn =>
    unfold ReadSimdLanes
    repeat' first
      | cases a
      | refine mono_bind ?_ fun a => ?_
      | apply ihn
      | apply mono_ReadSimdLane
      | apply mono_ite
      | apply mono_mpeek
      | apply mono_mpeekN
      | apply mono_mread
      | apply mono_mmatch
      | apply mono_mmatchLpar
      | apply mono_onError
      | apply mono_getCtx
      | apply mono_guardLoc
      | apply mono_mquery
      | apply mono_mignore
      | apply mono_moption
      | exact mono_modifyCtx_keep fun c => rfl
      | apply mono_modifyCtx_or
      | apply mono_pure
      | apply mono_mfail

attribute [irreducible] ReadSimdLanes

theorem mono_ReadSimdShuffleImmediate : Mono (ReadSimdShuffleImmediate) :=
  mono_ReadSimdLanes 16

attribute [irreducible] ReadSimdShuffleImmediate

theorem mono_ReadSimdValues (isFloat : Bool) (bits : Nat) :
    ∀ n, Mono (ReadSimdValues isFloat bits n) := by
  intro n
  induction n with
  | zero =>
    simp only [ReadSimdValues]
    exact mono_pure _
  | succ n ihn =>
    unfold ReadSimdValues
    repeat' first
      | cases a
      | refine mono_bind ?_ fun a => ?_
      | apply ihn
      | apply mono_ReadFloat
      | apply mono_ReadInt
      | apply mono_ite
      | apply mono_mpeek
      | apply mono_mpeekN
      | apply mono_mread
      | apply mono_mmatch
      | apply mono_mmatchLpar
      | apply mono_onError
      | apply mono_getCtx
      | apply mono_guardLoc
      | apply mono_mquery
      | apply mono_mignore
      | apply mono_moption
      | exact mono_modifyCtx_keep fun c => rfl
      | apply mono_modifyCtx_or
      | apply mono_pure
      | apply mono_mfail

attribute [irreducible] ReadSimdValues

theorem mono_CheckOpcodeEnabled (t : Token) : Mono (CheckOpcodeEnabled t) := by
  unfold CheckOpcodeEnabled
  repeat' first
    | cases a
    | refine mono_bind ?_ fun a => ?_
    | apply mono_ite
    | apply mono_mpeek
    | apply mono_mpeekN
    | apply mono_mread
    | apply mono_mmatch
    | apply mono_mmatchLpar
    | apply mono_onError
    | apply mono_getCtx
    | apply mono_guardLoc
    | apply mono_mquery
    | apply mono_mignore
    | apply mono_moption
    | exact mono_modifyCtx_keep fun c => rfl
    | apply mono_modifyCtx_or
    | apply mono_pure
    | apply mono_mfail

attribute [irreducible] CheckOpcodeEnabled

theorem mono_ReadPlainInstruction (fuel : Nat) : Mono (ReadPlainInstruction fuel) := by
  unfold ReadPlainInstruction
  refine mono_bind mono_guardLoc fun gloc => ?_
  refine mono_bind mono_mpeek fun token => ?_
  cases hct : token.type
  case simdConstInstr =>
    refine mono_bind (mono_CheckOpcodeEnabled _) fun u => ?_
    refine mono_bind mono_mread fun u2 => ?_
    refine mono_bind mono_mpeek fun simdTok => ?_
    refine mono_bind ?_ fun imm => ?_
    · cases hst : simdTok.type <;>
        first
          | exact mono_pure _
          | exact mono_bind mono_mread fun _ => mono_moption (mono_ReadSimdValues _ _ _)
    · cases imm
      · exact mono_bind (mono_onError _ _) fun _ => mono_mfail
      · exact mono_pure _
  all_goals
    repeat' first
      | cases a
      | refine mono_bind ?_ fun a => ?_
      | apply mono_CheckOpcodeEnabled
      | apply mono_ReadReferenceKind
      | apply mono_ReadVar
      | apply mono_ReadNonEmptyVarList
      | apply mono_ReadVarOpt
      | apply mono_ReadFunctionTypeUse
      | apply mono_ReadFloat
      | apply mono_ReadInt
      | apply mono_ReadOffsetOpt
      | apply mono_ReadAlignOpt
      | apply mono_ReadResultList
      | apply mono_ReadSimdLane
      | apply mono_ReadSimdShuffleImmediate
      | apply mono_ReadSimdValues
      | apply mono_ite
      | apply mono_mpeek
      | apply mono_mpeekN
      | apply mono_mread
      | apply mono_mmatch
      | apply mono_mmatchLpar
      | apply mono_onError
      | apply mono_getCtx
      | apply mono_guardLoc
      | apply mono_mquery
      | apply mono_mignore
      | apply mono_moption
      | exact mono_modifyCtx_keep fun c => rfl
      | apply mono_modifyCtx_or
      | apply mono_pure
      | apply mono_mfail
      | cases hq : a.type
      | cases hg : a.getLast?

attribute [irreducible] ReadPlainInstruction

theorem mono_ReadLabelOpt : Mono (ReadLabelOpt) := by
  unfold ReadLabelOpt
  repeat' first
    | cases a
    | refine mono_bind ?_ fun a => ?_
    | apply mono_ite
    | apply mono_mpeek
    | apply mono_mpeekN
    | apply mono_mread
    | apply mono_mmatch
    | apply mono_mmatchLpar
    | apply mono_onError
    | apply mono_getCtx
    | apply mono_guardLoc
    | apply mono_mquery
    | apply mono_mignore
    | apply mono_moption
    | exact mono_modifyCtx_keep fun c => rfl
    | apply mono_modifyCtx_or
    | apply mono_pure
    | apply mono_mfail

attribute [irreducible] ReadLabelOpt

theorem mono_ReadEndLabelOpt (label : Option BindVar) : Mono (ReadEndLabelOpt label) := by
  unfold ReadEndLabelOpt
  refine mono_bind mono_mpeek fun t => ?_
  refine mono_bind (mono_ReadBindVarOpt _) fun p => ?_
  rcases p with ⟨el, nm⟩
  cases el
  · exact mono_pure _
  · dsimp only
    cases label
    · exact mono_bind (mono_onError _ _) fun _ => mono_mfail
    · apply mono_ite
      · exact mono_pure _
      · exact mono_bind (mono_onError _ _) fun _ => mono_mfail

attribute [irreducible] ReadEndLabelOpt

theorem mono_ReadBlockImmediate (fuel : Nat) : Mono (ReadBlockImmediate fuel) := by
  unfold ReadBlockImmediate
  repeat' first
    | cases a
    | refine mono_bind ?_ fun a => ?_
    | apply mono_ReadLabelOpt
    | apply mono_ReadTypeUseOpt
    | apply mono_ReadFunctionType
    | apply mono_ite
    | apply mono_mpeek
    | apply mono_mpeekN
    | apply mono_mread
    | apply mono_mmatch
    | apply mono_mmatchLpar
    | apply mono_onError
    | apply mono_getCtx
    | apply mono_guardLoc
    | apply mono_mquery
    | apply mono_mignore
    | apply mono_moption
    | exact mono_modifyCtx_keep fun c => rfl
    | apply mono_modifyCtx_or
    | apply mono_pure
    | apply mono_mfail

attribute [irreducible] ReadBlockImmediate

theorem mono_ReadOpcodeOpt (tt : TokenType) (acc : InstructionList) : Mono (ReadOpcodeOpt tt acc) := by
  unfold ReadOpcodeOpt
  repeat' first
    | cases a
    | refine mono_bind ?_ fun a => ?_
    | apply mono_ite
    | apply mono_mpeek
    | apply mono_mpeekN
    | apply mono_mread
    | apply mono_mmatch
    | apply mono_mmatchLpar
    | apply mono_onError
    | apply mono_getCtx
    | apply mono_guardLoc
    | apply mono_mquery
    | apply mono_mignore
    | apply mono_moption
    | exact mono_modifyCtx_keep fun c => rfl
    | apply mono_modifyCtx_or
    | apply mono_pure
    | apply mono_mfail

attribute [irreducible] ReadOpcodeOpt

theorem mono_ExpectOpcode (tt : TokenType) (acc : InstructionList) : Mono (ExpectOpcode tt acc) := by
  unfold ExpectOpcode
  repeat' first
    | cases a
    | refine mono_bind ?_ fun a => ?_
    | apply mono_ReadOpcodeOpt
    | apply mono_ite
    | apply mono_mpeek
    | apply mono_mpeekN
    | apply mono_mread
    | apply mono_mmatch
    | apply mono_mmatchLpar
    | apply mono_onError
    | apply mono_getCtx
    | apply mono_guardLoc
    | apply mono_mquery
    | apply mono_mignore
    | apply mono_moption
    | exact mono_modifyCtx_keep fun c => rfl
    | apply mono_modifyCtx_or
    | apply mono_pure
    | apply mono_mfail

attribute [irreducible] ExpectOpcode

theorem mono_EndBlockInstruction (label : Option BindVar) (acc : InstructionList) : Mono (EndBlockInstruction label acc) := by
  unfold EndBlockInstruction
  repeat' first
    | cases a
    | refine mono_bind ?_ fun a => ?_
    | apply mono_ExpectOpcode
    | apply mono_ReadEndLabelOpt
    | apply mono_ite
    | apply mono_mpeek
    | apply mono_mpeekN
    | apply mono_mread
    | apply mono_mmatch
    | apply mono_mmatchLpar
    | apply mono_onError
    | apply mono_getCtx
    | apply mono_guardLoc
    | apply mono_mquery
    | apply mono_mignore
    | apply mono_moption
    | exact mono_modifyCtx_keep fun c => rfl
    | apply mono_modifyCtx_or
    | apply mono_pure
    | apply mono_mfail

attribute [irreducible] EndBlockInstruction

theorem mono_ReadExpressionRparEnd (acc : InstructionList) : Mono (ReadExpressionRparEnd acc) := by
  unfold ReadExpressionRparEnd
  repeat' first
    | cases a
    | refine mono_bind ?_ fun a => ?_
    | apply mono_Expect
    | apply mono_ite
    | apply mono_mpeek
    | apply mono_mpeekN
    | apply mono_mread
    | apply mono_mmatch
    | apply mono_mmatchLpar
    | apply mono_onError
    | apply mono_getCtx
    | apply mono_guardLoc
    | apply mono_mquery
    | apply mono_mignore
    | apply mono_moption
    | exact mono_modifyCtx_keep fun c => rfl
    | apply mono_modifyCtx_or
    | apply mono_pure
    | apply mono_mfail

attribute [irreducible] ReadExpressionRparEnd

set_option maxHeartbeats 2000000 in
theorem mono_instr (fuel : Nat) :
    (∀ acc, Mono (ReadInstruction fuel acc))
    ∧ (∀ acc, Mono (ReadInstructionList fuel acc))
    ∧ (∀ acc, Mono (ReadBlockInstruction fuel acc))
    ∧ (∀ acc, Mono (ReadExpression fuel acc))
    ∧ (∀ acc, Mono (ReadExpressionList fuel acc)) := by
  induction fuel with
  | zero =>
    refine ⟨fun acc => ?_, fun acc => ?_, fun acc => ?_, fun acc => ?_, fun acc => ?_⟩
    · simp only [ReadInstruction]; exact mono_mfail
    · simp only [ReadInstructionList]; exact mono_mfail
    · simp only [ReadBlockInstruction]; exact mono_mfail
    · simp only [ReadExpression]; exact mono_mfail
    · simp only [ReadExpressionList]; exact mono_mfail
  | succ n ih =>
    obtain ⟨ihI, ihIL, ihB, ihE, ihEL⟩ := ih
    refine ⟨fun acc => ?_, fun acc => ?_, fun acc => ?_, fun acc => ?_, fun acc => ?_⟩
    · unfold ReadInstruction
      repeat' first
        | cases a
        | refine mono_bind ?_ fun a => ?_
        | apply ihI
        | apply ihIL
        | apply ihB
        | apply ihE
        | apply ihEL
        | apply mono_ReadPlainInstruction
        | apply mono_ReadBlockImmediate
        | apply mono_ReadOpcodeOpt
        | apply mono_ExpectOpcode
        | apply mono_ReadEndLabelOpt
        | apply mono_EndBlockInstruction
        | apply mono_ReadExpressionRparEnd
        | apply mono_Expect
        | apply mono_ExpectLpar
        | apply mono_ite
        | apply mono_mpeek
        | apply mono_mpeekN
        | apply mono_mread
        | apply mono_mmatch
        | apply mono_mmatchLpar
        | apply mono_onError
        | apply mono_getCtx
        | apply mono_guardLoc
        | apply mono_mquery
        | apply mono_mignore
        | apply mono_moption
        | exact mono_modifyCtx_keep fun c => rfl
        | apply mono_modifyCtx_or
        | apply mono_pure
        | apply mono_mfail
    · unfold ReadInstructionList
      repeat' first
        | cases a
        | refine mono_bind ?_ fun a => ?_
        | apply ihI
        | apply ihIL
        | apply ihB
        | apply ihE
        | apply ihEL
        | apply mono_ReadPlainInstruction
        | apply mono_ReadBlockImmediate
        | apply mono_ReadOpcodeOpt
        | apply mono_ExpectOpcode
        | apply mono_ReadEndLabelOpt
        | apply mono_EndBlockInstruction
        | apply mono_ReadExpressionRparEnd
        | apply mono_Expect
        | apply mono_ExpectLpar
        | apply mono_ite
        | apply mono_mpeek
        | apply mono_mpeekN
        | apply mono_mread
        | apply mono_mmatch
        | apply mono_mmatchLpar
        | apply mono_onError
        | apply mono_getCtx
        | apply mono_guardLoc
        | apply mono_mquery
        | apply mono_mignore
        | apply mono_moption
        | exact mono_modifyCtx_keep fun c => rfl
        | apply mono_modifyCtx_or
        | apply mono_pure
        | apply mono_mfail
    · unfold ReadBlockInstruction
      refine mono_bind mono_guardLoc fun gloc => ?_
      refine mono_bind (mono_mmatch _) fun a => ?_
      rcases a with _ | token
      · exact mono_mfail
      · dsimp only
        refine mono_bind (mono_ReadBlockImmediate n) fun block => ?_
        refine mono_bind (ihIL _) fun i2 => ?_
        cases hco : token.opcode <;>
        repeat' first
          | cases a
          | refine mono_bind ?_ fun a => ?_
          | apply ihI
          | apply ihIL
          | apply ihB
          | apply ihE
          | apply ihEL
          | apply mono_ReadPlainInstruction
          | apply mono_ReadBlockImmediate
          | apply mono_ReadOpcodeOpt
          | apply mono_ExpectOpcode
          | apply mono_ReadEndLabelOpt
          | apply mono_EndBlockInstruction
          | apply mono_ReadExpressionRparEnd
          | apply mono_Expect
          | apply mono_ExpectLpar
          | apply mono_ite
          | apply mono_mpeek
          | apply mono_mpeekN
          | apply mono_mread
          | apply mono_mmatch
          | apply mono_mmatchLpar
          | apply mono_onError
          | apply mono_getCtx
          | apply mono_guardLoc
          | apply mono_mquery
          | apply mono_mignore
          | apply mono_moption
          | exact mono_modifyCtx_keep fun c => rfl
          | apply mono_modifyCtx_or
          | apply mono_pure
          | apply mono_mfail
    · unfold ReadExpression
      refine mono_bind (mono_Expect _) fun l => ?_
      refine mono_bind mono_mpeek fun token => ?_
      apply mono_ite
      · repeat' first
          | cases a
          | refine mono_bind ?_ fun a => ?_
          | apply ihI
          | apply ihIL
          | apply ihB
          | apply ihE
          | apply ihEL
          | apply mono_ReadPlainInstruction
          | apply mono_ReadBlockImmediate
          | apply mono_ReadOpcodeOpt
          | apply mono_ExpectOpcode
          | apply mono_ReadEndLabelOpt
          | apply mono_EndBlockInstruction
          | apply mono_ReadExpressionRparEnd
          | apply mono_Expect
          | apply mono_ExpectLpar
          | apply mono_ite
          | apply mono_mpeek
          | apply mono_mpeekN
          | apply mono_mread
          | apply mono_mmatch
          | apply mono_mmatchLpar
          | apply mono_onError
          | apply mono_getCtx
          | apply mono_guardLoc
          | apply mono_mquery
          | apply mono_mignore
          | apply mono_moption
          | exact mono_modifyCtx_keep fun c => rfl
          | apply mono_modifyCtx_or
          | apply mono_pure
          | apply mono_mfail
      · apply mono_ite
        · refine mono_bind mono_guardLoc fun gloc => ?_
          refine mono_bind mono_mread fun x => ?_
          refine mono_bind (mono_ReadBlockImmediate n) fun block => ?_
          cases hco : token.opcode <;>
          repeat' first
            | cases a
            | refine mono_bind ?_ fun a => ?_
            | apply ihI
            | apply ihIL
            | apply ihB
            | apply ihE
            | apply ihEL
            | apply mono_ReadPlainInstruction
            | apply mono_ReadBlockImmediate
            | apply mono_ReadOpcodeOpt
            | apply mono_ExpectOpcode
            | apply mono_ReadEndLabelOpt
            | apply mono_EndBlockInstruction
            | apply mono_ReadExpressionRparEnd
            | apply mono_Expect
            | apply mono_ExpectLpar
            | apply mono_ite
            | apply mono_mpeek
            | apply mono_mpeekN
            | apply mono_mread
            | apply mono_mmatch
            | apply mono_mmatchLpar
            | apply mono_onError
            | apply mono_getCtx
            | apply mono_guardLoc
            | apply mono_mquery
            | apply mono_mignore
            | apply mono_moption
            | exact mono_modifyCtx_keep fun c => rfl
            | apply mono_modifyCtx_or
            | apply mono_pure
            | apply mono_mfail
        · exact mono_bind (mono_onError _ _) fun _ => mono_mfail
    · unfold ReadExpressionList
      repeat' first
        | cases a
        | refine mono_bind ?_ fun a => ?_
        | apply ihI
        | apply ihIL
        | apply ihB
        | apply ihE
        | apply ihEL
        | apply mono_ReadPlainInstruction
        | apply mono_ReadBlockImmediate
        | apply mono_ReadOpcodeOpt
        | apply mono_ExpectOpcode
        | apply mono_ReadEndLabelOpt
        | apply mono_EndBlockInstruction
        | apply mono_ReadExpressionRparEnd
        | apply mono_Expect
        | apply mono_ExpectLpar
        | apply mono_ite
        | apply mono_mpeek
        | apply mono_mpeekN
        | apply mono_mread
        | apply mono_mmatch
        | apply mono_mmatchLpar
        | apply mono_onError
        | apply mono_getCtx
        | apply mono_guardLoc
        | apply mono_mquery
        | apply mono_mignore
        | apply mono_moption
        | exact mono_modifyCtx_keep fun c => rfl
        | apply mono_modifyCtx_or
        | apply mono_pure
        | apply mono_mfail

attribute [irreducible] ReadInstruction ReadInstructionList ReadBlockInstruction ReadExpression ReadExpressionList

theorem mono_ReadInstructionList (fuel : Nat) (acc : InstructionList) :
    Mono (ReadInstructionList fuel acc) := (mono_instr fuel).2.1 acc

theorem mono_ReadExpression (fuel : Nat) (acc : InstructionList) :
    Mono (ReadExpression fuel acc) := (mono_instr fuel).2.2.2.1 acc

theorem mono_ReadConstantExpression (fuel : Nat) : Mono (ReadConstantExpression fuel) := by
  unfold ReadConstantExpression
  repeat' first
    | cases a
    | refine mono_bind ?_ fun a => ?_
    | apply mono_ReadInstructionList
    | apply mono_ite
    | apply mono_mpeek
    | apply mono_mpeekN
    | apply mono_mread
    | apply mono_mmatch
    | apply mono_mmatchLpar
    | apply mono_onError
    | apply mono_getCtx
    | apply mono_guardLoc
    | apply mono_mquery
    | apply mono_mignore
    | apply mono_moption
    | exact mono_modifyCtx_keep fun c => rfl
    | apply mono_modifyCtx_or
    | apply mono_pure
    | apply mono_mfail

attribute [irreducible] ReadConstantExpression

theorem mono_ReadOffsetExpression (fuel : Nat) : Mono (ReadOffsetExpression fuel) := by
  unfold ReadOffsetExpression
  repeat' first
    | cases a
    | refine mono_bind ?_ fun a => ?_
    | apply mono_ReadInstructionList
    | apply mono_ReadExpression
    | apply mono_Expect
    | apply mono_ite
    | apply mono_mpeek
    | apply mono_mpeekN
    | apply mono_mread
    | apply mono_mmatch
    | apply mono_mmatchLpar
    | apply mono_onError
    | apply mono_getCtx
    | apply mono_guardLoc
    | apply mono_mquery
    | apply mono_mignore
    | apply mono_moption
    | exact mono_modifyCtx_keep fun c => rfl
    | apply mono_modifyCtx_or
    | apply mono_pure
    | apply mono_mfail

attribute [irreducible] ReadOffsetExpression

theorem mono_ReadElementExpression (fuel : Nat) : Mono (ReadElementExpression fuel) := by
  intro s hs
  unfold ReadElementExpression
  rcases hm : mmatchLpar .item s with ⟨vo, s1⟩
  have h1 := mono_post (mono_mmatchLpar .item) hm hs
  rcases vo with _ | x
  · simp only [hm]; exact h1
  · rcases x with _ | tok
    · simp only [hm]
      split
      · split <;> exact hs
      · exact (seen_addErrSt _ _ s1).trans h1
    · simp only [hm]
      split <;> rename_i hil
      · split <;> rename_i hexq <;> exact mono_post (mono_Expect .rpar) hexq hs
      · exact hs

attribute [irreducible] ReadElementExpression

theorem mono_ReadElementExpressionList : ∀ fuel, Mono (ReadElementExpressionList fuel) := by
  intro fuel
  induction fuel with
  | zero =>
    simp only [ReadElementExpressionList]
    exact mono_mfail
  | succ n ihn =>
    unfold ReadElementExpressionList
    repeat' first
      | cases a
      | refine mono_bind ?_ fun a => ?_
      | apply ihn
      | apply mono_ReadElementExpression
      | apply mono_ite
      | apply mono_mpeek
      | apply mono_mpeekN
      | apply mono_mread
      | apply mono_mmatch
      | apply mono_mmatchLpar
      | apply mono_onError
      | apply mono_getCtx
      | apply mono_guardLoc
      | apply mono_mquery
      | apply mono_mignore
      | apply mono_moption
      | exact mono_modifyCtx_keep fun c => rfl
      | apply mono_modifyCtx_or
      | apply mono_pure
      | apply mono_mfail

attribute [irreducible] ReadElementExpressionList

theorem mono_ReadTableUseOpt : Mono (ReadTableUseOpt) :=
  mono_ReadVarUseOpt .table

attribute [irreducible] ReadTableUseOpt

theorem mono_ReadMemoryUseOpt : Mono (ReadMemoryUseOpt) :=
  mono_ReadVarUseOpt .memory

attribute [irreducible] ReadMemoryUseOpt

theorem mono_ReadElementSegmentTail (fuel : Nat) (name : Option BindVar) (tu : Option Var) (st : SegmentType) (off : Option ConstantExpression) : Mono (ReadElementSegmentTail fuel name tu st off) := by
  unfold ReadElementSegmentTail
  repeat' first
    | cases a
    | refine mono_bind ?_ fun a => ?_
    | apply mono_ReadVarList
    | apply mono_Expect
    | apply mono_ReadReferenceType
    | apply mono_ReadElementExpressionList
    | apply mono_ite
    | apply mono_mpeek
    | apply mono_mpeekN
    | apply mono_mread
    | apply mono_mmatch
    | apply mono_mmatchLpar
    | apply mono_onError
    | apply mono_getCtx
    | apply mono_guardLoc
    | apply mono_mquery
    | apply mono_mignore
    | apply mono_moption
    | exact mono_modifyCtx_keep fun c => rfl
    | apply mono_modifyCtx_or
    | apply mono_pure
    | apply mono_mfail

attribute [irreducible] ReadElementSegmentTail

theorem mono_ReadElementSegment (fuel : Nat) : Mono (ReadElementSegment fuel) := by
  unfold ReadElementSegment
  repeat' first
    | cases a
    | refine mono_bind ?_ fun a => ?_
    | apply mono_ExpectLpar
    | apply mono_ReadBindVarOpt
    | apply mono_ReadTableUseOpt
    | apply mono_ReadOffsetExpression
    | apply mono_ReadElementSegmentTail
    | apply mono_ReadVarList
    | apply mono_Expect
    | apply mono_ReadVarOpt
    | apply mono_ite
    | apply mono_mpeek
    | apply mono_mpeekN
    | apply mono_mread
    | apply mono_mmatch
    | apply mono_mmatchLpar
    | apply mono_onError
    | apply mono_getCtx
    | apply mono_guardLoc
    | apply mono_mquery
    | apply mono_mignore
    | apply mono_moption
    | exact mono_modifyCtx_keep fun c => rfl
    | apply mono_modifyCtx_or
    | apply mono_pure
    | apply mono_mfail

attribute [irreducible] ReadElementSegment

theorem mono_ReadInlineExport : Mono (ReadInlineExport) := by
  unfold ReadInlineExport
  repeat' first
    | cases a
    | refine mono_bind ?_ fun a => ?_
    | apply mono_ExpectLpar
    | apply mono_ReadUtf8Text
    | apply mono_Expect
    | apply mono_ite
    | apply mono_mpeek
    | apply mono_mpeekN
    | apply mono_mread
    | apply mono_mmatch
    | apply mono_mmatchLpar
    | apply mono_onError
    | apply mono_getCtx
    | apply mono_guardLoc
    | apply mono_mquery
    | apply mono_mignore
    | apply mono_moption
    | exact mono_modifyCtx_keep fun c => rfl
    | apply mono_modifyCtx_or
    | apply mono_pure
    | apply mono_mfail

attribute [irreducible] ReadInlineExport

theorem mono_ReadInlineExportList : ∀ fuel, Mono (ReadInlineExportList fuel) := by
  intro fuel
  induction fuel with
  | zero =>
    simp only [ReadInlineExportList]
    exact mono_mfail
  | succ n ihn =>
    unfold ReadInlineExportList
    repeat' first
      | cases a
      | refine mono_bind ?_ fun a => ?_
      | apply ihn
      | apply mono_ReadInlineExport
      | apply mono_ite
      | apply mono_mpeek
      | apply mono_mpeekN
      | apply mono_mread
      | apply mono_mmatch
      | apply mono_mmatchLpar
      | apply mono_onError
      | apply mono_getCtx
      | apply mono_guardLoc
      | apply mono_mquery
      | apply mono_mignore
      | apply mono_moption
      | exact mono_modifyCtx_keep fun c => rfl
      | apply mono_modifyCtx_or
      | apply mono_pure
      | apply mono_mfail

attribute [irreducible] ReadInlineExportList

theorem mono_ReadFunction (fuel : Nat) : Mono (ReadFunction fuel) := by
  unfold ReadFunction
  repeat' first
    | cases a
    | refine mono_bind ?_ fun a => ?_
    | apply mono_ExpectLpar
    | apply mono_ReadBindVarOpt
    | apply mono_ReadInlineExportList
    | apply mono_ReadInlineImportOpt
    | apply mono_ReadTypeUseOpt
    | apply mono_ReadBoundFunctionType
    | apply mono_ReadLocalList
    | apply mono_ReadInstructionList
    | apply mono_Expect
    | apply mono_ite
    | apply mono_mpeek
    | apply mono_mpeekN
    | apply mono_mread
    | apply mono_mmatch
    | apply mono_mmatchLpar
    | apply mono_onError
    | apply mono_getCtx
    | apply mono_guardLoc
    | apply mono_mquery
    | apply mono_mignore
    | apply mono_moption
    | exact mono_modifyCtx_keep fun c => rfl
    | apply mono_modifyCtx_or
    | apply mono_pure
    | apply mono_mfail

attribute [irreducible] ReadFunction

theorem mono_ReadTable (fuel : Nat) : Mono (ReadTable fuel) := by
  unfold ReadTable
  repeat' first
    | cases a
    | refine mono_bind ?_ fun a => ?_
    | apply mono_ExpectLpar
    | apply mono_ReadBindVarOpt
    | apply mono_ReadInlineExportList
    | apply mono_ReadInlineImportOpt
    | apply mono_ReadReferenceTypeOpt
    | apply mono_ReadTableType
    | apply mono_ReadElementExpressionList
    | apply mono_ReadVarList
    | apply mono_Expect
    | apply mono_ite
    | apply mono_mpeek
    | apply mono_mpeekN
    | apply mono_mread
    | apply mono_mmatch
    | apply mono_mmatchLpar
    | apply mono_onError
    | apply mono_getCtx
    | apply mono_guardLoc
    | apply mono_mquery
    | apply mono_mignore
    | apply mono_moption
    | exact mono_modifyCtx_keep fun c => rfl
    | apply mono_modifyCtx_or
    | apply mono_pure
    | apply mono_mfail

attribute [irreducible] ReadTable

theorem mono_ReadMemory (fuel : Nat) : Mono (ReadMemory fuel) := by
  unfold ReadMemory
  repeat' first
    | cases a
    | refine mono_bind ?_ fun a => ?_
    | apply mono_ExpectLpar
    | apply mono_ReadBindVarOpt
    | apply mono_ReadInlineExportList
    | apply mono_ReadInlineImportOpt
    | apply mono_ReadMemoryType
    | apply mono_ReadTextList
    | apply mono_Expect
    | apply mono_ite
    | apply mono_mpeek
    | apply mono_mpeekN
    | apply mono_mread
    | apply mono_mmatch
    | apply mono_mmatchLpar
    | apply mono_onError
    | apply mono_getCtx
    | apply mono_guardLoc
    | apply mono_mquery
    | apply mono_mignore
    | apply mono_moption
    | exact mono_modifyCtx_keep fun c => rfl
    | apply mono_modifyCtx_or
    | apply mono_pure
    | apply mono_mfail

attribute [irreducible] ReadMemory

theorem mono_ReadGlobal (fuel : Nat) : Mono (ReadGlobal fuel) := by
  unfold ReadGlobal
  repeat' first
    | cases a
    | refine mono_bind ?_ fun a => ?_
    | apply mono_ExpectLpar
    | apply mono_ReadBindVarOpt
    | apply mono_ReadInlineExportList
    | apply mono_ReadInlineImportOpt
    | apply mono_ReadGlobalType
    | apply mono_ReadConstantExpression
    | apply mono_Expect
    | apply mono_ite
    | apply mono_mpeek
    | apply mono_mpeekN
    | apply mono_mread
    | apply mono_mmatch
    | apply mono_mmatchLpar
    | apply mono_onError
    | apply mono_getCtx
    | apply mono_guardLoc
    | apply mono_mquery
    | apply mono_mignore
    | apply mono_moption
    | exact mono_modifyCtx_keep fun c => rfl
    | apply mono_modifyCtx_or
    | apply mono_pure
    | apply mono_mfail

attribute [irreducible] ReadGlobal

theorem mono_ReadExport : Mono ReadExport := by
  unfold ReadExport
  refine mono_bind (mono_ExpectLpar _) fun t0 => ?_
  refine mono_bind mono_ReadUtf8Text fun nme => ?_
  refine mono_bind (mono_Expect _) fun l => ?_
  refine mono_bind mono_mpeek fun token => ?_
  cases hct : token.type <;>
    repeat' first
      | cases a
      | refine mono_bind ?_ fun a => ?_
      | apply mono_ReadVar
      | apply mono_Expect
      | apply mono_ite
      | apply mono_mpeek
      | apply mono_mpeekN
      | apply mono_mread
      | apply mono_mmatch
      | apply mono_mmatchLpar
      | apply mono_onError
      | apply mono_getCtx
      | apply mono_guardLoc
      | apply mono_mquery
      | apply mono_mignore
      | apply mono_moption
      | exact mono_modifyCtx_keep fun c => rfl
      | apply mono_modifyCtx_or
      | apply mono_pure
      | apply mono_mfail

attribute [irreducible] ReadExport

theorem mono_ReadStart : Mono (ReadStart) := by
  unfold ReadStart
  repeat' first
    | cases a
    | refine mono_bind ?_ fun a => ?_
    | apply mono_ExpectLpar
    | apply mono_ReadVar
    | apply mono_Expect
    | apply mono_ite
    | apply mono_mpeek
    | apply mono_mpeekN
    | apply mono_mread
    | apply mono_mmatch
    | apply mono_mmatchLpar
    | apply mono_onError
    | apply mono_getCtx
    | apply mono_guardLoc
    | apply mono_mquery
    | apply mono_mignore
    | apply mono_moption
    | exact mono_modifyCtx_keep fun c => rfl
    | apply mono_modifyCtx_or
    | apply mono_pure
    | apply mono_mfail

attribute [irreducible] ReadStart

theorem mono_ReadDataSegment (fuel : Nat) : Mono (ReadDataSegment fuel) := by
  unfold ReadDataSegment
  repeat' first
    | cases a
    | refine mono_bind ?_ fun a => ?_
    | apply mono_ExpectLpar
    | apply mono_ReadBindVarOpt
    | apply mono_ReadMemoryUseOpt
    | apply mono_ReadOffsetExpression
    | apply mono_ReadTextList
    | apply mono_Expect
    | apply mono_ReadVarOpt
    | apply mono_ite
    | apply mono_mpeek
    | apply mono_mpeekN
    | apply mono_mread
    | apply mono_mmatch
    | apply mono_mmatchLpar
    | apply mono_onError
    | apply mono_getCtx
    | apply mono_guardLoc
    | apply mono_mquery
    | apply mono_mignore
    | apply mono_moption
    | exact mono_modifyCtx_keep fun c => rfl
    | apply mono_modifyCtx_or
    | apply mono_pure
    | apply mono_mfail

attribute [irreducible] ReadDataSegment

theorem mono_ReadEvent (fuel : Nat) : Mono (ReadEvent fuel) := by
  unfold ReadEvent
  repeat' first
    | cases a
    | refine mono_bind ?_ fun a => ?_
    | apply mono_ExpectLpar
    | apply mono_ReadBindVarOpt
    | apply mono_ReadInlineExportList
    | apply mono_ReadInlineImportOpt
    | apply mono_ReadEventType
    | apply mono_Expect
    | apply mono_ite
    | apply mono_mpeek
    | apply mono_mpeekN
    | apply mono_mread
    | apply mono_mmatch
    | apply mono_mmatchLpar
    | apply mono_onError
    | apply mono_getCtx
    | apply mono_guardLoc
    | apply mono_mquery
    | apply mono_mignore
    | apply mono_moption
    | exact mono_modifyCtx_keep fun c => rfl
    | apply mono_modifyCtx_or
    | apply mono_pure
    | apply mono_mfail

attribute [irreducible] ReadEvent

theorem mono_ReadModuleItem (fuel : Nat) : Mono (ReadModuleItem fuel) := by
  unfold ReadModuleItem
  refine mono_bind mono_mpeek fun t => ?_
  apply mono_ite
  · exact mono_bind (mono_onError _ _) fun _ => mono_mfail
  · refine mono_bind (mono_mpeekN 1) fun t1 => ?_
    cases hct : t1.type <;>
      repeat' first
        | cases a
        | refine mono_bind ?_ fun a => ?_
        | apply mono_ReadTypeEntry
        | apply mono_ReadImport
        | apply mono_ReadFunction
        | apply mono_ReadTable
        | apply mono_ReadMemory
        | apply mono_ReadGlobal
        | apply mono_ReadExport
        | apply mono_ReadStart
        | apply mono_ReadElementSegment
        | apply mono_ReadDataSegment
        | apply mono_ReadEvent
        | apply mono_ite
        | apply mono_mpeek
        | apply mono_mpeekN
        | apply mono_mread
        | apply mono_mmatch
        | apply mono_mmatchLpar
        | apply mono_onError
        | apply mono_getCtx
        | apply mono_guardLoc
        | apply mono_mquery
        | apply mono_mignore
        | apply mono_moption
        | exact mono_modifyCtx_keep fun c => rfl
        | apply mono_modifyCtx_or
        | apply mono_pure
        | apply mono_mfail

attribute [irreducible] ReadModuleItem

theorem mono_ReadModuleLoop : ∀ fuel m, Mono (ReadModuleLoop fuel m) := by
  intro fuel
  induction fuel with
  | zero =>
    intro m
    simp only [ReadModuleLoop]
    exact mono_mfail
  | succ n ihn =>
    intro m
    unfold ReadModuleLoop
    repeat' first
      | cases a
      | refine mono_bind ?_ fun a => ?_
      | apply ihn
      | apply mono_ReadModuleItem
      | apply mono_ite
      | apply mono_mpeek
      | apply mono_mpeekN
      | apply mono_mread
      | apply mono_mmatch
      | apply mono_mmatchLpar
      | apply mono_onError
      | apply mono_getCtx
      | apply mono_guardLoc
      | apply mono_mquery
      | apply mono_mignore
      | apply mono_moption
      | exact mono_modifyCtx_keep fun c => rfl
      | apply mono_modifyCtx_or
      | apply mono_pure
      | apply mono_mfail

def c3ImpToks : List Token :=
  [ { type := .lpar, loc := 5 }, { type := .importTok, loc := 6 },
    { type := .text, loc := 7 } ]

def c3ImpSt : St := { toks := c3ImpToks, ctx := { seen_non_import := true } }

/-- C3: imports must occur before all non-import definitions.  Once the
module context records a non-import item (`seen_non_import`), a
subsequent top-level `(import ...)` fails with the
"Imports must occur before all non-import definitions" diagnostic, and
a subsequent inline `(import ...)` emits the same diagnostic and yields
no inline import.  A defined (non-import) item sets the flag (shown for
`(func)`), and the flag, once set, is never cleared by the module-item
loop, so it persists for the rest of the module. -/
theorem c3_imports_before_non_imports (fuel : Nat) (s : St)
    (hlp : (s.peek).type = .lpar) (him : (s.peek 1).type = .importTok)
    (hflag : s.ctx.seen_non_import = true) :
    ReadImport fuel s =
      (none, addErrSt (s.peek 1).loc importsMustPrecedeMsg
        { s with toks := s.toks.drop 2 })
    ∧ ReadInlineImportOpt s =
      (some none, addErrSt (s.peek 1).loc importsMustPrecedeMsg
        { s with toks := s.toks.drop 2 })
    ∧ (((ReadFunction 9 c3FuncSt).2).ctx.seen_non_import = true
       ∧ (ReadFunction 9 c3FuncSt).1.isSome = true)
    ∧ (∀ (f : Nat) (m : Module) (s' : St), s'.ctx.seen_non_import = true →
        ((ReadModuleLoop f m s').2).ctx.seen_non_import = true) :=
  ⟨c3import_rejected fuel s hlp him hflag,
   c3inline_rejected s hlp him hflag,
   c3func_sets_flag,
   fun f m s' h => mono_ReadModuleLoop f m s' h⟩

theorem c3_imports_before_non_imports_witness :
    ReadImport 5 c3ImpSt =
      (none, addErrSt (c3ImpSt.peek 1).loc importsMustPrecedeMsg
        { c3ImpSt with toks := c3ImpSt.toks.drop 2 })
    ∧ ReadInlineImportOpt c3ImpSt =
      (some none, addErrSt (c3ImpSt.peek 1).loc importsMustPrecedeMsg
        { c3ImpSt with toks := c3ImpSt.toks.drop 2 })
    ∧ ((ReadModuleLoop 3 [] c3ImpSt).2).ctx.seen_non_import = true := by
  have h := c3_imports_before_non_imports 5 c3ImpSt rfl rfl rfl
  exact ⟨h.1, h.2.1, h.2.2.2 3 [] c3ImpSt rfl⟩

end Wasp
